import Mathlib

/-!
# SeeYou waypoint file parser (`src/WayPoint/WayPointFileSeeYou.cpp`)

A shallow embedding of `WayPointFileSeeYou::parseLine` and of the field
parsers it calls (`parseAngle`, `parseAltitude`, `parseDistance`,
`parseStyle`, `appendStringWithSeperator`), followed by theorems about them.

Conventions of the embedding

* A C string (`const TCHAR*`) is the list of its characters before the
  terminating NUL; a pointer into a string is the suffix that starts there,
  and reading `*p` at the end of the string yields NUL (`deref`).
* `fixed` is taken as exact rational arithmetic, and an `Angle` is its value
  in degrees.
* A `double` is a finite value of IEEE 754 binary64, kept as the rational it
  denotes, an infinity or a NaN (`Double`); `strtod` is the function of ISO
  C99 and rounds to nearest, ties to even.
* `long` is a two's complement type with largest value `LONG_MAX`, which is a
  parameter of the embedding (`2^31 - 1` on the Windows targets, `2^63 - 1` on
  LP64 targets); `int` has 32 bits.
* The function-local `static` variables of `parseLine` are the fields of
  `ParserState`, threaded explicitly through every call.
-/

namespace WayPointFileSeeYou

/-- A C string: the characters before the terminating NUL. -/
abbrev CStr := List Char

/-- The numeric type `fixed`, taken exactly. -/
abbrev fixed := ℚ

/-- The terminating NUL character. -/
def NUL : Char := Char.ofNat 0

/-- Reading `*p`: the first character, or NUL at the end of the string. -/
def deref (p : CStr) : Char := p.headD NUL

/-- The C locale `isspace`: space, and the controls `\t \n \v \f \r`. -/
def isspace (c : Char) : Bool := c.toNat == 32 || (9 ≤ c.toNat && c.toNat ≤ 13)

/-- The C locale `isdigit`. -/
def isdigit (c : Char) : Bool := 48 ≤ c.toNat && c.toNat ≤ 57

/-- Value of a decimal digit character. -/
def digitValue (c : Char) : Nat := c.toNat - 48

/-- Value of a run of decimal digits, most significant first. -/
def decimalValue (ds : List Char) : Nat :=
  ds.foldl (fun acc c => 10 * acc + digitValue c) 0

/-- Number of characters of an optional sign at the start of `p`. -/
def signLength (p : CStr) : Nat :=
  if deref p = '-' ∨ deref p = '+' then 1 else 0

/-- Clamping of an out-of-range conversion to `LONG_MIN .. LONG_MAX`, as
`strtol` does on overflow. -/
def saturate (LONG_MAX : Int) (v : Int) : Int :=
  if LONG_MAX < v then LONG_MAX
  else if v < -LONG_MAX - 1 then -LONG_MAX - 1
  else v

/-- The C library `strtol(src, &endptr, 10)` (`_tcstol`): skips white space,
reads an optional sign and the longest run of decimal digits. The result is
the converted value and the number of characters consumed, so that
`endptr = src + consumed`; when there is no digit nothing is consumed
(`endptr == src`) and the value is 0. -/
def strtol (LONG_MAX : Int) (src : CStr) : Int × Nat :=
  let ws := src.takeWhile isspace
  let p1 := src.dropWhile isspace
  let sg := signLength p1
  let ds := (p1.drop sg).takeWhile isdigit
  if ds = [] then (0, 0)
  else
    let v : Int := decimalValue ds
    (saturate LONG_MAX (if deref p1 = '-' then -v else v),
      ws.length + sg + ds.length)

/-- `WayPointFileSeeYou::parseAngle`: `none` is the `false` return, `some v`
is the `true` return with `dest = Angle::degrees(v)`. -/
def parseAngle (LONG_MAX : Int) (src : CStr) (lat : Bool) : Option fixed :=
  let r := strtol LONG_MAX src
  let endptr := src.drop r.2
  if r.2 = 0 ∨ deref endptr ≠ '.' ∨ r.1 < 0 then none
  else
    let src1 := endptr.drop 1
    let deg := Int.tdiv r.1 100
    let min := Int.tmod r.1 100
    if 60 ≤ min then none
    else
      let deg := Min.min deg (if lat then 90 else 180)
      let r1 := strtol LONG_MAX src1
      let l := r1.1
      if r1.2 ≠ 3 ∨ l < 0 ∨ 1000 ≤ l then none
      else
        let value : fixed := (deg : fixed) + (min : fixed) / 60 + (l : fixed) / 60000
        let sign := deref (src1.drop r1.2)
        if sign = 'W' ∨ sign = 'w' ∨ sign = 'S' ∨ sign = 's' then some (-value)
        else some value

/-- A value of the C type `double`: a finite value, given exactly, an infinity
with its sign, or a NaN. -/
inductive Double where
  | finite (value : ℚ)
  | infinite (negative : Bool)
  | nan
  deriving DecidableEq

/-- The power `b ^ e` for an integer exponent `e`. -/
def power (b : Nat) (e : Int) : ℚ :=
  if 0 ≤ e then ((b ^ e.toNat : Nat) : ℚ) else 1 / ((b ^ (-e).toNat : Nat) : ℚ)

/-- The binary logarithm of `n`, rounded down, in at most `fuel` halvings. -/
def log2Fuel : Nat → Nat → Nat
  | 0, _ => 0
  | fuel + 1, n => if 2 ≤ n then log2Fuel fuel (n / 2) + 1 else 0

/-- The binary exponent of a rational `q ≠ 0`: the `e` with
`2 ^ e ≤ |q| < 2 ^ (e + 1)`. -/
def ilog2 (q : ℚ) : Int :=
  let e : Int := (log2Fuel q.num.natAbs q.num.natAbs : Int) - (log2Fuel q.den q.den : Int)
  if power 2 e ≤ |q| then e else e - 1

/-- Rounding to the nearest integer, a tie to the even one. -/
def roundHalfEven (x : ℚ) : Int :=
  let f := ⌊x⌋
  if x - f < 1 / 2 then f
  else if 1 / 2 < x - f then f + 1
  else if f % 2 = 0 then f
  else f + 1

/-- Rounding of a real value to a `double` (IEEE 754 binary64, round to
nearest, ties to even): 53 significant bits, least exponent -1022 with gradual
underflow below it, and overflow to an infinity. -/
def roundToDouble (q : ℚ) : Double :=
  if q = 0 then Double.finite 0
  else
    let e := Max.max (ilog2 q) (-1022)
    let ulp := power 2 (e - 52)
    let v := (roundHalfEven (|q| / ulp) : ℚ) * ulp
    if power 2 1024 ≤ v then Double.infinite (decide (q < 0))
    else Double.finite (if q < 0 then -v else v)

/-- The C locale `isxdigit`. -/
def isxdigit (c : Char) : Bool :=
  isdigit c || (97 ≤ c.toNat && c.toNat ≤ 102) || (65 ≤ c.toNat && c.toNat ≤ 70)

/-- Value of a hexadecimal digit character. -/
def hexDigitValue (c : Char) : Nat :=
  if isdigit c then c.toNat - 48
  else if 97 ≤ c.toNat then c.toNat - 87
  else c.toNat - 55

/-- Value of a run of hexadecimal digits, most significant first. -/
def hexadecimalValue (ds : List Char) : Nat :=
  ds.foldl (fun acc c => 16 * acc + hexDigitValue c) 0

/-- ASCII `tolower`. -/
def tolower (c : Char) : Char :=
  if 65 ≤ c.toNat ∧ c.toNat ≤ 90 then Char.ofNat (c.toNat + 32) else c

/-- Digits of the mantissa of a floating constant at `p`, for the digits that
`isd` accepts: the digits before the point, whether a point is consumed, and
the digits after it. A point is taken when a digit stands on one side of it at
least. -/
def mantissa (isd : Char → Bool) (p : CStr) : List Char × Bool × List Char :=
  let ip := p.takeWhile isd
  let q := p.drop ip.length
  if deref q = '.' then
    let fp := (q.drop 1).takeWhile isd
    if ip = [] ∧ fp = [] then ([], false, []) else (ip, true, fp)
  else (ip, false, [])

/-- Exponent part at `p` (the letter `lower` or `upper`, an optional sign, one
decimal digit at least): the exponent and the number of characters it takes,
`(0, 0)` when there is none. -/
def exponent (lower upper : Char) (p : CStr) : Int × Nat :=
  if deref p = lower ∨ deref p = upper then
    let q := p.drop 1
    let sg := signLength q
    let ds := (q.drop sg).takeWhile isdigit
    if ds = [] then (0, 0)
    else
      let e : Int := decimalValue ds
      (if deref q = '-' then -e else e, 1 + sg + ds.length)
  else (0, 0)

/-- Whether `p` begins with `word` (given in lower case), ignoring case. -/
def beginsIgnoringCase (p word : CStr) : Bool :=
  (p.take word.length).map tolower == word

/-- The characters of the sequence in `nan(...)`: digits, letters and `_`. -/
def isnchar (c : Char) : Bool :=
  isdigit c || (97 ≤ c.toNat && c.toNat ≤ 122) || (65 ≤ c.toNat && c.toNat ≤ 90) ||
    c.toNat == 95

/-- Number of characters of a `(n-char-sequence)` at `p`, right after `nan`:
0 when there is none or it is not closed. -/
def nanSequence (p : CStr) : Nat :=
  if deref p = '(' then
    let body := (p.drop 1).takeWhile isnchar
    if deref ((p.drop 1).drop body.length) = ')' then body.length + 2 else 0
  else 0

/-- The subject sequence of the C library `strtod` of ISO C99 at `p`, where
white space and sign have been passed and `negative` tells whether the sign was
`-`. It is the longest of: `infinity` or `inf`; `nan` with an optional
`(n-char-sequence)`; `0x` and a non-empty hexadecimal digit sequence that may
hold a point, with an optional binary exponent `p`; a non-empty decimal digit
sequence that may hold a point, with an optional exponent `e`. Letters are
read ignoring case and the value is rounded to `double`. The result is the
value and the number of characters of the sequence, 0 when there is none. -/
def strtodBody (negative : Bool) (p : CStr) : Double × Nat :=
  if beginsIgnoringCase p "infinity".toList then (Double.infinite negative, 8)
  else if beginsIgnoringCase p "inf".toList then (Double.infinite negative, 3)
  else if beginsIgnoringCase p "nan".toList then (Double.nan, 3 + nanSequence (p.drop 3))
  else
    let hm := mantissa isxdigit (p.drop 2)
    if (deref p = '0' ∧ (deref (p.drop 1) = 'x' ∨ deref (p.drop 1) = 'X')) ∧
        ¬ (hm.1 = [] ∧ hm.2.2 = []) then
      let mlen := 2 + hm.1.length + (if hm.2.1 then 1 else 0) + hm.2.2.length
      let ex := exponent 'p' 'P' (p.drop mlen)
      let mag : ℚ :=
        ((hexadecimalValue (hm.1 ++ hm.2.2) : ℚ) / ((16 ^ hm.2.2.length : Nat) : ℚ)) *
          power 2 ex.1
      (roundToDouble (if negative then -mag else mag), mlen + ex.2)
    else
      let m := mantissa isdigit p
      if m.1 = [] ∧ m.2.2 = [] then (Double.finite 0, 0)
      else
        let mlen := m.1.length + (if m.2.1 then 1 else 0) + m.2.2.length
        let ex := exponent 'e' 'E' (p.drop mlen)
        let mag : ℚ :=
          ((decimalValue (m.1 ++ m.2.2) : ℚ) / ((10 ^ m.2.2.length : Nat) : ℚ)) *
            power 10 ex.1
        (roundToDouble (if negative then -mag else mag), mlen + ex.2)

/-- The C library `strtod(src, &endptr)` (`_tcstod`) of ISO C99: white space,
an optional sign, and the subject sequence. The result is the value and the
number of characters consumed; nothing is consumed, white space and sign
neither, when there is no number. -/
def strtod (src : CStr) : Double × Nat :=
  let ws := src.takeWhile isspace
  let p1 := src.dropWhile isspace
  let sg := signLength p1
  let r := strtodBody (decide (deref p1 = '-')) (p1.drop sg)
  if r.2 = 0 then (Double.finite 0, 0) else (r.1, ws.length + sg + r.2)

/-- The conversion `fixed(value)` of a `double`: a finite value is kept
exactly; what an infinity or a NaN becomes is the parameter `nonFinite` (the
type `fixed` is not in the sources). -/
def fixedOfDouble (nonFinite : Double → fixed) : Double → fixed
  | Double.finite value => value
  | Double.infinite negative => nonFinite (Double.infinite negative)
  | Double.nan => nonFinite Double.nan

/-- The unit tags of `Units.hpp` that the parser uses. -/
inductive Units_t where
  | unFeet
  | unStatuteMiles
  | unNauticalMiles
  deriving DecidableEq, Repr

/-- Modelled from the spec: `Units::ToSysUnit` is declared in `Units.hpp`,
outside the sources; the unit-conversion service maps a unit tag to a
multiplier (spec section 6), here the parameter `factor`. -/
def ToSysUnit (factor : Units_t → fixed) (value : fixed) (unit : Units_t) : fixed :=
  value * factor unit

/-- `WayPointFileSeeYou::parseAltitude`: `none` is the `false` return. -/
def parseAltitude (nonFinite : Double → fixed) (factor : Units_t → fixed) (src : CStr) :
    Option fixed :=
  let r := strtod src
  if r.2 = 0 then none
  else
    let dest := fixedOfDouble nonFinite r.1
    let unit := deref (src.drop r.2)
    if unit = 'F' ∨ unit = 'f' then some (ToSysUnit factor dest Units_t.unFeet)
    else some dest

/-- The test `_tcsicmp(a, b) == 0`: equality ignoring case. -/
def tcsicmp_eq (a b : CStr) : Bool := a.map tolower == b.map tolower

/-- `WayPointFileSeeYou::parseDistance`: `none` is the `false` return. -/
def parseDistance (nonFinite : Double → fixed) (factor : Units_t → fixed) (src : CStr) :
    Option fixed :=
  let r := strtod src
  if r.2 = 0 then none
  else
    let dest := fixedOfDouble nonFinite r.1
    let unit := src.drop r.2
    if tcsicmp_eq unit "ml".toList then some (ToSysUnit factor dest Units_t.unStatuteMiles)
    else if tcsicmp_eq unit "nm".toList then some (ToSysUnit factor dest Units_t.unNauticalMiles)
    else some dest

/-- `WaypointFlags`: the three flags the parser writes. -/
structure WaypointFlags where
  TurnPoint : Bool
  LandPoint : Bool
  Airport : Bool
  deriving DecidableEq, Repr

/-- `WayPointFileSeeYou::parseStyle`: the returned `bool` and the value of
`dest` afterwards. -/
def parseStyle (LONG_MAX : Int) (src : CStr) (dest : WaypointFlags) : Bool × WaypointFlags :=
  let r := strtol LONG_MAX src
  let style := r.1
  if r.2 = 0 then (false, dest)
  else
    (true,
      { LandPoint := decide (style = 3),
        Airport := decide (style = 2 ∨ style = 4 ∨ style = 5),
        TurnPoint := true })

/-- `WayPointFileSeeYou::appendStringWithSeperator`. -/
def appendStringWithSeperator (dest src : CStr) (seperator : Char) : CStr :=
  if src = [] then dest
  else (if 0 < dest.length then dest ++ [seperator] else dest) ++ src

/-- The default `seperator` argument of `appendStringWithSeperator`, as its
documentation comment gives it (`default: ' '`). -/
def defaultSeperator : Char := ' '

/-- The C library `strstr(haystack, needle)` (`_tcsstr`): the suffix of
`haystack` at the first occurrence of `needle`, `none` for a null result. -/
def tcsstr : CStr → CStr → Option CStr
  | [], needle => if needle = [] then some [] else none
  | c :: cs, needle =>
    if needle.isPrefixOf (c :: cs) then some (c :: cs) else tcsstr cs needle

/-- `GeoPoint`: a latitude and a longitude, in degrees. -/
structure GeoPoint where
  Latitude : fixed
  Longitude : fixed
  deriving DecidableEq

/-- Modelled from the spec: `GeoPoint::normalize` is defined outside the
sources; it wraps the longitude by a multiple of 360 into `(-180, 180]`
(spec section 4.3 step 5) and leaves the latitude alone. -/
def GeoPoint.normalize (g : GeoPoint) : GeoPoint :=
  { g with Longitude := g.Longitude - 360 * (⌈(g.Longitude - 180) / 360⌉ : Int) }

/-- `Waypoint`: the fields of a waypoint entry that the parser touches. -/
structure Waypoint where
  Location : GeoPoint
  FileNum : Int
  Name : CStr
  Altitude : fixed
  Flags : WaypointFlags
  RunwayLength : fixed
  RunwayDirection : fixed
  Comment : CStr
  deriving DecidableEq

/-- Modelled from the spec: `Waypoint::is_landable` is defined outside the
sources; a waypoint is landable when it is flagged LandPoint or Airport
(spec glossary). -/
def Waypoint.is_landable (w : Waypoint) : Bool := w.Flags.LandPoint || w.Flags.Airport

/-- The waypoint collection that receives the finished records. -/
abbrev Waypoints := List Waypoint

/-- Modelled from the spec: `WayPointFile::add_waypoint` is defined outside
the sources; the sink accepts one waypoint at a time (spec section 6). -/
def add_waypoint (way_points : Waypoints) (new_waypoint : Waypoint) : Waypoints :=
  way_points ++ [new_waypoint]

/-- The terrain lookup collaborator: an elevation for a location, when it has
data there. -/
abbrev RasterTerrain := GeoPoint → Option fixed

/-- Modelled from the spec: `WayPointFile::check_altitude` is defined outside
the sources; when the elevation column gave no value the elevation is
requested from the terrain lookup, and when that fails the altitude is the
"unknown" sentinel (spec section 4.3 step 7). -/
def check_altitude (unknown : fixed) (new_waypoint : Waypoint) (terrain : RasterTerrain)
    (alt_ok : Bool) : Waypoint :=
  if alt_ok then new_waypoint
  else
    match terrain new_waypoint.Location with
    | some h => { new_waypoint with Altitude := h }
    | none => { new_waypoint with Altitude := unknown }

/-- What `parseLine` takes from outside the source file: the width of `long`,
the tokenizer `extractParameters`, the `Waypoint(location)` constructor, the
unit-conversion factors, what `fixed(value)` makes of a `double` that is not
finite, the "unknown" altitude and the member `file_num`. -/
structure Env where
  LONG_MAX : Int
  extractParameters : CStr → List CStr
  newWaypoint : GeoPoint → Waypoint
  factor : Units_t → fixed
  nonFinite : Double → fixed
  unknownAltitude : fixed
  file_num : Int

/-- The function-local `static` variables of `parseLine`. -/
structure ParserState where
  iName : Nat
  iCode : Nat
  iCountry : Nat
  iLatitude : Nat
  iLongitude : Nat
  iElevation : Nat
  iStyle : Nat
  iRWDir : Nat
  iRWLen : Nat
  iFrequency : Nat
  iDescription : Nat
  ignore_following : Bool
  deriving DecidableEq, Repr

/-- The initialisers of the `static` variables (source lines 40 to 45). -/
def ParserState.initial : ParserState :=
  { iName := 0, iCode := 1, iCountry := 2, iLatitude := 3, iLongitude := 4,
    iElevation := 5, iStyle := 6, iRWDir := 7, iRWLen := 8, iFrequency := 9,
    iDescription := 10, ignore_following := false }

/-- Capacity of the `params` array. -/
def max_params : Nat := 20

/-- Capacity of the `ctemp` buffer, `sizeof(ctemp) / sizeof(ctemp[0])`. -/
def ctemp_size : Nat := 255

/-- The section-end marker literal. -/
def taskMarker : CStr := "-----Related Tasks-----".toList

/-- The degree mark appended after the runway direction. -/
def degreeMark : CStr := [Char.ofNat 176]

/-- The tokens `params[0 .. n_params-1]` that `extractParameters` leaves for
`line`: at most `max_params` of them. -/
def getParams (env : Env) (line : CStr) : List CStr :=
  (env.extractParameters line).take max_params

/-- Reading `params[i]` for an index below `n_params`. -/
def param (params : List CStr) (i : Nat) : CStr := params.getD i []

/-- One iteration of the header loop (source lines 67 to 90). -/
def headerStep (st : ParserState) (i : Nat) (value : CStr) : ParserState :=
  if value = "name".toList then { st with iName := i }
  else if value = "code".toList then { st with iCode := i }
  else if value = "country".toList then { st with iCountry := i }
  else if value = "lat".toList then { st with iLatitude := i }
  else if value = "lon".toList then { st with iLongitude := i }
  else if value = "elev".toList then { st with iElevation := i }
  else if value = "style".toList then { st with iStyle := i }
  else if value = "rwdir".toList then { st with iRWDir := i }
  else if value = "rwlen".toList then { st with iRWLen := i }
  else if value = "freq".toList then { st with iFrequency := i }
  else if value = "desc".toList then { st with iDescription := i }
  else st

/-- The header loop from index `i` on (source lines 66 to 91). -/
def headerLoop (st : ParserState) (i : Nat) : List CStr → ParserState
  | [] => st
  | value :: rest => headerLoop (headerStep st i value) (i + 1) rest

/-- Conversion of a `long` to the 32-bit `int`. -/
def toInt (v : Int) : Int := (v + 2 ^ 31) % 2 ^ 32 - 2 ^ 31

/-- The runway direction stored for the token `rwdir` (source lines 173 to
178). -/
def runwayDirection (LONG_MAX : Int) (rwdir : CStr) : fixed :=
  let direction := toInt (strtol LONG_MAX rwdir).1
  let direction := if direction = 360 then 0
    else if direction < 0 ∨ 360 < direction then -1
    else direction
  (direction : fixed)

/-- The elevation step (source lines 136 to 138). -/
def elevationStep (env : Env) (st : ParserState) (params : List CStr) (terrain : RasterTerrain)
    (w : Waypoint) : Waypoint :=
  match (if st.iElevation < params.length
      then parseAltitude env.nonFinite env.factor (param params st.iElevation) else none) with
  | some a => check_altitude env.unknownAltitude { w with Altitude := a } terrain true
  | none => check_altitude env.unknownAltitude w terrain false

/-- The style step (source lines 142 and 143). -/
def styleStep (env : Env) (st : ParserState) (params : List CStr) (w : Waypoint) : Waypoint :=
  if st.iStyle < params.length then
    { w with Flags := (parseStyle env.LONG_MAX (param params st.iStyle) w.Flags).2 }
  else w

/-- The runway length `rwlen` (source lines 146 to 152). -/
def runwayLength (env : Env) (st : ParserState) (params : List CStr) : fixed :=
  match (if st.iRWLen < params.length
      then parseDistance env.nonFinite env.factor (param params st.iRWLen) else none) with
  | some rwlen => rwlen
  | none => 0

/-- The runway-length rule on the flags (source lines 155 to 162). -/
def reclassify (flags : WaypointFlags) (rwlen : fixed) : WaypointFlags :=
  if !flags.Airport then
    let flags := if 100 < rwlen ∧ rwlen ≤ 300 then { flags with LandPoint := true } else flags
    if 300 < rwlen then { flags with Airport := true } else flags
  else flags

/-- The fields written for a landable waypoint (source lines 167 to 182). -/
def landableStep (env : Env) (st : ParserState) (params : List CStr) (w : Waypoint) : Waypoint :=
  let w := if st.iFrequency < params.length then
      { w with Comment := appendStringWithSeperator w.Comment (param params st.iFrequency)
                            defaultSeperator }
    else w
  let w := if st.iRWDir < params.length ∧ param params st.iRWDir ≠ [] then
      { w with
        Comment := appendStringWithSeperator w.Comment (param params st.iRWDir)
                     defaultSeperator ++ degreeMark,
        RunwayDirection := runwayDirection env.LONG_MAX (param params st.iRWDir) }
    else w
  if st.iRWLen < params.length then
    { w with Comment := appendStringWithSeperator w.Comment (param params st.iRWLen)
                          defaultSeperator }
  else w

/-- The first part of the data branch of `parseLine` (source lines 106 to
132): the checks that reject the record (`none` is a `return false`) and the
waypoint constructed from the location, with `FileNum` and `Name` set. -/
def recordStart (env : Env) (st : ParserState) (params : List CStr) : Option Waypoint :=
  let n_params := params.length
  if n_params ≤ st.iName then none
  else if n_params ≤ st.iLatitude then none
  else if n_params ≤ st.iLongitude then none
  else
    match parseAngle env.LONG_MAX (param params st.iLatitude) true with
    | none => none
    | some latitude =>
      match parseAngle env.LONG_MAX (param params st.iLongitude) false with
      | none => none
      | some longitude =>
        let location := GeoPoint.normalize { Latitude := latitude, Longitude := longitude }
        let new_waypoint := env.newWaypoint location
        let new_waypoint := { new_waypoint with FileNum := env.file_num }
        if param params st.iName = [] then none
        else some { new_waypoint with Name := param params st.iName }

/-- The runway length and the reclassification (source lines 146 to 162). -/
def runwayStep (env : Env) (st : ParserState) (params : List CStr) (w : Waypoint) : Waypoint :=
  let rwlen := runwayLength env st params
  let w := { w with RunwayLength := rwlen }
  { w with Flags := reclassify w.Flags rwlen }

/-- The comment fields (source lines 166 to 185). -/
def commentStep (env : Env) (st : ParserState) (params : List CStr) (w : Waypoint) : Waypoint :=
  let w := if w.is_landable then landableStep env st params w else w
  if st.iDescription < params.length then
    { w with Comment := appendStringWithSeperator w.Comment (param params st.iDescription)
                          defaultSeperator }
  else w

/-- The second part of the data branch of `parseLine` (source lines 134 to
186), which has no `return`: the waypoint handed to `add_waypoint`. -/
def recordFinish (env : Env) (st : ParserState) (params : List CStr) (terrain : RasterTerrain)
    (new_waypoint : Waypoint) : Waypoint :=
  commentStep env st params
    (runwayStep env st params
      (styleStep env st params
        (elevationStep env st params terrain new_waypoint)))

/-- The data branch of `parseLine` from the tokens on (source lines 106 to
186): `none` is a `return false`, `some w` is the waypoint handed to
`add_waypoint`. -/
def parseRecord (env : Env) (st : ParserState) (params : List CStr) (terrain : RasterTerrain) :
    Option Waypoint :=
  (recordStart env st params).map (recordFinish env st params terrain)

/-- `WayPointFileSeeYou::parseLine`: the returned `bool`, the `static`
variables afterwards and the waypoint collection afterwards. -/
def parseLine (env : Env) (st : ParserState) (line : CStr) (linenum : Nat)
    (way_points : Waypoints) (terrain : RasterTerrain) : Bool × ParserState × Waypoints :=
  if line = [] ∨ deref line = Char.ofNat 26 ∨
      tcsstr line "**".toList = some line ∨ tcsstr line "*".toList = some line then
    (true, st, way_points)
  else if ctemp_size ≤ line.length then (false, st, way_points)
  else if linenum = 0 then
    (true, { headerLoop st 0 (getParams env line) with ignore_following := false }, way_points)
  else
    let st := if tcsstr line taskMarker = some line then { st with ignore_following := true }
      else st
    if st.ignore_following then (true, st, way_points)
    else
      match parseRecord env st (getParams env line) terrain with
      | none => (false, st, way_points)
      | some new_waypoint => (true, st, add_waypoint way_points new_waypoint)

/-- Modelled from the spec: `extractParameters` is defined outside the
sources; the tokenizer splits on commas not enclosed in the quote character,
and a quote character toggles a quoted span in which commas are literal
(spec section 4.1). `cur` is the token being read, in reverse. -/
def tokenizeFrom (quote : Char) : Bool → CStr → CStr → List CStr
  | _, cur, [] => [cur.reverse]
  | inQuote, cur, c :: cs =>
    if c = quote then tokenizeFrom quote (!inQuote) cur cs
    else if c = ',' ∧ inQuote = false then cur.reverse :: tokenizeFrom quote false [] cs
    else tokenizeFrom quote inQuote (c :: cur) cs

/-- Modelled from the spec: the tokenizer of spec section 4.1 with the quote
character `"` that `parseLine` passes. -/
def specTokenizer (line : CStr) : List CStr := tokenizeFrom (Char.ofNat 34) false [] line

/-- Modelled from the spec: the `Waypoint(location)` constructor is defined
outside the sources; flags default to TurnPoint only (spec section 4.3 step
8), the runway length to 0 and the runway direction to the unknown sentinel
-1 (spec section 3), with no name and no comment yet. -/
def specWaypoint (location : GeoPoint) : Waypoint :=
  { Location := location, FileNum := 0, Name := [], Altitude := 0,
    Flags := { TurnPoint := true, LandPoint := false, Airport := false },
    RunwayLength := 0, RunwayDirection := -1, Comment := [] }

/-- Modelled from the spec: the multipliers of the unit-conversion service,
in meters per unit. -/
def specFactor : Units_t → fixed
  | Units_t.unFeet => 3048 / 10000
  | Units_t.unStatuteMiles => 1609344 / 1000
  | Units_t.unNauticalMiles => 1852

/-- An environment with 32-bit `long` and the collaborators as the spec
describes them. -/
def specEnv : Env :=
  { LONG_MAX := 2 ^ 31 - 1, extractParameters := specTokenizer, newWaypoint := specWaypoint,
    factor := specFactor, nonFinite := fun _ => 0, unknownAltitude := 0, file_num := 0 }

/-- The terrain lookup without data anywhere. -/
def noTerrain : RasterTerrain := fun _ => none

/-- A session: `parseLine` called on each record `(line, linenum)` in turn, the
`static` variables and the collection threaded through. The result is the list
of returned values, the final state and the final collection. -/
def parseLines (env : Env) (terrain : RasterTerrain) :
    ParserState → Waypoints → List (CStr × Nat) → List Bool × ParserState × Waypoints
  | st, way_points, [] => ([], st, way_points)
  | st, way_points, r :: rest =>
    let out := parseLine env st r.1 r.2 way_points terrain
    let outs := parseLines env terrain out.2.1 out.2.2 rest
    (out.1 :: outs.1, outs.2)

/-- The lines that the first test of `parseLine` skips: empty, or beginning
with the end-of-file character 0x1A or with `*`. -/
def isCommentLine (line : CStr) : Bool :=
  decide (line = [] ∨ deref line = Char.ofNat 26 ∨ deref line = '*')

/-- The optional sign of a number: nothing, `+` or `-`. -/
def IsSign (sg : CStr) : Prop := sg = [] ∨ sg = ['+'] ∨ sg = ['-']

/-- The integer written as the sign `sg` followed by the digits `ds`. -/
def signedValue (sg ds : CStr) : Int :=
  if sg = ['-'] then -(decimalValue ds : Int) else (decimalValue ds : Int)

/-- The token has a numeric prefix: optional white space, an optional sign,
then a decimal digit. -/
def HasIntegerPrefix (src : CStr) : Prop :=
  ∃ ws sg d tail, src = ws ++ sg ++ d :: tail ∧ (∀ x ∈ ws, isspace x = true) ∧ IsSign sg ∧
    isdigit d = true

/-- The non-empty items of a list joined by exactly one space. -/
def joinNonEmpty (items : List CStr) : CStr :=
  List.intercalate [' '] (items.filter (fun s => decide (s ≠ [])))

/-- The comment item of the runway direction: the token followed by the degree
mark, nothing for an empty token. -/
def rwdirItem (rwdir : CStr) : CStr := if rwdir = [] then [] else rwdir ++ degreeMark

/-- The token has a leading signed decimal number: optional white space, an
optional sign, then a digit, or a point followed by a digit. -/
def HasDecimalPrefix (src : CStr) : Prop :=
  ∃ ws sg rest, src = ws ++ sg ++ rest ∧ (∀ x ∈ ws, isspace x = true) ∧ IsSign sg ∧
    (isdigit (deref rest) = true ∨
      (deref rest = '.' ∧ isdigit (deref (rest.drop 1)) = true))

/-- A digit sequence that may hold a point: the digits `ip`, the point `pt`
(nothing or `.`), the digits `fp`; one digit at least, and no digits after a
missing point. -/
def IsMantissa (isd : Char → Bool) (ip pt fp : CStr) : Prop :=
  (∀ x ∈ ip, isd x = true) ∧ (∀ x ∈ fp, isd x = true) ∧
    ((pt = [] ∧ fp = []) ∨ pt = ['.']) ∧ (ip ≠ [] ∨ fp ≠ [])

/-- An exponent part of value `e`: nothing (then `e = 0`), or one of the
letters `lower`, `upper`, an optional sign and a non-empty run of decimal
digits. -/
def IsExponentPart (lower upper : Char) (ex : CStr) (e : Int) : Prop :=
  (ex = [] ∧ e = 0) ∨
    ∃ c sg ds, ex = c :: (sg ++ ds) ∧ (c = lower ∨ c = upper) ∧ IsSign sg ∧ ds ≠ [] ∧
      (∀ x ∈ ds, isdigit x = true) ∧ e = signedValue sg ds

/-- The text `s` begins with an exponent part. -/
def BeginsExponent (lower upper : Char) (s : CStr) : Prop :=
  ∃ c sg d tail, s = c :: (sg ++ d :: tail) ∧ (c = lower ∨ c = upper) ∧ IsSign sg ∧
    isdigit d = true

/-- The constant with point `pt` and exponent part `ex` is the longest one
that can be read when `suffix` follows it: after an exponent part no digit
follows; without one, no digit follows, no point follows a mantissa that has
none, and no exponent part follows. -/
def IsLongest (isd : Char → Bool) (lower upper : Char) (pt ex suffix : CStr) : Prop :=
  (ex ≠ [] → isdigit (deref suffix) = false) ∧
    (ex = [] → isd (deref suffix) = false ∧ (pt = [] → deref suffix ≠ '.') ∧
      ¬ BeginsExponent lower upper suffix)

/-- The text `s` begins with `word` (given in lower case), ignoring case. -/
def BeginsWith (s word : CStr) : Prop := ∃ w tail, s = w ++ tail ∧ w.map tolower = word

/-- The magnitude `m` with the sign `sg`. -/
def withSign (sg : CStr) (m : ℚ) : ℚ := if sg = ['-'] then -m else m

/-- The text `s` begins with `x` or `X` and a hexadecimal digit sequence. -/
def BeginsHexadecimal (s : CStr) : Prop :=
  ∃ x rest, s = x :: rest ∧ (x = 'x' ∨ x = 'X') ∧
    (isxdigit (deref rest) = true ∨ (deref rest = '.' ∧ isxdigit (deref (rest.drop 1)) = true))

/-- The token `src` begins with a decimal floating constant of value `v`, and
`suffix` is what follows it: white space, an optional sign, decimal digits
that may hold a point, an optional exponent part `e`; the constant is the
longest one, and it is not the `0` of a hexadecimal constant. -/
def LeadingDecimal (src : CStr) (v : ℚ) (suffix : CStr) : Prop :=
  ∃ ws sg ip pt fp ex e,
    src = ws ++ sg ++ ip ++ pt ++ fp ++ ex ++ suffix ∧
    (∀ x ∈ ws, isspace x = true) ∧ IsSign sg ∧
    IsMantissa isdigit ip pt fp ∧ IsExponentPart 'e' 'E' ex e ∧
    IsLongest isdigit 'e' 'E' pt ex suffix ∧
    ¬ (ip = ['0'] ∧ pt = [] ∧ ex = [] ∧ BeginsHexadecimal suffix) ∧
    v = withSign sg
      ((decimalValue (ip ++ fp) : ℚ) / ((10 ^ fp.length : Nat) : ℚ) * power 10 e)

/-- The token `src` begins with a hexadecimal floating constant of value `v`,
and `suffix` is what follows it: white space, an optional sign, `0x` or `0X`,
hexadecimal digits that may hold a point, an optional binary exponent part
`p`; the constant is the longest one. -/
def LeadingHexadecimal (src : CStr) (v : ℚ) (suffix : CStr) : Prop :=
  ∃ ws sg x ip pt fp ex e,
    src = ws ++ sg ++ ['0', x] ++ ip ++ pt ++ fp ++ ex ++ suffix ∧
    (∀ c ∈ ws, isspace c = true) ∧ IsSign sg ∧ (x = 'x' ∨ x = 'X') ∧
    IsMantissa isxdigit ip pt fp ∧ IsExponentPart 'p' 'P' ex e ∧
    IsLongest isxdigit 'p' 'P' pt ex suffix ∧
    v = withSign sg
      ((hexadecimalValue (ip ++ fp) : ℚ) / ((16 ^ fp.length : Nat) : ℚ) * power 2 e)

/-- The token `src` begins with an infinity, and `suffix` is what follows it:
white space, an optional sign, and `infinity`, or `inf` when `inity` does not
follow, in any case of the letters. -/
def LeadingInfinity (src : CStr) (negative : Bool) (suffix : CStr) : Prop :=
  ∃ ws sg w, src = ws ++ sg ++ w ++ suffix ∧ (∀ x ∈ ws, isspace x = true) ∧ IsSign sg ∧
    (w.map tolower = "infinity".toList ∨
      (w.map tolower = "inf".toList ∧ ¬ BeginsWith suffix "inity".toList)) ∧
    negative = decide (sg = ['-'])

/-- A sequence `(...)` of digits, letters and `_` in parentheses. -/
def IsNanSequence (seq : CStr) : Prop :=
  ∃ body, seq = '(' :: (body ++ [')']) ∧ ∀ x ∈ body, isnchar x = true

/-- The token `src` begins with a NaN, and `suffix` is what follows it: white
space, an optional sign, `nan` in any case of the letters, and a sequence in
parentheses when one follows. -/
def LeadingNan (src suffix : CStr) : Prop :=
  ∃ ws sg w seq, src = ws ++ sg ++ w ++ seq ++ suffix ∧ (∀ x ∈ ws, isspace x = true) ∧
    IsSign sg ∧ w.map tolower = "nan".toList ∧
    (IsNanSequence seq ∨ (seq = [] ∧ ¬ ∃ s tail, suffix = s ++ tail ∧ IsNanSequence s))

/-- The token `src` begins with a number that `strtod` reads as the `double`
`d`, and `suffix` is what follows it. -/
def LeadingNumber (src : CStr) (d : Double) (suffix : CStr) : Prop :=
  (∃ v, LeadingDecimal src v suffix ∧ d = roundToDouble v) ∨
    (∃ v, LeadingHexadecimal src v suffix ∧ d = roundToDouble v) ∨
    (∃ negative, LeadingInfinity src negative suffix ∧ d = Double.infinite negative) ∨
    (LeadingNan src suffix ∧ d = Double.nan)

/-- The token has a special prefix: optional white space, an optional sign,
then `inf` or `nan` in any case of the letters. -/
def HasSpecialPrefix (src : CStr) : Prop :=
  ∃ ws sg rest, src = ws ++ sg ++ rest ∧ (∀ x ∈ ws, isspace x = true) ∧ IsSign sg ∧
    (BeginsWith rest "inf".toList ∨ BeginsWith rest "nan".toList)

/-- The header tokens of the end-to-end example of the spec (section 8). -/
def exampleHeader : List CStr :=
  ["name".toList, "code".toList, "country".toList, "lat".toList, "lon".toList, "elev".toList,
    "style".toList, "rwdir".toList, "rwlen".toList, "freq".toList, "desc".toList]

/-- The record tokens of the end-to-end example of the spec (section 8). -/
def exampleRecord : List CStr :=
  ["Alpha".toList, "A1".toList, "US".toList, "5115.900N".toList, "00715.900W".toList,
    "458.0m".toList, "5".toList, "090".toList, "1200m".toList, "118.500".toList,
    "Main field".toList]

/-! ## Theorems -/

/-! ### `strtol` on digit runs and `parseAngle` (C1) -/

theorem isspace_of_isdigit {c : Char} (h : isdigit c = true) : isspace c = false := by
  simp only [isdigit, Bool.and_eq_true, decide_eq_true_eq] at h
  simp only [isspace, Bool.or_eq_false_iff, beq_eq_false_iff_ne, Bool.and_eq_false_iff,
    decide_eq_false_iff_not]
  omega

theorem isdigit_NUL : isdigit NUL = false := by decide

theorem isspace_NUL : isspace NUL = false := by decide

theorem ne_of_isdigit {c d : Char} (h : isdigit c = true) (hd : isdigit d = false) : c ≠ d := by
  rintro rfl; simp [h] at hd

theorem takeWhile_of_deref {p : Char → Bool} {tail : CStr}
    (h : p (deref tail) = false) : tail.takeWhile p = [] := by
  cases tail with
  | nil => rfl
  | cons c cs => simpa [deref] using h

theorem takeWhile_run {p : Char → Bool} (xs : CStr) {tail : CStr}
    (hx : ∀ x ∈ xs, p x = true) (h : p (deref tail) = false) :
    (xs ++ tail).takeWhile p = xs := by
  rw [List.takeWhile_append_of_pos hx, takeWhile_of_deref h, List.append_nil]

theorem strtol_digits (L : Int) (ds tail : CStr) (hne : ds ≠ [])
    (hd : ∀ x ∈ ds, isdigit x = true) (ht : isdigit (deref tail) = false) :
    strtol L (ds ++ tail) = (saturate L (decimalValue ds), ds.length) := by
  obtain ⟨d, ds', rfl⟩ := List.exists_cons_of_ne_nil hne
  have hd0 : isdigit d = true := hd d (List.mem_cons_self _ _)
  have hsp : isspace d = false := isspace_of_isdigit hd0
  have h1 : d ≠ '-' := ne_of_isdigit hd0 (by decide)
  have h2 : d ≠ '+' := ne_of_isdigit hd0 (by decide)
  have htw : ((d :: ds') ++ tail).takeWhile isdigit = d :: ds' := takeWhile_run _ hd ht
  simp only [List.cons_append] at htw
  simp [strtol, hsp, signLength, deref, h1, h2, htw]

theorem saturate_of_range {L v : Int} (h0 : 0 ≤ v) (h : v ≤ L) : saturate L v = v := by
  unfold saturate
  rw [if_neg (by omega), if_neg (by omega)]

theorem digitValue_le {c : Char} (h : isdigit c = true) : digitValue c ≤ 9 := by
  simp only [isdigit, Bool.and_eq_true, decide_eq_true_eq] at h
  unfold digitValue; omega

theorem decimalValue_three (a b c : Char) :
    decimalValue [a, b, c] = 100 * digitValue a + 10 * digitValue b + digitValue c := by
  simp [decimalValue]; ring

/-- C1 (as amended): for a token made of a non-empty run of decimal digits of
value `N` that fits a `long` (`N ≤ LONG_MAX`), with `N mod 100 < 60`, then a
`.`, then three decimal digits of value `f`, then a character `h` that is not
a digit (NUL at the end of the token), `parseAngle` succeeds and returns
`s * (min(N div 100, L) + (N mod 100)/60 + f/60000)` in rational arithmetic,
with `L = 90` for a latitude and `180` otherwise, `s = -1` when `h` is one of
`W w S s` and `+1` otherwise. -/
theorem parseAngle_value (LONG_MAX : Int) (ds : List Char) (a b c : Char) (rest : CStr)
    (lat : Bool) (hL : 2147483647 ≤ LONG_MAX)
    (hne : ds ≠ []) (hds : ∀ x ∈ ds, isdigit x = true)
    (hN : (decimalValue ds : Int) ≤ LONG_MAX) (hmin : decimalValue ds % 100 < 60)
    (ha : isdigit a = true) (hb : isdigit b = true) (hc : isdigit c = true)
    (hh : isdigit (deref rest) = false) :
    parseAngle LONG_MAX (ds ++ '.' :: a :: b :: c :: rest) lat =
      some ((if deref rest = 'W' ∨ deref rest = 'w' ∨ deref rest = 'S' ∨ deref rest = 's'
              then -1 else 1) *
        (((Min.min (decimalValue ds / 100) (if lat then 90 else 180) : Nat) : fixed)
          + ((decimalValue ds % 100 : Nat) : fixed) / 60
          + (decimalValue [a, b, c] : fixed) / 60000)) := by
  have h1 : strtol LONG_MAX (ds ++ '.' :: a :: b :: c :: rest)
      = (saturate LONG_MAX (decimalValue ds), ds.length) :=
    strtol_digits _ _ _ hne hds (by simp only [deref, List.headD_cons]; decide)
  have h2 : strtol LONG_MAX (a :: b :: c :: rest)
      = (saturate LONG_MAX (decimalValue [a, b, c]), 3) := by
    have := strtol_digits LONG_MAX [a, b, c] rest (by simp) (by simp [ha, hb, hc]) hh
    simpa using this
  have hf : decimalValue [a, b, c] < 1000 := by
    have := digitValue_le ha; have := digitValue_le hb; have := digitValue_le hc
    rw [decimalValue_three]; omega
  rw [saturate_of_range (by positivity) hN] at h1
  rw [saturate_of_range (by positivity) (by omega)] at h2
  have hlen : ds.length ≠ 0 := by simpa using hne
  have hdiv : Int.tdiv (decimalValue ds : Int) 100 = ((decimalValue ds / 100 : Nat) : Int) := by
    rw [Int.tdiv_eq_ediv (by positivity) (by norm_num)]; norm_cast
  have hmod : Int.tmod (decimalValue ds : Int) 100 = ((decimalValue ds % 100 : Nat) : Int) := by
    rw [Int.tmod_eq_emod (by positivity) (by norm_num)]; norm_cast
  have hdrop : List.drop ds.length (ds ++ '.' :: a :: b :: c :: rest) = '.' :: a :: b :: c :: rest :=
    List.drop_left _ _
  have hmin' : ¬ (60 : Int) ≤ ((decimalValue ds % 100 : Nat) : Int) := by omega
  have hf' : ¬ (1000 : Int) ≤ (decimalValue [a, b, c] : Int) := by omega
  simp only [parseAngle, h1, hdiv, hmod, hdrop, List.drop_succ_cons, List.drop_zero, h2]
  simp only [deref, List.headD_cons, ne_eq, not_true_eq_false, hlen, false_or, hmin', hf',
    if_false, Int.natCast_nonneg, not_lt.mpr, or_false, OfNat.ofNat_ne_zero]
  have hcast : ((Min.min ((decimalValue ds / 100 : Nat) : Int) (if lat = true then 90 else 180) : Int) : fixed)
      = ((Min.min (decimalValue ds / 100) (if lat = true then 90 else 180) : Nat) : fixed) := by
    cases lat <;> norm_cast
  rw [hcast]
  by_cases hs : List.headD rest NUL = 'W' ∨ List.headD rest NUL = 'w' ∨
      List.headD rest NUL = 'S' ∨ List.headD rest NUL = 's'
  · rw [if_pos hs, if_pos hs]; simp only [Int.cast_natCast, neg_mul, one_mul]
  · rw [if_neg hs, if_neg hs]; simp only [Int.cast_natCast, one_mul]

/-- Witness of C1: the two tokens of the spec, `5115.900N` as a latitude and
`00715.900W` as a longitude, give 51.265 and -7.265. -/
theorem parseAngle_value_witness :
    parseAngle (2 ^ 31 - 1) "5115.900N".toList true = some (51265 / 1000) ∧
    parseAngle (2 ^ 31 - 1) "00715.900W".toList false = some (-(7265 / 1000)) := by
  have h1 := parseAngle_value (2 ^ 31 - 1) "5115".toList '9' '0' '0' "N".toList true
    (by norm_num) (by decide) (by decide) (by decide) (by decide) (by decide) (by decide)
    (by decide) (by decide)
  have h2 := parseAngle_value (2 ^ 31 - 1) "00715".toList '9' '0' '0' "W".toList false
    (by norm_num) (by decide) (by decide) (by decide) (by decide) (by decide) (by decide)
    (by decide) (by decide)
  have e1 : decimalValue "5115".toList = 5115 := by decide
  have e2 : decimalValue "00715".toList = 715 := by decide
  have e3 : decimalValue ['9', '0', '0'] = 900 := by decide
  have d1 : deref "N".toList = 'N' := rfl
  have d2 : deref "W".toList = 'W' := rfl
  rw [e1, e3, d1] at h1
  rw [e2, e3, d2] at h2
  refine ⟨h1.trans ?_, h2.trans ?_⟩
  · norm_num; decide
  · norm_num

/-- Counterexample to C1 as stated: the token `99999999999999999959.000N` is a
run of digits of value `N` with `N mod 100 = 59`, a point and three digits,
but `strtol` saturates at `LONG_MAX`, so the minutes are those of `LONG_MAX`
(47 for a 32-bit `long`, 7 for a 64-bit one) and the result differs from the
claimed `90 + 59/60`. -/
theorem parseAngle_overflow_counterexample :
    (∀ x ∈ "99999999999999999959".toList, isdigit x = true) ∧
    decimalValue "99999999999999999959".toList % 100 = 59 ∧
    ((Min.min (decimalValue "99999999999999999959".toList / 100) 90 : Nat) : fixed)
      + ((decimalValue "99999999999999999959".toList % 100 : Nat) : fixed) / 60
      + (decimalValue "000".toList : fixed) / 60000 = 90 + 59 / 60 ∧
    parseAngle (2 ^ 31 - 1) "99999999999999999959.000N".toList true = some (90 + 47 / 60) ∧
    parseAngle (2 ^ 63 - 1) "99999999999999999959.000N".toList true = some (90 + 7 / 60) := by
  refine ⟨by decide, by decide, ?_, ?_, ?_⟩
  · decide!
  · decide!
  · decide!

/-! ### Rejection of data records (C2) -/

theorem tcsstr_length_le (needle : CStr) :
    ∀ (hay r : CStr), tcsstr hay needle = some r → r.length ≤ hay.length := by
  intro hay
  induction hay with
  | nil =>
    intro r h
    unfold tcsstr at h
    split_ifs at h
    · cases h; exact Nat.le_refl _
  | cons c cs ih =>
    intro r h
    unfold tcsstr at h
    split_ifs at h
    · cases h; exact Nat.le_refl _
    · exact Nat.le_succ_of_le (ih r h)

theorem tcsstr_eq_self_iff (hay needle : CStr) :
    tcsstr hay needle = some hay ↔ needle <+: hay := by
  cases hay with
  | nil =>
    unfold tcsstr
    by_cases h : needle = []
    · simp [h]
    · simp [h]
  | cons c cs =>
    unfold tcsstr
    by_cases h : needle.isPrefixOf (c :: cs) = true
    · rw [if_pos h]
      simpa using List.isPrefixOf_iff_prefix.mp h
    · rw [if_neg h]
      constructor
      · intro h2
        have := tcsstr_length_le needle cs (c :: cs) h2
        simp at this
      · intro h2
        exact absurd (List.isPrefixOf_iff_prefix.mpr h2) h

theorem deref_of_leading {c : Char} {rest line : CStr} (h : (c :: rest) <+: line) :
    deref line = c := by
  obtain ⟨t, rfl⟩ := h
  rfl

theorem not_comment {line : CStr} (hne : line ≠ []) (heof : deref line ≠ Char.ofNat 26)
    (hstar : deref line ≠ '*') :
    ¬ (line = [] ∨ deref line = Char.ofNat 26 ∨
      tcsstr line "**".toList = some line ∨ tcsstr line "*".toList = some line) := by
  rintro (h | h | h | h)
  · exact hne h
  · exact heof h
  · exact hstar (deref_of_leading ((tcsstr_eq_self_iff _ _).mp h))
  · exact hstar (deref_of_leading ((tcsstr_eq_self_iff _ _).mp h))

theorem parseLine_data (env : Env) (st : ParserState) (line : CStr) (linenum : Nat)
    (way_points : Waypoints) (terrain : RasterTerrain)
    (hnum : 0 < linenum) (hlen : line.length < 255) (hne : line ≠ [])
    (heof : deref line ≠ Char.ofNat 26) (hstar : deref line ≠ '*')
    (hmark : ¬ taskMarker <+: line) (hign : st.ignore_following = false) :
    parseLine env st line linenum way_points terrain =
      match parseRecord env st (getParams env line) terrain with
      | none => (false, st, way_points)
      | some new_waypoint => (true, st, add_waypoint way_points new_waypoint) := by
  have h1 := not_comment hne heof hstar
  have h2 : ¬ ctemp_size ≤ line.length := by unfold ctemp_size; omega
  have h3 : ¬ linenum = 0 := by omega
  have h4 : ¬ tcsstr line taskMarker = some line := fun h => hmark ((tcsstr_eq_self_iff _ _).mp h)
  unfold parseLine
  rw [if_neg h1, if_neg h2, if_neg h3]
  simp only [h4, if_false, hign, Bool.false_eq_true]

theorem recordStart_eq_none_iff (env : Env) (st : ParserState) (params : List CStr) :
    recordStart env st params = none ↔
      (params.length ≤ st.iName ∨ params.length ≤ st.iLatitude ∨
        params.length ≤ st.iLongitude ∨
        parseAngle env.LONG_MAX (param params st.iLatitude) true = none ∨
        parseAngle env.LONG_MAX (param params st.iLongitude) false = none ∨
        param params st.iName = []) := by
  unfold recordStart
  by_cases h1 : params.length ≤ st.iName
  · simp [h1]
  by_cases h2 : params.length ≤ st.iLatitude
  · simp [h1, h2]
  by_cases h3 : params.length ≤ st.iLongitude
  · simp [h1, h2, h3]
  cases h4 : parseAngle env.LONG_MAX (param params st.iLatitude) true with
  | none => simp [h1, h2, h3]
  | some latitude =>
    cases h5 : parseAngle env.LONG_MAX (param params st.iLongitude) false with
    | none => simp [h1, h2, h3]
    | some longitude =>
      by_cases h6 : param params st.iName = []
      · simp [h1, h2, h3, h6]
      · simp [h1, h2, h3, h6]

theorem parseRecord_eq_none_iff (env : Env) (st : ParserState) (params : List CStr)
    (terrain : RasterTerrain) :
    parseRecord env st params terrain = none ↔ recordStart env st params = none := by
  unfold parseRecord
  simp

/-- C2 (as amended): for a data record (`linenum > 0`, shorter than 255
characters, not empty, not starting with 0x1A or `*`, not starting with the
section-end marker, with `ignore_following` false), `parseLine` returns false
if and only if the name, lat or lon column index is at least the number of
tokens, or `parseAngle` fails on the latitude token or on the longitude token,
or the name token is empty. -/
theorem parseLine_false_iff (env : Env) (st : ParserState) (line : CStr) (linenum : Nat)
    (way_points : Waypoints) (terrain : RasterTerrain)
    (hnum : 0 < linenum) (hlen : line.length < 255) (hne : line ≠ [])
    (heof : deref line ≠ Char.ofNat 26) (hstar : deref line ≠ '*')
    (hmark : ¬ taskMarker <+: line) (hign : st.ignore_following = false) :
    (parseLine env st line linenum way_points terrain).1 = false ↔
      ((getParams env line).length ≤ st.iName ∨
        (getParams env line).length ≤ st.iLatitude ∨
        (getParams env line).length ≤ st.iLongitude ∨
        parseAngle env.LONG_MAX (param (getParams env line) st.iLatitude) true = none ∨
        parseAngle env.LONG_MAX (param (getParams env line) st.iLongitude) false = none ∨
        param (getParams env line) st.iName = []) := by
  rw [parseLine_data env st line linenum way_points terrain hnum hlen hne heof hstar hmark hign,
    ← recordStart_eq_none_iff, ← parseRecord_eq_none_iff env st _ terrain]
  cases parseRecord env st (getParams env line) terrain <;> simp

/-- Witness of C2: from the initial state the record `Alpha,A1` is rejected
(no lat column) and the record `Alpha,A1,US,5115.900N,00715.900W` is not. -/
theorem parseLine_false_iff_witness :
    (parseLine specEnv ParserState.initial "Alpha,A1".toList 1 [] noTerrain).1 = false ∧
    (parseLine specEnv ParserState.initial
      "Alpha,A1,US,5115.900N,00715.900W".toList 1 [] noTerrain).1 ≠ false := by
  constructor
  · exact (parseLine_false_iff specEnv ParserState.initial "Alpha,A1".toList 1 [] noTerrain
      (by decide) (by decide) (by decide) (by decide) (by decide) (by decide) rfl).mpr
      (Or.inr (Or.inl (by decide)))
  · rw [Ne, parseLine_false_iff specEnv ParserState.initial
      "Alpha,A1,US,5115.900N,00715.900W".toList 1 [] noTerrain
      (by decide) (by decide) (by decide) (by decide) (by decide) (by decide) rfl]
    decide!

/-- Counterexample to C2 as stated: the line `-----Related Tasks-----x` is a
data record that is not the section-end marker, its lat column is missing
(one token, lat index 3), and still `parseLine` returns true, because the
marker test of `parseLine` is a test for a leading marker. -/
theorem parseLine_marker_prefix_counterexample :
    0 < 1 ∧ "-----Related Tasks-----x".toList.length < 255 ∧
    "-----Related Tasks-----x".toList ≠ [] ∧
    deref "-----Related Tasks-----x".toList ≠ Char.ofNat 26 ∧
    deref "-----Related Tasks-----x".toList ≠ '*' ∧
    "-----Related Tasks-----x".toList ≠ taskMarker ∧
    ParserState.initial.ignore_following = false ∧
    (getParams specEnv "-----Related Tasks-----x".toList).length ≤ ParserState.initial.iLatitude ∧
    (parseLine specEnv ParserState.initial "-----Related Tasks-----x".toList 1 [] noTerrain).1
      = true := by
  decide

/-! ### The header branch and the `static` column indices (C3) -/

/-- C3 (failing input): a first file with the header `desc,name,lat,lon` sets
the desc column to 0; the header `name,code,country,lat,lon` of a second file
does not mention `desc`, and the desc column stays 0 instead of the canonical
default 10. From the initial state the header `lon,name,lat` gives the
indices of the spec. -/
theorem header_keeps_previous_index :
    (parseLine specEnv ParserState.initial "desc,name,lat,lon".toList 0 [] noTerrain).2.1.iDescription
      = 0 ∧
    "desc".toList ∉ getParams specEnv "name,code,country,lat,lon".toList ∧
    (parseLine specEnv
      (parseLine specEnv ParserState.initial "desc,name,lat,lon".toList 0 [] noTerrain).2.1
      "name,code,country,lat,lon".toList 0 [] noTerrain).2.1.iDescription = 0 ∧
    (parseLine specEnv ParserState.initial "lon,name,lat".toList 0 [] noTerrain).2.1 =
      { iName := 1, iCode := 1, iCountry := 2, iLatitude := 2, iLongitude := 0,
        iElevation := 5, iStyle := 6, iRWDir := 7, iRWLen := 8, iFrequency := 9,
        iDescription := 10, ignore_following := false } := by
  decide

/-! ### After the section-end marker (C4) -/

theorem isCommentLine_iff (line : CStr) :
    (line = [] ∨ deref line = Char.ofNat 26 ∨
      tcsstr line "**".toList = some line ∨ tcsstr line "*".toList = some line) ↔
    isCommentLine line = true := by
  unfold isCommentLine
  rw [decide_eq_true_iff]
  constructor
  · rintro (h | h | h | h)
    · exact Or.inl h
    · exact Or.inr (Or.inl h)
    · exact Or.inr (Or.inr (deref_of_leading ((tcsstr_eq_self_iff _ _).mp h)))
    · exact Or.inr (Or.inr (deref_of_leading ((tcsstr_eq_self_iff _ _).mp h)))
  · rintro (h | h | h)
    · exact Or.inl h
    · exact Or.inr (Or.inl h)
    · right; right; right
      rw [tcsstr_eq_self_iff]
      cases line with
      | nil => exact absurd h (by decide)
      | cons c cs =>
        have hc : c = '*' := h
        subst hc
        exact ⟨cs, rfl⟩

theorem parseLine_ignored (env : Env) (st : ParserState) (line : CStr) (linenum : Nat)
    (way_points : Waypoints) (terrain : RasterTerrain)
    (hnum : 0 < linenum) (hign : st.ignore_following = true) :
    parseLine env st line linenum way_points terrain =
      (isCommentLine line || decide (line.length < 255), st, way_points) := by
  unfold parseLine
  by_cases h1 : isCommentLine line = true
  · rw [if_pos ((isCommentLine_iff line).mpr h1), h1]; rfl
  · rw [if_neg (fun h => h1 ((isCommentLine_iff line).mp h))]
    have h1' : isCommentLine line = false := by simpa using h1
    by_cases h2 : ctemp_size ≤ line.length
    · rw [if_pos h2, h1']
      have : ¬ line.length < 255 := by unfold ctemp_size at h2; omega
      simp [this]
    · rw [if_neg h2, if_neg (by omega : ¬ linenum = 0), h1']
      have : line.length < 255 := by unfold ctemp_size at h2; omega
      have hst : (if tcsstr line taskMarker = some line then
          { st with ignore_following := true } else st) = st := by
        split_ifs
        · cases st; simp_all
        · rfl
      simp only [hst, hign, if_true, this, decide_True, Bool.false_or]

theorem parseLine_marker (env : Env) (st : ParserState) (linenum : Nat)
    (way_points : Waypoints) (terrain : RasterTerrain) (hnum : 0 < linenum) :
    parseLine env st taskMarker linenum way_points terrain =
      (true, { st with ignore_following := true }, way_points) := by
  unfold parseLine
  have h1 : ¬ (taskMarker = [] ∨ deref taskMarker = Char.ofNat 26 ∨
      tcsstr taskMarker "**".toList = some taskMarker ∨
      tcsstr taskMarker "*".toList = some taskMarker) := by decide
  have h2 : ¬ ctemp_size ≤ taskMarker.length := by decide
  have h3 : tcsstr taskMarker taskMarker = some taskMarker :=
    (tcsstr_eq_self_iff _ _).mpr (List.prefix_refl _)
  rw [if_neg h1, if_neg h2, if_neg (by omega : ¬ linenum = 0)]
  simp only [h3, if_true]

theorem parseLines_ignored (env : Env) (terrain : RasterTerrain) (way_points : Waypoints) :
    ∀ (later : List (CStr × Nat)) (st : ParserState),
      st.ignore_following = true → (∀ r ∈ later, 0 < r.2) →
      parseLines env terrain st way_points later =
        (later.map (fun r => isCommentLine r.1 || decide (r.1.length < 255)), st, way_points) := by
  intro later
  induction later with
  | nil => intro st _ _; rfl
  | cons r rest ih =>
    intro st hign hpos
    have h0 : 0 < r.2 := hpos r (List.mem_cons_self _ _)
    have hrest : ∀ x ∈ rest, 0 < x.2 := fun x hx => hpos x (List.mem_cons_of_mem _ hx)
    simp only [parseLines, parseLine_ignored env st r.1 r.2 way_points terrain h0 hign,
      ih st hign hrest, List.map_cons]

/-- C4 (as amended): once a record equal to the section-end marker has been
processed (`linenum > 0`), `ignore_following` is true, and every later record
with `linenum > 0`, whatever its content, adds no waypoint and leaves the
state as it is (`ignore_following` stays true); it returns true when it is
empty, begins with 0x1A or `*`, or is shorter than 255 characters, and false
otherwise. -/
theorem marker_silences_session (env : Env) (terrain : RasterTerrain) (st : ParserState)
    (way_points : Waypoints) (linenum : Nat) (later : List (CStr × Nat))
    (hnum : 0 < linenum) (hlater : ∀ r ∈ later, 0 < r.2) :
    (parseLine env st taskMarker linenum way_points terrain).1 = true ∧
    (parseLine env st taskMarker linenum way_points terrain).2.1.ignore_following = true ∧
    (parseLine env st taskMarker linenum way_points terrain).2.2 = way_points ∧
    parseLines env terrain (parseLine env st taskMarker linenum way_points terrain).2.1
        (parseLine env st taskMarker linenum way_points terrain).2.2 later =
      (later.map (fun r => isCommentLine r.1 || decide (r.1.length < 255)),
        (parseLine env st taskMarker linenum way_points terrain).2.1, way_points) := by
  rw [parseLine_marker env st linenum way_points terrain hnum]
  exact ⟨rfl, rfl, rfl, parseLines_ignored env terrain way_points later _ rfl hlater⟩

/-- Witness of C4: after the marker, a well-formed record and a comment are
skipped and nothing is added. -/
theorem marker_silences_session_witness :
    parseLines specEnv noTerrain
        (parseLine specEnv ParserState.initial taskMarker 5 [] noTerrain).2.1 []
        [("Alpha,A1,US,5115.900N,00715.900W".toList, 6), ("*x".toList, 7)] =
      ([true, true], { ParserState.initial with ignore_following := true }, []) := by
  have h := (marker_silences_session specEnv noTerrain ParserState.initial [] 5
    [("Alpha,A1,US,5115.900N,00715.900W".toList, 6), ("*x".toList, 7)]
    (by decide) (by decide)).2.2.2
  rw [(marker_silences_session specEnv noTerrain ParserState.initial [] 5 []
    (by decide) (by decide)).2.2.1] at h
  rw [h]
  decide

/-- Counterexample to C4 as stated: after the marker has been processed, a
record of 255 characters returns false, not true (the line-length test comes
before the `ignore_following` test). -/
theorem long_line_after_marker_counterexample :
    (parseLine specEnv ParserState.initial taskMarker 1 [] noTerrain).2.1.ignore_following
      = true ∧
    (parseLine specEnv (parseLine specEnv ParserState.initial taskMarker 1 [] noTerrain).2.1
      (List.replicate 255 'x') 2 [] noTerrain).1 = false := by
  decide!

/-! ### `strtol` in general and `parseStyle` (C5) -/

theorem isdigit_deref_dropWhile (l : CStr) : isdigit (deref (l.dropWhile isdigit)) = false := by
  induction l with
  | nil => decide
  | cons c cs ih =>
    by_cases h : isdigit c = true
    · rw [List.dropWhile_cons_of_pos h]; exact ih
    · rw [List.dropWhile_cons_of_neg h]; simpa [deref] using h

theorem lead_decomp (ws sg rest : CStr) (hws : ∀ x ∈ ws, isspace x = true) (hsg : IsSign sg)
    (h1 : isspace (deref rest) = false) (h2 : deref rest ≠ '-') (h3 : deref rest ≠ '+') :
    (ws ++ sg ++ rest).takeWhile isspace = ws ∧
    (ws ++ sg ++ rest).dropWhile isspace = sg ++ rest ∧
    signLength (sg ++ rest) = sg.length ∧
    (deref (sg ++ rest) = '-' ↔ sg = ['-']) := by
  have hsp : isspace (deref (sg ++ rest)) = false := by
    rcases hsg with rfl | rfl | rfl
    · simpa using h1
    · show isspace '+' = false; decide
    · show isspace '-' = false; decide
  have hdw : (sg ++ rest).dropWhile isspace = sg ++ rest := by
    cases hl : sg ++ rest with
    | nil => rfl
    | cons c cs =>
      rw [hl] at hsp
      exact List.dropWhile_cons_of_neg (by simpa [deref] using hsp)
  refine ⟨?_, ?_, ?_, ?_⟩
  · rw [List.append_assoc]; exact takeWhile_run ws hws hsp
  · rw [List.append_assoc, List.dropWhile_append_of_pos hws, hdw]
  · rcases hsg with rfl | rfl | rfl
    · simp [signLength, h2, h3]
    · simp [signLength, deref]
    · simp [signLength, deref]
  · rcases hsg with rfl | rfl | rfl
    · simp [h2]
    · simp [deref]
    · simp [deref]

theorem lead_exists (src : CStr) :
    ∃ ws sg, src = ws ++ sg ++ (src.dropWhile isspace).drop (signLength (src.dropWhile isspace)) ∧
      (∀ x ∈ ws, isspace x = true) ∧ IsSign sg := by
  refine ⟨src.takeWhile isspace,
    (src.dropWhile isspace).take (signLength (src.dropWhile isspace)), ?_, ?_, ?_⟩
  · rw [List.append_assoc, List.take_append_drop, List.takeWhile_append_dropWhile]
  · intro x hx
    exact (List.mem_takeWhile_imp hx)
  · generalize src.dropWhile isspace = p
    unfold signLength
    cases p with
    | nil => left; simp
    | cons c cs =>
      by_cases h : c = '-'
      · right; right; simp [deref, h]
      · by_cases h' : c = '+'
        · right; left; simp [deref, h']
        · left; simp [deref, h, h']

theorem strtol_decomp (L : Int) (ws sg ds tail : CStr) (hws : ∀ x ∈ ws, isspace x = true)
    (hsg : IsSign sg) (hne : ds ≠ []) (hds : ∀ x ∈ ds, isdigit x = true)
    (ht : isdigit (deref tail) = false) :
    strtol L (ws ++ sg ++ ds ++ tail) =
      (saturate L (signedValue sg ds), ws.length + sg.length + ds.length) := by
  obtain ⟨d, ds', rfl⟩ := List.exists_cons_of_ne_nil hne
  have hd0 : isdigit d = true := hds d (List.mem_cons_self _ _)
  have hl := lead_decomp ws sg ((d :: ds') ++ tail) hws hsg (isspace_of_isdigit hd0)
    (ne_of_isdigit hd0 (by decide)) (ne_of_isdigit hd0 (by decide))
  obtain ⟨l1, l2, l3, l4⟩ := hl
  have htw : ((d :: ds') ++ tail).takeWhile isdigit = d :: ds' := takeWhile_run _ hds ht
  have e : ws ++ sg ++ d :: ds' ++ tail = ws ++ sg ++ ((d :: ds') ++ tail) := by simp
  unfold strtol
  simp only [e, l1, l2, l3, List.drop_left, htw]
  simp only [reduceCtorEq, if_false, l4, signedValue]

theorem strtol_consumed_iff (L : Int) (src : CStr) :
    (strtol L src).2 ≠ 0 ↔ HasIntegerPrefix src := by
  constructor
  · intro h
    obtain ⟨ws, sg, hsrc, hws, hsg⟩ := lead_exists src
    generalize hr : (src.dropWhile isspace).drop (signLength (src.dropWhile isspace)) = rest
      at hsrc
    cases rest with
    | nil =>
      exfalso; apply h
      simp [strtol, hr]
    | cons d tail =>
      by_cases hd : isdigit d = true
      · exact ⟨ws, sg, d, tail, hsrc, hws, hsg, hd⟩
      · exfalso; apply h
        simp [strtol, hr, hd]
  · rintro ⟨ws, sg, d, tail, rfl, hws, hsg, hd⟩
    have hsplit : d :: tail = (d :: tail).takeWhile isdigit ++ (d :: tail).dropWhile isdigit :=
      (List.takeWhile_append_dropWhile _ _).symm
    have hne : (d :: tail).takeWhile isdigit ≠ [] := by
      rw [List.takeWhile_cons_of_pos hd]; simp
    have := strtol_decomp L ws sg _ _ hws hsg hne
      (fun x hx => List.mem_takeWhile_imp hx) (isdigit_deref_dropWhile (d :: tail))
    rw [List.append_assoc, ← hsplit] at this
    rw [this]
    have : 0 < ((d :: tail).takeWhile isdigit).length := List.length_pos.mpr hne
    simp only [ne_eq]
    omega
theorem saturate_eq_iff {L : Int} (hL : 2147483647 ≤ L) (v k : Int)
    (hk1 : -2147483647 ≤ k) (hk2 : k < 2147483647) : saturate L v = k ↔ v = k := by
  unfold saturate
  split_ifs <;> omega

/-- C5: for a token with a leading integer code `c` (optional white space, an
optional sign, a non-empty run of digits `ds` that ends before a non-digit),
`parseStyle` succeeds and sets the flags to TurnPoint = true, LandPoint =
(c = 3), Airport = (c is 2, 4 or 5), whatever they held before; it never sets
LandPoint and Airport together; it fails exactly when the token has no
numeric prefix, and then leaves the flags unchanged. -/
theorem parseStyle_spec (LONG_MAX : Int) (hL : 2147483647 ≤ LONG_MAX) (src : CStr)
    (dest : WaypointFlags) :
    (∀ ws sg ds tail, src = ws ++ sg ++ ds ++ tail → (∀ x ∈ ws, isspace x = true) →
      IsSign sg → ds ≠ [] → (∀ x ∈ ds, isdigit x = true) → isdigit (deref tail) = false →
      parseStyle LONG_MAX src dest =
        (true,
          { TurnPoint := true,
            LandPoint := decide (signedValue sg ds = 3),
            Airport := decide (signedValue sg ds = 2 ∨ signedValue sg ds = 4 ∨
              signedValue sg ds = 5) })) ∧
    ((parseStyle LONG_MAX src dest).1 = true →
      ¬ ((parseStyle LONG_MAX src dest).2.LandPoint = true ∧
        (parseStyle LONG_MAX src dest).2.Airport = true)) ∧
    ((parseStyle LONG_MAX src dest).1 = false ↔ ¬ HasIntegerPrefix src) ∧
    ((parseStyle LONG_MAX src dest).1 = false → (parseStyle LONG_MAX src dest).2 = dest) := by
  refine ⟨?_, ?_, ?_, ?_⟩
  · rintro ws sg ds tail rfl hws hsg hne hds ht
    have hs := strtol_decomp LONG_MAX ws sg ds tail hws hsg hne hds ht
    have hlen : ¬ (ws.length + sg.length + ds.length = 0) := by
      have : 0 < ds.length := List.length_pos.mpr hne
      omega
    unfold parseStyle
    simp only [hs, hlen, if_false]
    simp only [saturate_eq_iff hL _ 3 (by norm_num) (by norm_num),
      saturate_eq_iff hL _ 2 (by norm_num) (by norm_num),
      saturate_eq_iff hL _ 4 (by norm_num) (by norm_num),
      saturate_eq_iff hL _ 5 (by norm_num) (by norm_num)]
  · unfold parseStyle
    by_cases h : (strtol LONG_MAX src).2 = 0
    · simp [h]
    · simp only [h, if_false, decide_eq_true_eq, not_and, true_implies]
      intro h3 h245
      omega
  · rw [← strtol_consumed_iff LONG_MAX src]
    unfold parseStyle
    by_cases h : (strtol LONG_MAX src).2 = 0
    · simp [h]
    · simp [h]
  · unfold parseStyle
    by_cases h : (strtol LONG_MAX src).2 = 0
    · simp [h]
    · simp [h]

/-- Witness of C5: the style token `3` turns flags with Airport set into
TurnPoint and LandPoint only. -/
theorem parseStyle_spec_witness :
    parseStyle (2 ^ 31 - 1) "3".toList { TurnPoint := false, LandPoint := false, Airport := true }
      = (true, { TurnPoint := true, LandPoint := true, Airport := false }) :=
  ((parseStyle_spec (2 ^ 31 - 1) (by norm_num) "3".toList
      { TurnPoint := false, LandPoint := false, Airport := true }).1
    [] [] ['3'] [] rfl (by simp) (Or.inl rfl) (by simp) (by decide) (by decide)).trans
    (by decide)

/-! ### The runway-length rule (C6) -/

theorem landableStep_Flags (env : Env) (st : ParserState) (params : List CStr) (w : Waypoint) :
    (landableStep env st params w).Flags = w.Flags := by
  unfold landableStep
  split_ifs <;> rfl

theorem landableStep_RunwayLength (env : Env) (st : ParserState) (params : List CStr)
    (w : Waypoint) : (landableStep env st params w).RunwayLength = w.RunwayLength := by
  unfold landableStep
  split_ifs <;> rfl

theorem commentStep_Flags (env : Env) (st : ParserState) (params : List CStr) (w : Waypoint) :
    (commentStep env st params w).Flags = w.Flags := by
  unfold commentStep
  split_ifs <;> simp only [landableStep_Flags]

theorem commentStep_RunwayLength (env : Env) (st : ParserState) (params : List CStr)
    (w : Waypoint) : (commentStep env st params w).RunwayLength = w.RunwayLength := by
  unfold commentStep
  split_ifs <;> simp only [landableStep_RunwayLength]

theorem parseRecord_eq_some (env : Env) (st : ParserState) (params : List CStr)
    (terrain : RasterTerrain) (w0 w : Waypoint) (h0 : recordStart env st params = some w0)
    (h : parseRecord env st params terrain = some w) :
    w = recordFinish env st params terrain w0 := by
  unfold parseRecord at h
  rw [h0] at h
  exact (Option.some.inj h).symm

theorem runwayLength_cases (env : Env) (st : ParserState) (params : List CStr) :
    ((params.length ≤ st.iRWLen ∨ parseDistance env.nonFinite env.factor (param params st.iRWLen) = none) →
      runwayLength env st params = 0) ∧
    (∀ v, st.iRWLen < params.length →
      parseDistance env.nonFinite env.factor (param params st.iRWLen) = some v →
      runwayLength env st params = v) := by
  unfold runwayLength
  constructor
  · rintro (h | h)
    · rw [if_neg (by omega)]
    · split_ifs
      · rw [h]
      · rfl
  · intro v h1 h2
    rw [if_pos h1, h2]

/-- C6: for an accepted record, with `r` the parsed runway length (0 when the
rwlen column is missing or does not parse) and `F` the flags after the style
step: the stored runway length is `r`; when `F.Airport` is set the flags stay
`F`; otherwise they stay `F` when `r ≤ 100`, LandPoint is set (Airport stays
false) when `100 < r ≤ 300`, and Airport is set (LandPoint as in `F`) when
`r > 300`. -/
theorem runway_reclassification (env : Env) (st : ParserState) (params : List CStr)
    (terrain : RasterTerrain) (w0 w : Waypoint) (F : WaypointFlags) (r : fixed)
    (h0 : recordStart env st params = some w0)
    (h : parseRecord env st params terrain = some w)
    (hF : (styleStep env st params (elevationStep env st params terrain w0)).Flags = F)
    (hr : runwayLength env st params = r) :
    ((params.length ≤ st.iRWLen ∨ parseDistance env.nonFinite env.factor (param params st.iRWLen) = none) →
      r = 0) ∧
    (∀ v, st.iRWLen < params.length →
      parseDistance env.nonFinite env.factor (param params st.iRWLen) = some v → r = v) ∧
    w.RunwayLength = r ∧
    (F.Airport = true → w.Flags = F) ∧
    (F.Airport = false → r ≤ 100 → w.Flags = F) ∧
    (F.Airport = false → 100 < r → r ≤ 300 →
      w.Flags = { F with LandPoint := true } ∧ w.Flags.Airport = false) ∧
    (F.Airport = false → 300 < r →
      w.Flags = { F with Airport := true } ∧ w.Flags.LandPoint = F.LandPoint) := by
  have hw := parseRecord_eq_some env st params terrain w0 w h0 h
  have hflags : w.Flags = reclassify F r := by
    rw [hw, recordFinish, commentStep_Flags, ← hF, ← hr]; rfl
  have hlen : w.RunwayLength = r := by
    rw [hw, recordFinish, commentStep_RunwayLength, ← hr]; rfl
  have hc := runwayLength_cases env st params
  rw [hr] at hc
  refine ⟨hc.1, hc.2, hlen, ?_, ?_, ?_, ?_⟩
  · intro hA
    rw [hflags, reclassify, hA]; rfl
  · intro hA h100
    rw [hflags, reclassify, hA]
    have h1 : ¬ (100 < r ∧ r ≤ 300) := fun h => absurd h.1 (not_lt.mpr h100)
    have h2 : ¬ 300 < r := fun h => absurd (lt_trans (by norm_num) h) (not_lt.mpr h100)
    simp only [Bool.not_false, if_true, h1, if_false, h2]
  · intro hA h100 h300
    rw [hflags, reclassify, hA]
    have h2 : ¬ 300 < r := not_lt.mpr h300
    simp only [Bool.not_false, if_true, h100, h300, and_self, h2, if_false, hA]
  · intro hA h300
    rw [hflags, reclassify, hA]
    have h1 : ¬ (100 < r ∧ r ≤ 300) := fun h => absurd h300 (not_lt.mpr h.2)
    simp only [Bool.not_false, if_true, h1, if_false, h300, and_self]
/-- Witness of C6: the record `Alpha,A1,US,5115.900N,00715.900W,458.0m,1,090,300m`
(style 1, runway length exactly 300) is accepted with LandPoint set and
Airport not set. -/
theorem runway_reclassification_witness :
    (parseRecord specEnv ParserState.initial
        (getParams specEnv "Alpha,A1,US,5115.900N,00715.900W,458.0m,1,090,300m".toList)
        noTerrain).map (fun w => (w.Flags, w.RunwayLength)) =
      some ({ TurnPoint := true, LandPoint := true, Airport := false }, 300) := by
  cases h : parseRecord specEnv ParserState.initial
      (getParams specEnv "Alpha,A1,US,5115.900N,00715.900W,458.0m,1,090,300m".toList)
      noTerrain with
  | none => exact absurd h (by decide!)
  | some w =>
    have h0 := (Option.some_get (show (recordStart specEnv ParserState.initial
      (getParams specEnv "Alpha,A1,US,5115.900N,00715.900W,458.0m,1,090,300m".toList)).isSome
        = true from by decide!)).symm
    obtain ⟨-, -, hlen, -, -, hland, -⟩ :=
      runway_reclassification specEnv ParserState.initial _ noTerrain _ w _ _ h0 h rfl rfl
    have hf := (hland (by decide!) (by decide!) (by decide!)).1
    rw [Option.map_some', hf, hlen]
    decide!

/-! ### The comment (C7) -/

theorem param_of_le (params : List CStr) (i : Nat) (h : params.length ≤ i) :
    param params i = [] := by
  unfold param
  exact List.getD_eq_default _ _ h

theorem append_guard (params : List CStr) (i : Nat) (dest : CStr) :
    (if i < params.length then appendStringWithSeperator dest (param params i) defaultSeperator
      else dest) = appendStringWithSeperator dest (param params i) defaultSeperator := by
  split_ifs with h
  · rfl
  · rw [param_of_le params i (by omega)]; simp [appendStringWithSeperator]

theorem appendStringWithSeperator_eq (dest src : CStr) (sep : Char) :
    appendStringWithSeperator dest src sep =
      if src = [] then dest else if dest = [] then src else dest ++ sep :: src := by
  unfold appendStringWithSeperator
  cases dest <;> simp

theorem append_chain (f d l c : CStr) :
    appendStringWithSeperator
      (appendStringWithSeperator
        (if d ≠ [] then
          appendStringWithSeperator (appendStringWithSeperator [] f defaultSeperator) d
            defaultSeperator ++ degreeMark
         else appendStringWithSeperator [] f defaultSeperator) l defaultSeperator)
      c defaultSeperator = joinNonEmpty [f, rwdirItem d, l, c] := by
  have hdeg : degreeMark ≠ [] := by decide
  by_cases hf : f = [] <;> by_cases hd : d = [] <;> by_cases hl : l = [] <;>
    by_cases hc : c = [] <;>
    simp [appendStringWithSeperator_eq, joinNonEmpty, rwdirItem, defaultSeperator, hf, hd, hl, hc,
      hdeg, List.intercalate, List.intersperse]
theorem elevationStep_Comment (env : Env) (st : ParserState) (params : List CStr)
    (terrain : RasterTerrain) (w : Waypoint) :
    (elevationStep env st params terrain w).Comment = w.Comment := by
  unfold elevationStep check_altitude
  split
  · rfl
  · simp only [Bool.false_eq_true, if_false]
    split <;> rfl

theorem styleStep_Comment (env : Env) (st : ParserState) (params : List CStr) (w : Waypoint) :
    (styleStep env st params w).Comment = w.Comment := by
  unfold styleStep
  split_ifs <;> rfl

theorem landableStep_Comment (env : Env) (st : ParserState) (params : List CStr)
    (w : Waypoint) :
    (landableStep env st params w).Comment =
      appendStringWithSeperator
        (if param params st.iRWDir ≠ [] then
          appendStringWithSeperator
            (appendStringWithSeperator w.Comment (param params st.iFrequency) defaultSeperator)
            (param params st.iRWDir) defaultSeperator ++ degreeMark
         else appendStringWithSeperator w.Comment (param params st.iFrequency) defaultSeperator)
        (param params st.iRWLen) defaultSeperator := by
  have hf : ¬ st.iFrequency < params.length → param params st.iFrequency = [] :=
    fun h => param_of_le _ _ (by omega)
  have hl : ¬ st.iRWLen < params.length → param params st.iRWLen = [] :=
    fun h => param_of_le _ _ (by omega)
  have hd : ¬ (st.iRWDir < params.length ∧ param params st.iRWDir ≠ []) →
      param params st.iRWDir = [] := by
    intro h
    by_contra hne
    exact h ⟨by_contra (fun hlt => hne (param_of_le _ _ (by omega))), hne⟩
  have hnil : ∀ dest : CStr, appendStringWithSeperator dest [] defaultSeperator = dest := by
    intro dest; simp [appendStringWithSeperator]
  unfold landableStep
  by_cases h2 : (st.iRWDir < params.length ∧ param params st.iRWDir ≠ [])
  · simp only [if_pos h2, if_pos h2.2]
    by_cases h1 : st.iFrequency < params.length <;>
      by_cases h3 : st.iRWLen < params.length <;>
      simp only [h1, h3, if_true, if_false, hf, hl, hnil, not_false_eq_true]
  · simp only [if_neg h2, if_neg (not_not.mpr (hd h2))]
    by_cases h1 : st.iFrequency < params.length <;>
      by_cases h3 : st.iRWLen < params.length <;>
      simp only [h1, h3, if_true, if_false, hf, hl, hnil, not_false_eq_true]

theorem commentStep_Comment (env : Env) (st : ParserState) (params : List CStr)
    (w : Waypoint) (hw : w.Comment = []) :
    (commentStep env st params w).Comment =
      if w.is_landable = true then
        joinNonEmpty [param params st.iFrequency, rwdirItem (param params st.iRWDir),
          param params st.iRWLen, param params st.iDescription]
      else param params st.iDescription := by
  have hguard : ∀ x : Waypoint,
      (if st.iDescription < params.length then
        { x with Comment := appendStringWithSeperator x.Comment (param params st.iDescription)
                              defaultSeperator }
       else x).Comment =
      appendStringWithSeperator x.Comment (param params st.iDescription) defaultSeperator := by
    intro x
    split_ifs with h
    · rfl
    · rw [param_of_le params _ (by omega)]; simp [appendStringWithSeperator]
  unfold commentStep
  rw [hguard]
  by_cases hl : w.is_landable = true
  · rw [if_pos hl, if_pos hl, landableStep_Comment, hw, append_chain]
  · rw [if_neg hl, if_neg hl, hw]
    simp [appendStringWithSeperator]

/-- C7: for an accepted record whose waypoint starts with an empty comment, the
comment of the emitted waypoint is, when the waypoint is landable (LandPoint or
Airport set after the runway-length rule), the non-empty items among the
frequency token, the runway-direction token followed by the degree mark, the
runway-length token and the description token, in that order, joined by
exactly one space; when it is not landable, the description token alone. A
column whose index is at least the token count reads as an empty item. -/
theorem comment_assembly (env : Env) (st : ParserState) (params : List CStr)
    (terrain : RasterTerrain) (w0 w : Waypoint)
    (h0 : recordStart env st params = some w0)
    (h : parseRecord env st params terrain = some w)
    (hc : w0.Comment = []) :
    (∀ i, params.length ≤ i → param params i = []) ∧
    w.Comment =
      if w.Flags.LandPoint = true ∨ w.Flags.Airport = true then
        joinNonEmpty [param params st.iFrequency, rwdirItem (param params st.iRWDir),
          param params st.iRWLen, param params st.iDescription]
      else param params st.iDescription := by
  refine ⟨param_of_le params, ?_⟩
  have hw := parseRecord_eq_some env st params terrain w0 w h0 h
  have hflags : w.Flags = (runwayStep env st params (styleStep env st params
      (elevationStep env st params terrain w0))).Flags := by
    rw [hw, recordFinish, commentStep_Flags]
  have hcom : (runwayStep env st params (styleStep env st params
      (elevationStep env st params terrain w0))).Comment = [] := by
    show (styleStep env st params (elevationStep env st params terrain w0)).Comment = []
    rw [styleStep_Comment, elevationStep_Comment, hc]
  rw [hflags, hw, recordFinish, commentStep_Comment _ _ _ _ hcom]
  simp only [Waypoint.is_landable, Bool.or_eq_true]
/-- Witness of C7: the record of the spec's end-to-end example (style 5,
an airport) gets the comment `118.500 090° 1200m Main field`. -/
theorem comment_assembly_witness :
    (parseRecord specEnv ParserState.initial
        (getParams specEnv
          "Alpha,A1,US,5115.900N,00715.900W,458.0m,5,090,1200m,118.500,Main field".toList)
        noTerrain).map (fun w => w.Comment) =
      some "118.500 090° 1200m Main field".toList := by
  have h := (Option.some_get (show (parseRecord specEnv ParserState.initial
      (getParams specEnv
        "Alpha,A1,US,5115.900N,00715.900W,458.0m,5,090,1200m,118.500,Main field".toList)
      noTerrain).isSome = true from by decide!)).symm
  have h0 := (Option.some_get (show (recordStart specEnv ParserState.initial
      (getParams specEnv
        "Alpha,A1,US,5115.900N,00715.900W,458.0m,5,090,1200m,118.500,Main field".toList)).isSome
      = true from by decide!)).symm
  have hc := (comment_assembly specEnv ParserState.initial _ noTerrain _ _ h0 h (by decide!)).2
  refine (congrArg (Option.map (fun w => w.Comment)) h).trans (congrArg some (hc.trans ?_))
  decide!

/-! ### `strtod`, `parseAltitude` and `parseDistance` (C8, C9) -/

theorem takeWhile_eq_nil_iff_deref (isd : Char → Bool) (h0 : isd NUL = false) (p : CStr) :
    p.takeWhile isd = [] ↔ isd (deref p) = false := by
  cases p with
  | nil => simp [deref, h0]
  | cons c cs =>
    by_cases h : isd c = true
    · simp [deref, h]
    · simp [deref, h]

theorem mantissa_nonempty (isd : Char → Bool) (h0 : isd NUL = false) (p : CStr) :
    ¬ ((mantissa isd p).1 = [] ∧ (mantissa isd p).2.2 = []) ↔
      (isd (deref p) = true ∨ (deref p = '.' ∧ isd (deref (p.drop 1)) = true)) := by
  unfold mantissa
  by_cases hip : p.takeWhile isd = []
  · have hd : isd (deref p) = false := (takeWhile_eq_nil_iff_deref isd h0 p).mp hip
    simp only [hip, List.length_nil, List.drop_zero, true_and, hd, Bool.false_eq_true, false_or]
    by_cases hdot : deref p = '.'
    · simp only [hdot, if_true, true_and]
      by_cases hfp : (List.drop 1 p).takeWhile isd = []
      · have := (takeWhile_eq_nil_iff_deref isd h0 _).mp hfp
        simp only [hfp, and_self, if_true, not_true_eq_false, this, Bool.false_eq_true]
      · have : isd (deref (List.drop 1 p)) = true := by
          by_contra hc
          exact hfp ((takeWhile_eq_nil_iff_deref isd h0 _).mpr (by simpa using hc))
        simp only [hfp, and_false, if_false, not_false_eq_true, this]
    · simp only [hdot, if_false, and_self, not_true_eq_false, false_and]
  · have hd : isd (deref p) = true := by
      by_contra hc
      exact hip ((takeWhile_eq_nil_iff_deref isd h0 _).mpr (by simpa using hc))
    simp only [hd, true_or, iff_true]
    split_ifs with h1 h2
    · exact absurd h2.1 hip
    · exact fun h => hip h.1
    · exact fun h => hip h.1

theorem mantissa_decomp (isd : Char → Bool) (hdot : isd '.' = false) (ip pt fp rest : CStr)
    (hm : IsMantissa isd ip pt fp) (h1 : isd (deref rest) = false)
    (h2 : pt = [] → deref rest ≠ '.') :
    mantissa isd (ip ++ (pt ++ (fp ++ rest))) = (ip, decide (pt = ['.']), fp) := by
  obtain ⟨hip, hfp, hpt, hne⟩ := hm
  unfold mantissa
  rcases hpt with ⟨rfl, rfl⟩ | rfl
  · have ht : (ip ++ rest).takeWhile isd = ip := takeWhile_run ip hip h1
    simp only [List.nil_append, ht, List.drop_left, h2 rfl, if_false]
    simp
  · have hd : isd (deref ('.' :: (fp ++ rest))) = false := hdot
    have ht : (ip ++ ('.' :: (fp ++ rest))).takeWhile isd = ip := takeWhile_run ip hip hd
    have hf : (fp ++ rest).takeWhile isd = fp := takeWhile_run fp hfp h1
    have hn : ¬ (ip = [] ∧ fp = []) := fun h => hne.elim (fun a => a h.1) (fun a => a h.2)
    simp only [List.singleton_append, ht, List.drop_left, deref, List.headD_cons, if_true,
      List.drop_succ_cons, List.drop_zero, hf, hn, if_false]
    simp

theorem isSign_take (p : CStr) : IsSign (p.take (signLength p)) := by
  unfold signLength
  cases p with
  | nil => left; simp
  | cons c cs =>
    by_cases h : c = '-'
    · right; right; simp [deref, h]
    · by_cases h' : c = '+'
      · right; left; simp [deref, h']
      · left; simp [deref, h, h']

theorem exponent_eq_zero (lower upper : Char) (suffix : CStr)
    (h : ¬ BeginsExponent lower upper suffix) : exponent lower upper suffix = (0, 0) := by
  unfold exponent
  by_cases hc : deref suffix = lower ∨ deref suffix = upper
  · rw [if_pos hc]
    cases suffix with
    | nil => simp
    | cons c q =>
      simp only [List.drop_succ_cons, List.drop_zero]
      by_cases hds : (q.drop (signLength q)).takeWhile isdigit = []
      · simp only [hds, if_true]
      · exfalso
        have hd : isdigit (deref (q.drop (signLength q))) = true := by
          by_contra hcc
          exact hds ((takeWhile_eq_nil_iff_deref isdigit isdigit_NUL _).mpr (by simpa using hcc))
        cases hq : q.drop (signLength q) with
        | nil => rw [hq] at hd; exact absurd hd (by decide)
        | cons d tail =>
          rw [hq] at hd
          refine h ⟨c, q.take (signLength q), d, tail, ?_, hc, isSign_take q, hd⟩
          rw [← hq, List.take_append_drop]
  · rw [if_neg hc]

theorem exponent_decomp (lower upper : Char) (ex suffix : CStr) (e : Int)
    (hex : IsExponentPart lower upper ex e)
    (h0 : ex = [] → ¬ BeginsExponent lower upper suffix)
    (h1 : ex ≠ [] → isdigit (deref suffix) = false) :
    exponent lower upper (ex ++ suffix) = (e, ex.length) := by
  rcases hex with ⟨rfl, rfl⟩ | ⟨c, sg, ds, rfl, hc, hsg, hne, hds, rfl⟩
  · exact exponent_eq_zero lower upper suffix (h0 rfl)
  · have ht := h1 (by simp)
    obtain ⟨d, ds', rfl⟩ := List.exists_cons_of_ne_nil hne
    have hd0 : isdigit d = true := hds d (List.mem_cons_self _ _)
    obtain ⟨-, -, l3, l4⟩ := lead_decomp [] sg ((d :: ds') ++ suffix) (by simp) hsg
      (isspace_of_isdigit hd0) (ne_of_isdigit hd0 (by decide)) (ne_of_isdigit hd0 (by decide))
    have hrun : ((d :: ds') ++ suffix).takeWhile isdigit = d :: ds' := takeWhile_run _ hds ht
    unfold exponent
    have hq : List.drop 1 (c :: (sg ++ d :: ds') ++ suffix) = sg ++ ((d :: ds') ++ suffix) := by
      simp
    have hc' : deref (c :: (sg ++ d :: ds') ++ suffix) = lower ∨
        deref (c :: (sg ++ d :: ds') ++ suffix) = upper := hc
    rw [if_pos hc', hq]
    simp only [l3, List.drop_left, hrun, reduceCtorEq, if_false, l4, signedValue,
      List.length_cons, List.length_append, Prod.mk.injEq]
    constructor
    · trivial
    · omega

theorem beginsIgnoringCase_iff (p word : CStr) :
    beginsIgnoringCase p word = true ↔ BeginsWith p word := by
  unfold beginsIgnoringCase BeginsWith
  rw [beq_iff_eq]
  constructor
  · intro h
    exact ⟨p.take word.length, p.drop word.length, (List.take_append_drop _ _).symm, h⟩
  · rintro ⟨w, tail, rfl, hw⟩
    have hl : word.length = w.length := by rw [← hw, List.length_map]
    rw [hl, List.take_left, hw]

theorem beginsWith_deref {p : CStr} (c : Char) (word : CStr) (h : BeginsWith p (c :: word)) :
    tolower (deref p) = c := by
  obtain ⟨w, tail, rfl, hw⟩ := h
  cases w with
  | nil => simp at hw
  | cons a w' =>
    simp only [List.map_cons, List.cons.injEq] at hw
    exact hw.1

theorem tolower_of_isdigit {c : Char} (h : isdigit c = true) : tolower c = c := by
  unfold tolower
  simp only [isdigit, Bool.and_eq_true, decide_eq_true_eq] at h
  rw [if_neg (by omega)]

theorem not_beginsWith_of_first {p : CStr} (h : isdigit (deref p) = true ∨ deref p = '.')
    (c : Char) (word : CStr) (hc : isdigit c = false) (hc' : c ≠ '.') :
    beginsIgnoringCase p (c :: word) = false := by
  by_contra hb
  have hb' : beginsIgnoringCase p (c :: word) = true := by simpa using hb
  have ht := beginsWith_deref c word ((beginsIgnoringCase_iff _ _).mp hb')
  rcases h with h | h
  · rw [tolower_of_isdigit h] at ht
    rw [ht] at h
    simp [h] at hc
  · rw [h] at ht
    exact hc' (ht.symm.trans (by decide))

theorem mantissa_first {isd : Char → Bool} {ip pt fp : CStr} (hm : IsMantissa isd ip pt fp)
    (rest : CStr) :
    isd (deref (ip ++ (pt ++ (fp ++ rest)))) = true ∨ deref (ip ++ (pt ++ (fp ++ rest))) = '.' := by
  obtain ⟨hip, hfp, hpt, hne⟩ := hm
  cases ip with
  | nil =>
    rcases hpt with ⟨rfl, rfl⟩ | rfl
    · exact absurd rfl (hne.resolve_left (fun h => h rfl))
    · right; rfl
  | cons c ip' => left; exact hip c (List.mem_cons_self _ _)

theorem mantissa_length {ip pt fp : CStr} {isd : Char → Bool} (hm : IsMantissa isd ip pt fp) :
    ip.length + (if decide (pt = ['.']) = true then 1 else 0) + fp.length =
      (ip ++ (pt ++ fp)).length := by
  obtain ⟨-, -, hpt, -⟩ := hm
  rcases hpt with ⟨rfl, rfl⟩ | rfl
  · simp
  · simp; omega

theorem longest_rest {isd : Char → Bool} {lower upper : Char} {pt ex suffix : CStr} {e : Int}
    (hl : isd lower = false) (hu : isd upper = false) (hl' : lower ≠ '.') (hu' : upper ≠ '.')
    (hex : IsExponentPart lower upper ex e) (hlong : IsLongest isd lower upper pt ex suffix) :
    isd (deref (ex ++ suffix)) = false ∧ (pt = [] → deref (ex ++ suffix) ≠ '.') := by
  rcases hex with ⟨rfl, -⟩ | ⟨c, sg, ds, rfl, hc, -⟩
  · exact ⟨(hlong.2 rfl).1, (hlong.2 rfl).2.1⟩
  · have hd : deref (c :: (sg ++ ds) ++ suffix) = c := rfl
    rw [hd]
    rcases hc with rfl | rfl
    · exact ⟨hl, fun _ => hl'⟩
    · exact ⟨hu, fun _ => hu'⟩

theorem strtodBody_decimal (negative : Bool) (ip pt fp ex suffix : CStr) (e : Int)
    (hm : IsMantissa isdigit ip pt fp) (hex : IsExponentPart 'e' 'E' ex e)
    (hlong : IsLongest isdigit 'e' 'E' pt ex suffix)
    (hnh : ¬ (ip = ['0'] ∧ pt = [] ∧ ex = [] ∧ BeginsHexadecimal suffix)) :
    strtodBody negative (ip ++ (pt ++ (fp ++ (ex ++ suffix)))) =
      (roundToDouble (if negative = true
          then -((decimalValue (ip ++ fp) : ℚ) / ((10 ^ fp.length : Nat) : ℚ) * power 10 e)
          else (decimalValue (ip ++ fp) : ℚ) / ((10 ^ fp.length : Nat) : ℚ) * power 10 e),
        (ip ++ (pt ++ (fp ++ ex))).length) := by
  have hfirst := mantissa_first hm (ex ++ suffix)
  have hrest := longest_rest (by decide) (by decide) (by decide) (by decide) hex hlong
  have hman := mantissa_decomp isdigit (by decide) ip pt fp (ex ++ suffix) hm hrest.1 hrest.2
  have hexp := exponent_decomp 'e' 'E' ex suffix e hex (fun h => (hlong.2 h).2.2) hlong.1
  have hlen := mantissa_length hm
  have hne : ¬ (ip = [] ∧ fp = []) := fun h =>
    hm.2.2.2.elim (fun a => a h.1) (fun a => a h.2)
  have hdrop : List.drop (ip ++ (pt ++ fp)).length (ip ++ (pt ++ (fp ++ (ex ++ suffix)))) =
      ex ++ suffix := by
    have : ip ++ (pt ++ (fp ++ (ex ++ suffix))) = (ip ++ (pt ++ fp)) ++ (ex ++ suffix) := by
      simp only [List.append_assoc]
    rw [this, List.drop_left]
  have hhex : ¬ ((deref (ip ++ (pt ++ (fp ++ (ex ++ suffix)))) = '0' ∧
      (deref (List.drop 1 (ip ++ (pt ++ (fp ++ (ex ++ suffix))))) = 'x' ∨
        deref (List.drop 1 (ip ++ (pt ++ (fp ++ (ex ++ suffix))))) = 'X')) ∧
      ¬ ((mantissa isxdigit (List.drop 2 (ip ++ (pt ++ (fp ++ (ex ++ suffix)))))).1 = [] ∧
        (mantissa isxdigit (List.drop 2 (ip ++ (pt ++ (fp ++ (ex ++ suffix)))))).2.2 = [])) := by
    rintro ⟨⟨h0, hx⟩, hmx⟩
    rw [mantissa_nonempty isxdigit (by decide)] at hmx
    apply hnh
    obtain ⟨hip, hfp, hpt, -⟩ := hm
    cases ip with
    | nil =>
      rcases hpt with ⟨rfl, rfl⟩ | rfl
      · exact absurd ⟨rfl, rfl⟩ hne
      · have h0' : '.' = '0' := h0
        exact absurd h0' (by decide)
    | cons c ip' =>
      have hc0 : c = '0' := h0
      subst hc0
      cases ip' with
      | cons c2 ip'' =>
        have hd2 : isdigit c2 = true := hip c2 (by simp)
        have hx' : c2 = 'x' ∨ c2 = 'X' := hx
        rcases hx' with rfl | rfl
        · exact absurd hd2 (by decide)
        · exact absurd hd2 (by decide)
      | nil =>
        rcases hpt with ⟨rfl, rfl⟩ | rfl
        · rcases hex with ⟨rfl, -⟩ | ⟨c, sg, ds, rfl, hc, -⟩
          · refine ⟨rfl, rfl, rfl, ?_⟩
            cases suffix with
            | nil => rcases hx with hx | hx <;> exact absurd hx (by decide)
            | cons x rest => exact ⟨x, rest, rfl, hx, hmx⟩
          · have hx' : c = 'x' ∨ c = 'X' := hx
            rcases hc with rfl | rfl <;> rcases hx' with hx' | hx' <;>
              exact absurd hx' (by decide)
        · have hx' : '.' = 'x' ∨ '.' = 'X' := hx
          rcases hx' with hx' | hx' <;> exact absurd hx' (by decide)
  have hi1 : beginsIgnoringCase (ip ++ (pt ++ (fp ++ (ex ++ suffix)))) "infinity".toList = false :=
    not_beginsWith_of_first hfirst 'i' "nfinity".toList (by decide) (by decide)
  have hi2 : beginsIgnoringCase (ip ++ (pt ++ (fp ++ (ex ++ suffix)))) "inf".toList = false :=
    not_beginsWith_of_first hfirst 'i' "nf".toList (by decide) (by decide)
  have hi3 : beginsIgnoringCase (ip ++ (pt ++ (fp ++ (ex ++ suffix)))) "nan".toList = false :=
    not_beginsWith_of_first hfirst 'n' "an".toList (by decide) (by decide)
  unfold strtodBody
  simp only [hi1, hi2, hi3, Bool.false_eq_true, if_false, hhex, hman, hne, hlen, hdrop, hexp]
  simp only [List.length_append]
  congr 1
  omega

theorem strtodBody_hexadecimal (negative : Bool) (x : Char) (ip pt fp ex suffix : CStr) (e : Int)
    (hx : x = 'x' ∨ x = 'X') (hm : IsMantissa isxdigit ip pt fp)
    (hex : IsExponentPart 'p' 'P' ex e) (hlong : IsLongest isxdigit 'p' 'P' pt ex suffix) :
    strtodBody negative ('0' :: x :: (ip ++ (pt ++ (fp ++ (ex ++ suffix))))) =
      (roundToDouble (if negative = true
          then -((hexadecimalValue (ip ++ fp) : ℚ) / ((16 ^ fp.length : Nat) : ℚ) * power 2 e)
          else (hexadecimalValue (ip ++ fp) : ℚ) / ((16 ^ fp.length : Nat) : ℚ) * power 2 e),
        2 + (ip ++ (pt ++ (fp ++ ex))).length) := by
  have hfirst : isdigit (deref ('0' :: x :: (ip ++ (pt ++ (fp ++ (ex ++ suffix)))))) = true ∨
      deref ('0' :: x :: (ip ++ (pt ++ (fp ++ (ex ++ suffix))))) = '.' := Or.inl rfl
  have hrest := longest_rest (by decide) (by decide) (by decide) (by decide) hex hlong
  have hman := mantissa_decomp isxdigit (by decide) ip pt fp (ex ++ suffix) hm hrest.1 hrest.2
  have hexp := exponent_decomp 'p' 'P' ex suffix e hex (fun h => (hlong.2 h).2.2) hlong.1
  have hlen := mantissa_length hm
  have hne : ¬ (ip = [] ∧ fp = []) := fun h =>
    hm.2.2.2.elim (fun a => a h.1) (fun a => a h.2)
  have hdrop : List.drop (ip ++ (pt ++ fp)).length (ip ++ (pt ++ (fp ++ (ex ++ suffix)))) =
      ex ++ suffix := by
    have : ip ++ (pt ++ (fp ++ (ex ++ suffix))) = (ip ++ (pt ++ fp)) ++ (ex ++ suffix) := by
      simp only [List.append_assoc]
    rw [this, List.drop_left]
  have hi1 : beginsIgnoringCase ('0' :: x :: (ip ++ (pt ++ (fp ++ (ex ++ suffix)))))
      "infinity".toList = false :=
    not_beginsWith_of_first hfirst 'i' "nfinity".toList (by decide) (by decide)
  have hi2 : beginsIgnoringCase ('0' :: x :: (ip ++ (pt ++ (fp ++ (ex ++ suffix)))))
      "inf".toList = false :=
    not_beginsWith_of_first hfirst 'i' "nf".toList (by decide) (by decide)
  have hi3 : beginsIgnoringCase ('0' :: x :: (ip ++ (pt ++ (fp ++ (ex ++ suffix)))))
      "nan".toList = false :=
    not_beginsWith_of_first hfirst 'n' "an".toList (by decide) (by decide)
  have hd0 : deref ('0' :: x :: (ip ++ (pt ++ (fp ++ (ex ++ suffix))))) = '0' := rfl
  have hd1 : deref (List.drop 1 ('0' :: x :: (ip ++ (pt ++ (fp ++ (ex ++ suffix)))))) = 'x' ∨
      deref (List.drop 1 ('0' :: x :: (ip ++ (pt ++ (fp ++ (ex ++ suffix)))))) = 'X' := hx
  have hd2 : List.drop 2 ('0' :: x :: (ip ++ (pt ++ (fp ++ (ex ++ suffix))))) =
      ip ++ (pt ++ (fp ++ (ex ++ suffix))) := rfl
  have hdrop2 : List.drop (2 + (ip ++ (pt ++ fp)).length)
      ('0' :: x :: (ip ++ (pt ++ (fp ++ (ex ++ suffix))))) = ex ++ suffix := by
    rw [← List.drop_drop, hd2, hdrop]
  have hlen2 : 2 + ip.length + (if decide (pt = ['.']) = true then 1 else 0) + fp.length =
      2 + (ip ++ (pt ++ fp)).length := by omega
  unfold strtodBody
  simp only [hi1, hi2, hi3, Bool.false_eq_true, if_false, hd0, hd1, hd2, hman, hne,
    not_false_eq_true, and_self, if_true, hlen2, hdrop2, hexp]
  simp only [List.length_append]
  congr 1
  omega

theorem strtodBody_infinity (negative : Bool) (w suffix : CStr)
    (hw : w.map tolower = "infinity".toList ∨
      (w.map tolower = "inf".toList ∧ ¬ BeginsWith suffix "inity".toList)) :
    strtodBody negative (w ++ suffix) = (Double.infinite negative, w.length) := by
  unfold strtodBody
  rcases hw with hw | ⟨hw, hs⟩
  · have hb : beginsIgnoringCase (w ++ suffix) "infinity".toList = true :=
      (beginsIgnoringCase_iff _ _).mpr ⟨w, suffix, rfl, hw⟩
    have hl : w.length = 8 := by
      have := congrArg List.length hw
      rw [List.length_map] at this
      exact this
    rw [if_pos hb, hl]
  · have hl : w.length = 3 := by
      have := congrArg List.length hw
      rw [List.length_map] at this
      exact this
    have hb1 : ¬ beginsIgnoringCase (w ++ suffix) "infinity".toList = true := by
      intro hb
      apply hs
      unfold beginsIgnoringCase at hb
      rw [beq_iff_eq, List.take_append_eq_append_take, List.map_append,
        List.take_of_length_le (by rw [hl]; decide), hw, hl] at hb
      have hsplit : "infinity".toList = "inf".toList ++ "inity".toList := rfl
      rw [hsplit] at hb
      have hb' := List.append_cancel_left hb
      exact ⟨suffix.take 5, suffix.drop 5, (List.take_append_drop _ _).symm, hb'⟩
    have hb2 : beginsIgnoringCase (w ++ suffix) "inf".toList = true :=
      (beginsIgnoringCase_iff _ _).mpr ⟨w, suffix, rfl, hw⟩
    rw [if_neg hb1, if_pos hb2, hl]

theorem drop_length_takeWhile (p : Char → Bool) (l : CStr) :
    l.drop (l.takeWhile p).length = l.dropWhile p := by
  induction l with
  | nil => rfl
  | cons c cs ih =>
    by_cases h : p c = true
    · rw [List.takeWhile_cons_of_pos h, List.dropWhile_cons_of_pos h]
      exact ih
    · rw [List.takeWhile_cons_of_neg h, List.dropWhile_cons_of_neg h]
      rfl

theorem nanSequence_eq_zero (suffix : CStr)
    (h : ¬ ∃ s tail, suffix = s ++ tail ∧ IsNanSequence s) : nanSequence suffix = 0 := by
  unfold nanSequence
  by_cases hp : deref suffix = '('
  · rw [if_pos hp]
    by_cases hc : deref (List.drop ((List.drop 1 suffix).takeWhile isnchar).length
        (List.drop 1 suffix)) = ')'
    · exfalso
      apply h
      cases suffix with
      | nil => exact absurd hp (by decide)
      | cons c q =>
        have hc0 : c = '(' := hp
        subst hc0
        simp only [List.drop_succ_cons, List.drop_zero] at hc
        cases hq : List.drop (q.takeWhile isnchar).length q with
        | nil => rw [hq] at hc; exact absurd hc (by decide)
        | cons d tail =>
          rw [hq] at hc
          have hd : d = ')' := hc
          subst hd
          refine ⟨'(' :: (q.takeWhile isnchar ++ [')']), tail, ?_,
            q.takeWhile isnchar, rfl, fun x hx => List.mem_takeWhile_imp hx⟩
          have hq2 : q = q.takeWhile isnchar ++ (')' :: tail) := by
            rw [drop_length_takeWhile] at hq
            conv_lhs => rw [← List.takeWhile_append_dropWhile isnchar q, hq]
          conv_lhs => rw [hq2]
          simp
    · simp only [hc, if_false]
  · rw [if_neg hp]

theorem nanSequence_decomp (seq suffix : CStr)
    (h : IsNanSequence seq ∨ (seq = [] ∧ ¬ ∃ s tail, suffix = s ++ tail ∧ IsNanSequence s)) :
    nanSequence (seq ++ suffix) = seq.length := by
  rcases h with ⟨body, rfl, hb⟩ | ⟨rfl, hs⟩
  · unfold nanSequence
    have hd : deref ('(' :: (body ++ [')']) ++ suffix) = '(' := rfl
    have hq : List.drop 1 ('(' :: (body ++ [')']) ++ suffix) = body ++ (')' :: suffix) := by
      simp
    have ht : (body ++ (')' :: suffix)).takeWhile isnchar = body :=
      takeWhile_run body hb (show isnchar ')' = false by decide)
    rw [if_pos hd, hq]
    simp only [ht, List.drop_left, deref, List.headD_cons, if_true, List.length_cons,
      List.length_append, List.length_nil]
  · exact nanSequence_eq_zero suffix hs

theorem strtodBody_nan (negative : Bool) (w seq suffix : CStr)
    (hw : w.map tolower = "nan".toList)
    (hseq : IsNanSequence seq ∨
      (seq = [] ∧ ¬ ∃ s tail, suffix = s ++ tail ∧ IsNanSequence s)) :
    strtodBody negative (w ++ (seq ++ suffix)) = (Double.nan, (w ++ seq).length) := by
  have hl : w.length = 3 := by
    have := congrArg List.length hw
    rw [List.length_map] at this
    exact this
  have hb : BeginsWith (w ++ (seq ++ suffix)) "nan".toList := ⟨w, seq ++ suffix, rfl, hw⟩
  have hn : tolower (deref (w ++ (seq ++ suffix))) = 'n' :=
    beginsWith_deref 'n' "an".toList hb
  have hi1 : ¬ beginsIgnoringCase (w ++ (seq ++ suffix)) "infinity".toList = true := by
    intro h
    have hi : tolower (deref (w ++ (seq ++ suffix))) = 'i' :=
      beginsWith_deref 'i' "nfinity".toList ((beginsIgnoringCase_iff _ _).mp h)
    rw [hn] at hi
    exact absurd hi (by decide)
  have hi2 : ¬ beginsIgnoringCase (w ++ (seq ++ suffix)) "inf".toList = true := by
    intro h
    have hi : tolower (deref (w ++ (seq ++ suffix))) = 'i' :=
      beginsWith_deref 'i' "nf".toList ((beginsIgnoringCase_iff _ _).mp h)
    rw [hn] at hi
    exact absurd hi (by decide)
  have hi3 : beginsIgnoringCase (w ++ (seq ++ suffix)) "nan".toList = true :=
    (beginsIgnoringCase_iff _ _).mpr hb
  have hdrop : List.drop 3 (w ++ (seq ++ suffix)) = seq ++ suffix := by
    rw [← hl, List.drop_left]
  unfold strtodBody
  rw [if_neg hi1, if_neg hi2, if_pos hi3, hdrop, nanSequence_decomp seq suffix hseq,
    List.length_append, hl]

theorem tolower_eq_iff (c lo up : Char) (hup : 65 ≤ up.toNat ∧ up.toNat ≤ 90)
    (hlo : lo = Char.ofNat (up.toNat + 32)) (hfix : tolower lo = lo) :
    tolower c = lo ↔ c = lo ∨ c = up := by
  constructor
  · intro h
    by_cases hr : 65 ≤ c.toNat ∧ c.toNat ≤ 90
    · right
      have hc := Char.ofNat_toNat c
      have hu := Char.ofNat_toNat up
      unfold tolower at h
      rw [if_pos hr, hlo] at h
      obtain ⟨h1, h2⟩ := hr
      obtain ⟨h3, h4⟩ := hup
      generalize c.toNat = n at h hc h1 h2
      generalize up.toNat = m at h hu h3 h4
      rw [← hc, ← hu]
      interval_cases n <;> interval_cases m <;>
        first
        | rfl
        | exact absurd h (by decide)
    · left
      unfold tolower at h
      rw [if_neg hr] at h
      exact h
  · rintro (rfl | rfl)
    · exact hfix
    · unfold tolower
      rw [if_pos hup, hlo]

theorem tcsicmp_eq_two (s : CStr) (lo1 up1 lo2 up2 : Char)
    (h1 : ∀ c, tolower c = lo1 ↔ c = lo1 ∨ c = up1)
    (h2 : ∀ c, tolower c = lo2 ↔ c = lo2 ∨ c = up2)
    (hf1 : tolower lo1 = lo1) (hf2 : tolower lo2 = lo2) :
    tcsicmp_eq s [lo1, lo2] = true ↔
      s ∈ [[lo1, lo2], [lo1, up2], [up1, lo2], [up1, up2]] := by
  unfold tcsicmp_eq
  match s with
  | [] => simp
  | [a] => simp
  | [a, b] =>
    simp only [List.map_cons, List.map_nil, hf1, hf2, beq_iff_eq, List.cons.injEq, and_true,
      h1, h2, List.mem_cons, List.mem_singleton, List.not_mem_nil, or_false]
    tauto
  | a :: b :: c :: rest => simp

theorem tcsicmp_ml (s : CStr) :
    tcsicmp_eq s "ml".toList = true ↔
      s ∈ ["ml".toList, "mL".toList, "Ml".toList, "ML".toList] :=
  tcsicmp_eq_two s 'm' 'M' 'l' 'L'
    (fun c => tolower_eq_iff c 'm' 'M' (by decide) (by decide) (by decide))
    (fun c => tolower_eq_iff c 'l' 'L' (by decide) (by decide) (by decide))
    (by decide) (by decide)

theorem tcsicmp_nm (s : CStr) :
    tcsicmp_eq s "nm".toList = true ↔
      s ∈ ["nm".toList, "nM".toList, "Nm".toList, "NM".toList] :=
  tcsicmp_eq_two s 'n' 'N' 'm' 'M'
    (fun c => tolower_eq_iff c 'n' 'N' (by decide) (by decide) (by decide))
    (fun c => tolower_eq_iff c 'm' 'M' (by decide) (by decide) (by decide))
    (by decide) (by decide)

theorem first_not_lead {c : Char} (h : isdigit c = true ∨ c = '.') :
    isspace c = false ∧ c ≠ '-' ∧ c ≠ '+' := by
  rcases h with h | rfl
  · exact ⟨isspace_of_isdigit h, ne_of_isdigit h (by decide), ne_of_isdigit h (by decide)⟩
  · decide

theorem letter_not_lead {c : Char} (h : tolower c = 'i' ∨ tolower c = 'n') :
    isspace c = false ∧ c ≠ '-' ∧ c ≠ '+' := by
  rcases h with h | h
  · rcases (tolower_eq_iff c 'i' 'I' (by decide) (by decide) (by decide)).mp h with rfl | rfl <;>
      decide
  · rcases (tolower_eq_iff c 'n' 'N' (by decide) (by decide) (by decide)).mp h with rfl | rfl <;>
      decide

theorem strtod_lead (ws sg body : CStr) (hws : ∀ x ∈ ws, isspace x = true) (hsg : IsSign sg)
    (h : isspace (deref body) = false ∧ deref body ≠ '-' ∧ deref body ≠ '+') :
    strtod (ws ++ sg ++ body) =
      if (strtodBody (decide (sg = ['-'])) body).2 = 0 then (Double.finite 0, 0)
      else ((strtodBody (decide (sg = ['-'])) body).1,
        ws.length + sg.length + (strtodBody (decide (sg = ['-'])) body).2) := by
  obtain ⟨l1, l2, l3, l4⟩ := lead_decomp ws sg body hws hsg h.1 h.2.1 h.2.2
  have l5 : decide (deref (sg ++ body) = '-') = decide (sg = ['-']) := decide_eq_decide.mpr l4
  unfold strtod
  simp only [l1, l2, l3, l5, List.drop_left]

theorem strtod_of_leading {src : CStr} {d : Double} {suffix : CStr}
    (h : LeadingNumber src d suffix) :
    ∃ pre, src = pre ++ suffix ∧ pre.length ≠ 0 ∧ strtod src = (d, pre.length) := by
  rcases h with ⟨v, hdec, rfl⟩ | ⟨v, hhex, rfl⟩ | ⟨neg, hinf, rfl⟩ | ⟨hnan, rfl⟩
  · obtain ⟨ws, sg, ip, pt, fp, ex, e, rfl, hws, hsg, hm, hex, hlong, hnh, rfl⟩ := hdec
    have hb := strtodBody_decimal (decide (sg = ['-'])) ip pt fp ex suffix e hm hex hlong hnh
    have hl := strtod_lead ws sg _ hws hsg (first_not_lead (mantissa_first hm (ex ++ suffix)))
    have hpos : 0 < ip.length + fp.length := by
      rcases hm.2.2.2 with h | h
      · have := List.length_pos.mpr h; omega
      · have := List.length_pos.mpr h; omega
    refine ⟨ws ++ sg ++ ip ++ pt ++ fp ++ ex, rfl, ?_, ?_⟩
    · simp only [List.length_append]; omega
    · have hs : ws ++ sg ++ ip ++ pt ++ fp ++ ex ++ suffix =
          ws ++ sg ++ (ip ++ (pt ++ (fp ++ (ex ++ suffix)))) := by simp only [List.append_assoc]
      have hn : ¬ (ip ++ (pt ++ (fp ++ ex))).length = 0 := by
        simp only [List.length_append]; omega
      rw [hs, hl, hb, if_neg hn]
      simp only [withSign, decide_eq_true_eq, List.length_append, Prod.mk.injEq,
        true_and]
      omega
  · obtain ⟨ws, sg, x, ip, pt, fp, ex, e, rfl, hws, hsg, hx, hm, hex, hlong, rfl⟩ := hhex
    have hb := strtodBody_hexadecimal (decide (sg = ['-'])) x ip pt fp ex suffix e hx hm hex hlong
    have hl := strtod_lead ws sg ('0' :: x :: (ip ++ (pt ++ (fp ++ (ex ++ suffix))))) hws hsg
      (first_not_lead (Or.inl rfl))
    refine ⟨ws ++ sg ++ ['0', x] ++ ip ++ pt ++ fp ++ ex, rfl, ?_, ?_⟩
    · simp only [List.length_append, List.length_cons, List.length_nil]; omega
    · have hs : ws ++ sg ++ ['0', x] ++ ip ++ pt ++ fp ++ ex ++ suffix =
          ws ++ sg ++ ('0' :: x :: (ip ++ (pt ++ (fp ++ (ex ++ suffix))))) := by
        simp only [List.append_assoc, List.cons_append, List.nil_append]
      have hn : ¬ 2 + (ip ++ (pt ++ (fp ++ ex))).length = 0 := by omega
      rw [hs, hl, hb, if_neg hn]
      simp only [withSign, decide_eq_true_eq, List.length_append, List.length_cons,
        List.length_nil, Prod.mk.injEq, true_and]
      omega
  · obtain ⟨ws, sg, w, rfl, hws, hsg, hw, rfl⟩ := hinf
    have hb := strtodBody_infinity (decide (sg = ['-'])) w suffix hw
    have hwl : w.length ≠ 0 := by
      have hlen : (w.map tolower).length = 8 ∨ (w.map tolower).length = 3 := by
        rcases hw with hw | ⟨hw, -⟩
        · left; rw [hw]; rfl
        · right; rw [hw]; rfl
      rw [List.length_map] at hlen
      omega
    have hfirst : tolower (deref (w ++ suffix)) = 'i' := by
      rcases hw with hw | ⟨hw, -⟩
      · exact beginsWith_deref 'i' "nfinity".toList ⟨w, suffix, rfl, hw⟩
      · exact beginsWith_deref 'i' "nf".toList ⟨w, suffix, rfl, hw⟩
    have hl := strtod_lead ws sg (w ++ suffix) hws hsg (letter_not_lead (Or.inl hfirst))
    refine ⟨ws ++ sg ++ w, rfl, ?_, ?_⟩
    · simp only [List.length_append]; omega
    · rw [List.append_assoc (ws ++ sg), hl, hb]
      simp only [hwl, if_false, List.length_append]
  · obtain ⟨ws, sg, w, seq, rfl, hws, hsg, hw, hseq⟩ := hnan
    have hb := strtodBody_nan (decide (sg = ['-'])) w seq suffix hw hseq
    have hwl : w.length = 3 := by
      have := congrArg List.length hw
      rw [List.length_map] at this
      exact this
    have hfirst : tolower (deref (w ++ (seq ++ suffix))) = 'n' :=
      beginsWith_deref 'n' "an".toList ⟨w, seq ++ suffix, rfl, hw⟩
    have hl := strtod_lead ws sg (w ++ (seq ++ suffix)) hws hsg (letter_not_lead (Or.inr hfirst))
    refine ⟨ws ++ sg ++ w ++ seq, rfl, ?_, ?_⟩
    · simp only [List.length_append]; omega
    · have hs : ws ++ sg ++ w ++ seq ++ suffix = ws ++ sg ++ (w ++ (seq ++ suffix)) := by
        simp only [List.append_assoc]
      have hn : ¬ (w ++ seq).length = 0 := by
        simp only [List.length_append]; omega
      rw [hs, hl, hb, if_neg hn]
      simp only [List.length_append, Prod.mk.injEq, true_and]
      omega

theorem beginsWith_split {p : CStr} (a b : CStr) (h : BeginsWith p (a ++ b)) :
    ∃ w tail, p = w ++ tail ∧ w.map tolower = a ∧ BeginsWith tail b := by
  obtain ⟨w, tail, rfl, hw⟩ := h
  refine ⟨w.take a.length, w.drop a.length ++ tail, ?_, ?_, w.drop a.length, tail, rfl, ?_⟩
  · rw [← List.append_assoc, List.take_append_drop]
  · rw [List.map_take, hw, List.take_left]
  · rw [List.map_drop, hw, List.drop_left]

theorem strtodBody_consumed_iff (negative : Bool) (p : CStr) :
    (strtodBody negative p).2 ≠ 0 ↔
      ((isdigit (deref p) = true ∨ (deref p = '.' ∧ isdigit (deref (p.drop 1)) = true)) ∨
        (BeginsWith p "inf".toList ∨ BeginsWith p "nan".toList)) := by
  unfold strtodBody
  by_cases h1 : beginsIgnoringCase p "infinity".toList = true
  · rw [if_pos h1]
    have hb : BeginsWith p ("inf".toList ++ "inity".toList) := (beginsIgnoringCase_iff _ _).mp h1
    obtain ⟨w, tail, hp, hw, -⟩ := beginsWith_split _ _ hb
    exact ⟨fun _ => Or.inr (Or.inl ⟨w, tail, hp, hw⟩), fun _ => by simp⟩
  · rw [if_neg h1]
    by_cases h2 : beginsIgnoringCase p "inf".toList = true
    · rw [if_pos h2]
      exact ⟨fun _ => Or.inr (Or.inl ((beginsIgnoringCase_iff _ _).mp h2)), fun _ => by simp⟩
    · rw [if_neg h2]
      by_cases h3 : beginsIgnoringCase p "nan".toList = true
      · rw [if_pos h3]
        refine ⟨fun _ => Or.inr (Or.inr ((beginsIgnoringCase_iff _ _).mp h3)), fun _ => ?_⟩
        show 3 + nanSequence (p.drop 3) ≠ 0
        omega
      · rw [if_neg h3]
        have hno : ¬ (BeginsWith p "inf".toList ∨ BeginsWith p "nan".toList) := by
          rintro (h | h)
          · exact h2 ((beginsIgnoringCase_iff _ _).mpr h)
          · exact h3 ((beginsIgnoringCase_iff _ _).mpr h)
        simp only [hno, or_false]
        by_cases h4 : (deref p = '0' ∧ (deref (p.drop 1) = 'x' ∨ deref (p.drop 1) = 'X')) ∧
            ¬ ((mantissa isxdigit (p.drop 2)).1 = [] ∧ (mantissa isxdigit (p.drop 2)).2.2 = [])
        · rw [if_pos h4]
          have hd : isdigit (deref p) = true := by rw [h4.1.1]; rfl
          simp only [hd, true_or, iff_true]
          show 2 + _ + _ + _ + _ ≠ 0
          omega
        · rw [if_neg h4, ← mantissa_nonempty isdigit isdigit_NUL]
          by_cases h5 : (mantissa isdigit p).1 = [] ∧ (mantissa isdigit p).2.2 = []
          · simp only [h5, and_self, if_true, ne_eq, not_true_eq_false]
          · simp only [h5, if_false, not_false_eq_true, iff_true]
            have hpos : 0 < (mantissa isdigit p).1.length + (mantissa isdigit p).2.2.length := by
              rcases not_and_or.mp h5 with h | h
              · have := List.length_pos.mpr h; omega
              · have := List.length_pos.mpr h; omega
            omega

theorem strtod_consumed_iff (src : CStr) :
    (strtod src).2 ≠ 0 ↔ (HasDecimalPrefix src ∨ HasSpecialPrefix src) := by
  constructor
  · intro h
    obtain ⟨ws, sg, hsrc, hws, hsg⟩ := lead_exists src
    have hb : (strtodBody (decide (deref (src.dropWhile isspace) = '-'))
        ((src.dropWhile isspace).drop (signLength (src.dropWhile isspace)))).2 ≠ 0 := by
      intro hz
      apply h
      unfold strtod
      simp only [hz, if_true]
    rcases (strtodBody_consumed_iff _ _).mp hb with hd | hs
    · exact Or.inl ⟨ws, sg, _, hsrc, hws, hsg, hd⟩
    · exact Or.inr ⟨ws, sg, _, hsrc, hws, hsg, hs⟩
  · intro h
    have key : ∀ ws sg rest, (∀ x ∈ ws, isspace x = true) → IsSign sg →
        (isspace (deref rest) = false ∧ deref rest ≠ '-' ∧ deref rest ≠ '+') →
        ((isdigit (deref rest) = true ∨
            (deref rest = '.' ∧ isdigit (deref (rest.drop 1)) = true)) ∨
          (BeginsWith rest "inf".toList ∨ BeginsWith rest "nan".toList)) →
        (strtod (ws ++ sg ++ rest)).2 ≠ 0 := by
      intro ws sg rest hws hsg hl hr
      have hb := (strtodBody_consumed_iff (decide (sg = ['-'])) rest).mpr hr
      rw [strtod_lead ws sg rest hws hsg hl, if_neg hb]
      show ws.length + sg.length + _ ≠ 0
      omega
    rcases h with ⟨ws, sg, rest, rfl, hws, hsg, hr⟩ | ⟨ws, sg, rest, rfl, hws, hsg, hr⟩
    · refine key ws sg rest hws hsg ?_ (Or.inl hr)
      rcases hr with hr | ⟨hr, -⟩
      · exact first_not_lead (Or.inl hr)
      · exact first_not_lead (Or.inr hr)
    · refine key ws sg rest hws hsg ?_ (Or.inr hr)
      rcases hr with hr | hr
      · exact letter_not_lead (Or.inl (beginsWith_deref 'i' "nf".toList hr))
      · exact letter_not_lead (Or.inr (beginsWith_deref 'n' "an".toList hr))

theorem deref_dropWhile (isd : Char → Bool) (h0 : isd NUL = false) (l : CStr) :
    isd (deref (l.dropWhile isd)) = false := by
  induction l with
  | nil => exact h0
  | cons c cs ih =>
    by_cases h : isd c = true
    · rw [List.dropWhile_cons_of_pos h]; exact ih
    · rw [List.dropWhile_cons_of_neg h]; simpa [deref] using h

theorem mantissa_exists (isd : Char → Bool) (h0 : isd NUL = false) (hdot : isd '.' = false)
    (p : CStr)
    (h : isd (deref p) = true ∨ (deref p = '.' ∧ isd (deref (p.drop 1)) = true)) :
    ∃ ip pt fp rest, p = ip ++ (pt ++ (fp ++ rest)) ∧ IsMantissa isd ip pt fp ∧
      isd (deref rest) = false ∧ (pt = [] → deref rest ≠ '.') := by
  have hsplit : p = p.takeWhile isd ++ p.dropWhile isd := (List.takeWhile_append_dropWhile _ _).symm
  have hq := deref_dropWhile isd h0 p
  have hip : ∀ x ∈ p.takeWhile isd, isd x = true := fun x hx => List.mem_takeWhile_imp hx
  by_cases hd : deref (p.dropWhile isd) = '.'
  · cases hq' : p.dropWhile isd with
    | nil => rw [hq'] at hd; exact absurd hd (by decide)
    | cons c q' =>
      rw [hq'] at hd hsplit
      have hc : c = '.' := hd
      subst hc
      refine ⟨p.takeWhile isd, ['.'], q'.takeWhile isd, q'.dropWhile isd, ?_,
        ⟨hip, fun x hx => List.mem_takeWhile_imp hx, Or.inr rfl, ?_⟩,
        deref_dropWhile isd h0 q', fun hc => absurd hc (by simp)⟩
      · rw [List.takeWhile_append_dropWhile]
        exact hsplit
      · by_cases hne : p.takeWhile isd = []
        · right
          rw [hne, List.nil_append] at hsplit
          rcases h with h | ⟨-, h⟩
          · rw [hsplit] at h
            exact absurd (show isd '.' = true from h) (by simp [hdot])
          · rw [hsplit] at h
            intro hf
            have h' : isd (deref q') = true := h
            rw [(takeWhile_eq_nil_iff_deref isd h0 q').mp hf] at h'
            exact absurd h' (by decide)
        · exact Or.inl hne
  · refine ⟨p.takeWhile isd, [], [], p.dropWhile isd, by simp,
      ⟨hip, by simp, Or.inl ⟨rfl, rfl⟩, Or.inl ?_⟩, hq, fun _ => hd⟩
    intro hne
    rw [hne, List.nil_append] at hsplit
    rcases h with h | ⟨h, -⟩
    · rw [← hsplit, h] at hq
      exact absurd hq (by decide)
    · rw [← hsplit] at hd
      exact hd h

theorem exponent_exists (lower upper : Char) (rest : CStr) :
    ∃ ex e suffix, rest = ex ++ suffix ∧ IsExponentPart lower upper ex e ∧
      (ex = [] → ¬ BeginsExponent lower upper suffix) ∧
      (ex ≠ [] → isdigit (deref suffix) = false) := by
  by_cases hb : BeginsExponent lower upper rest
  · obtain ⟨c, sg, d, tail, rfl, hc, hsg, hd⟩ := hb
    refine ⟨c :: (sg ++ d :: tail.takeWhile isdigit), signedValue sg (d :: tail.takeWhile isdigit),
      tail.dropWhile isdigit, ?_, Or.inr ⟨c, sg, d :: tail.takeWhile isdigit, rfl, hc, hsg,
        by simp, ?_, rfl⟩, fun h => absurd h (by simp),
      fun _ => deref_dropWhile isdigit isdigit_NUL tail⟩
    · simp only [List.cons_append, List.append_assoc, List.takeWhile_append_dropWhile]
    · intro x hx
      rcases List.mem_cons.mp hx with rfl | hx
      · exact hd
      · exact List.mem_takeWhile_imp hx
  · exact ⟨[], 0, rest, rfl, Or.inl ⟨rfl, rfl⟩, fun _ => hb, fun h => absurd rfl h⟩

theorem leading_exists (src : CStr) (h : HasDecimalPrefix src ∨ HasSpecialPrefix src) :
    ∃ d suffix, LeadingNumber src d suffix := by
  rcases h with ⟨ws, sg, rest, rfl, hws, hsg, hr⟩ | ⟨ws, sg, rest, rfl, hws, hsg, hr | hr⟩
  · by_cases hh : ∃ x r, rest = '0' :: x :: r ∧ (x = 'x' ∨ x = 'X') ∧
        (isxdigit (deref r) = true ∨ (deref r = '.' ∧ isxdigit (deref (r.drop 1)) = true))
    · obtain ⟨x, r, rfl, hx, hm⟩ := hh
      obtain ⟨ip, pt, fp, rest', rfl, hman, hr1, hr2⟩ :=
        mantissa_exists isxdigit (by decide) (by decide) r hm
      obtain ⟨ex, e, suffix, rfl, hex, he1, he2⟩ := exponent_exists 'p' 'P' rest'
      refine ⟨_, suffix, Or.inr (Or.inl ⟨_, ⟨ws, sg, x, ip, pt, fp, ex, e, ?_, hws, hsg, hx, hman,
        hex, ⟨he2, fun h => ?_⟩, rfl⟩, rfl⟩)⟩
      · simp only [List.append_assoc, List.cons_append, List.nil_append]
      · subst h
        exact ⟨hr1, hr2, he1 rfl⟩
    · obtain ⟨ip, pt, fp, rest', rfl, hman, hr1, hr2⟩ :=
        mantissa_exists isdigit (by decide) (by decide) rest hr
      obtain ⟨ex, e, suffix, rfl, hex, he1, he2⟩ := exponent_exists 'e' 'E' rest'
      refine ⟨_, suffix, Or.inl ⟨_, ⟨ws, sg, ip, pt, fp, ex, e, ?_, hws, hsg, hman,
        hex, ⟨he2, fun h => ?_⟩, ?_, rfl⟩, rfl⟩⟩
      · simp only [List.append_assoc]
      · subst h
        exact ⟨hr1, hr2, he1 rfl⟩
      · rintro ⟨rfl, rfl, rfl, x, r, rfl, hx, hm⟩
        apply hh
        have hfp : fp = [] := by
          rcases hman.2.2.1 with ⟨-, h⟩ | h
          · exact h
          · exact absurd h (by simp)
        subst hfp
        exact ⟨x, r, rfl, hx, hm⟩
  · by_cases hy : BeginsWith rest "infinity".toList
    · obtain ⟨w, tail, rfl, hw⟩ := hy
      exact ⟨_, tail, Or.inr (Or.inr (Or.inl ⟨_, ⟨ws, sg, w, by simp only [List.append_assoc],
        hws, hsg, Or.inl hw, rfl⟩, rfl⟩))⟩
    · obtain ⟨w, tail, rfl, hw⟩ := hr
      refine ⟨_, tail, Or.inr (Or.inr (Or.inl ⟨_, ⟨ws, sg, w, by simp only [List.append_assoc],
        hws, hsg, Or.inr ⟨hw, ?_⟩, rfl⟩, rfl⟩))⟩
      rintro ⟨w2, t2, rfl, hw2⟩
      apply hy
      refine ⟨w ++ w2, t2, by simp only [List.append_assoc], ?_⟩
      rw [List.map_append, hw, hw2]
      rfl
  · obtain ⟨w, tail, rfl, hw⟩ := hr
    by_cases hs : ∃ s t, tail = s ++ t ∧ IsNanSequence s
    · obtain ⟨s, t, rfl, hseq⟩ := hs
      exact ⟨_, t, Or.inr (Or.inr (Or.inr ⟨⟨ws, sg, w, s, by simp only [List.append_assoc],
        hws, hsg, hw, Or.inl hseq⟩, rfl⟩))⟩
    · exact ⟨_, tail, Or.inr (Or.inr (Or.inr ⟨⟨ws, sg, w, [], by simp only [List.append_assoc,
        List.nil_append], hws, hsg, hw, Or.inr ⟨rfl, hs⟩⟩, rfl⟩))⟩

theorem hasDecimalPrefix_iff (src : CStr) :
    HasDecimalPrefix src ↔
      (isdigit (deref ((src.dropWhile isspace).drop (signLength (src.dropWhile isspace)))) = true ∨
        (deref ((src.dropWhile isspace).drop (signLength (src.dropWhile isspace))) = '.' ∧
          isdigit (deref (((src.dropWhile isspace).drop
            (signLength (src.dropWhile isspace))).drop 1)) = true)) := by
  constructor
  · rintro ⟨ws, sg, rest, rfl, hws, hsg, hrest⟩
    have hl : isspace (deref rest) = false ∧ deref rest ≠ '-' ∧ deref rest ≠ '+' := by
      rcases hrest with h | ⟨h, -⟩
      · exact first_not_lead (Or.inl h)
      · exact first_not_lead (Or.inr h)
    obtain ⟨-, l2, l3, -⟩ := lead_decomp ws sg rest hws hsg hl.1 hl.2.1 hl.2.2
    rw [l2, l3, List.drop_left]
    exact hrest
  · intro h
    obtain ⟨ws, sg, hsrc, hws, hsg⟩ := lead_exists src
    exact ⟨ws, sg, _, hsrc, hws, hsg, h⟩

theorem not_beginsExponent_of_deref {lower upper : Char} {s : CStr}
    (h : deref s ≠ lower ∧ deref s ≠ upper) : ¬ BeginsExponent lower upper s := by
  rintro ⟨c, sg, d, tail, rfl, hc, -⟩
  rcases hc with rfl | rfl
  · exact h.1 rfl
  · exact h.2 rfl

theorem parseAltitude_eq_none_iff (nonFinite : Double → fixed) (factor : Units_t → fixed)
    (src : CStr) : parseAltitude nonFinite factor src = none ↔ (strtod src).2 = 0 := by
  unfold parseAltitude
  by_cases h : (strtod src).2 = 0
  · simp [h]
  · simp only [h, if_false, iff_false]
    split_ifs <;> simp

theorem parseDistance_eq_none_iff (nonFinite : Double → fixed) (factor : Units_t → fixed)
    (src : CStr) : parseDistance nonFinite factor src = none ↔ (strtod src).2 = 0 := by
  unfold parseDistance
  by_cases h : (strtod src).2 = 0
  · simp [h]
  · simp only [h, if_false, iff_false]
    split_ifs <;> simp

theorem parseAltitude_of_leading (nonFinite : Double → fixed) (factor : Units_t → fixed)
    {src : CStr} {d : Double} {suffix : CStr} (h : LeadingNumber src d suffix) :
    parseAltitude nonFinite factor src =
      some (if deref suffix = 'F' ∨ deref suffix = 'f'
        then fixedOfDouble nonFinite d * factor Units_t.unFeet
        else fixedOfDouble nonFinite d) := by
  obtain ⟨pre, rfl, hn, hs⟩ := strtod_of_leading h
  unfold parseAltitude
  simp only [hs, hn, if_false, List.drop_left, ToSysUnit]
  split_ifs <;> rfl

theorem parseDistance_of_leading (nonFinite : Double → fixed) (factor : Units_t → fixed)
    {src : CStr} {d : Double} {suffix : CStr} (h : LeadingNumber src d suffix) :
    parseDistance nonFinite factor src =
      some (if suffix ∈ ["ml".toList, "mL".toList, "Ml".toList, "ML".toList]
        then fixedOfDouble nonFinite d * factor Units_t.unStatuteMiles
        else if suffix ∈ ["nm".toList, "nM".toList, "Nm".toList, "NM".toList]
        then fixedOfDouble nonFinite d * factor Units_t.unNauticalMiles
        else fixedOfDouble nonFinite d) := by
  obtain ⟨pre, rfl, hn, hs⟩ := strtod_of_leading h
  unfold parseDistance
  simp only [hs, hn, if_false, List.drop_left, ToSysUnit, tcsicmp_ml, tcsicmp_nm]
  split_ifs <;> rfl

/-- C8 (as amended): `parseAltitude` fails exactly when the token, after
optional white space and an optional sign, begins neither with a decimal number
(a digit, or a point and a digit) nor with `inf` or `nan` in any case. Every
other token begins with a number that `strtod` reads: a decimal or a
hexadecimal floating constant, an infinity or a NaN, the longest one. When
that number is the `double` `d` and `suffix` is what follows it, the result is
`d` converted from feet (`d` times the feet factor) if the first character of
`suffix` is `F` or `f`, whatever follows it, and `d` unchanged otherwise. For
a decimal constant of value `v` the number `d` is `v` rounded to `double`, so
when `v` is a `double` the result is `v` converted from feet, or `v`. With the
feet factor 0.3048 the token `1500F` gives 457.2, and `458.0m` gives 458. -/
theorem parseAltitude_spec (nonFinite : Double → fixed) (factor : Units_t → fixed) (src : CStr) :
    (parseAltitude nonFinite factor src = none ↔
      ¬ (HasDecimalPrefix src ∨ HasSpecialPrefix src)) ∧
    ((HasDecimalPrefix src ∨ HasSpecialPrefix src) → ∃ d suffix, LeadingNumber src d suffix) ∧
    (∀ d suffix, LeadingNumber src d suffix →
      parseAltitude nonFinite factor src =
        some (if deref suffix = 'F' ∨ deref suffix = 'f'
          then fixedOfDouble nonFinite d * factor Units_t.unFeet
          else fixedOfDouble nonFinite d)) ∧
    (∀ v suffix, LeadingDecimal src v suffix → roundToDouble v = Double.finite v →
      parseAltitude nonFinite factor src =
        some (if deref suffix = 'F' ∨ deref suffix = 'f'
          then v * factor Units_t.unFeet else v)) ∧
    (factor Units_t.unFeet = 3048 / 10000 →
      parseAltitude nonFinite factor "1500F".toList = some (4572 / 10)) ∧
    parseAltitude nonFinite factor "458.0m".toList = some 458 := by
  have hdec : ∀ (s : CStr) (v : ℚ) (suffix : CStr), LeadingDecimal s v suffix →
      roundToDouble v = Double.finite v →
      parseAltitude nonFinite factor s =
        some (if deref suffix = 'F' ∨ deref suffix = 'f'
          then v * factor Units_t.unFeet else v) := by
    intro s v suffix hl hr
    rw [parseAltitude_of_leading nonFinite factor (Or.inl ⟨v, hl, rfl⟩), hr]
    rfl
  have h1500 : LeadingDecimal "1500F".toList 1500 "F".toList :=
    ⟨[], [], "1500".toList, [], [], [], 0, rfl, by decide, Or.inl rfl,
      ⟨by decide, by decide, Or.inl ⟨rfl, rfl⟩, Or.inl (by decide)⟩, Or.inl ⟨rfl, rfl⟩,
      ⟨fun h => absurd rfl h, fun _ => ⟨by decide, fun _ => by decide,
        not_beginsExponent_of_deref (by decide)⟩⟩, fun h => absurd h.1 (by decide), by decide!⟩
  have h458 : LeadingDecimal "458.0m".toList 458 "m".toList :=
    ⟨[], [], "458".toList, ".".toList, "0".toList, [], 0, rfl, by decide, Or.inl rfl,
      ⟨by decide, by decide, Or.inr rfl, Or.inl (by decide)⟩, Or.inl ⟨rfl, rfl⟩,
      ⟨fun h => absurd rfl h, fun _ => ⟨by decide, fun h => absurd h (by decide),
        not_beginsExponent_of_deref (by decide)⟩⟩, fun h => absurd h.1 (by decide), by decide!⟩
  refine ⟨?_, leading_exists src, fun d suffix h => parseAltitude_of_leading nonFinite factor h,
    hdec src, ?_, ?_⟩
  · rw [parseAltitude_eq_none_iff, ← strtod_consumed_iff, ne_eq, not_not]
  · intro hf
    rw [hdec _ _ _ h1500 (by decide!), hf]
    have : deref "F".toList = 'F' := rfl
    rw [if_pos (Or.inl this)]
    norm_num
  · rw [hdec _ _ _ h458 (by decide!)]
    have : ¬ (deref "m".toList = 'F' ∨ deref "m".toList = 'f') := by decide
    rw [if_neg this]

/-- Witness of C8: the token `-12.5f` is 12.5 feet below zero, -3.81 with the
feet factor 0.3048; the hexadecimal `0x1Fm` is 31; and `inf` is what the
conversion to `fixed` makes of an infinity, 7 in this instance. -/
theorem parseAltitude_spec_witness :
    parseAltitude (fun _ => 0) specFactor "-12.5f".toList = some (-(381 / 100)) ∧
    parseAltitude (fun _ => 0) specFactor "0x1Fm".toList = some 31 ∧
    parseAltitude (fun _ => 7) specFactor "inf".toList = some 7 := by
  refine ⟨?_, ?_, ?_⟩
  · refine ((parseAltitude_spec (fun _ => 0) specFactor "-12.5f".toList).2.2.2.1 (-(125 / 10))
      "f".toList
      ⟨[], ['-'], "12".toList, ".".toList, "5".toList, [], 0, rfl, by decide,
        Or.inr (Or.inr rfl),
        ⟨by decide, by decide, Or.inr rfl, Or.inl (by decide)⟩, Or.inl ⟨rfl, rfl⟩,
        ⟨fun h => absurd rfl h, fun _ => ⟨by decide, fun h => absurd h (by decide),
          not_beginsExponent_of_deref (by decide)⟩⟩, fun h => absurd h.1 (by decide), by decide!⟩
      (by decide!)).trans ?_
    decide!
  · refine ((parseAltitude_spec (fun _ => 0) specFactor "0x1Fm".toList).2.2.1
      (Double.finite 31) "m".toList
      (Or.inr (Or.inl ⟨31,
        ⟨[], [], 'x', "1F".toList, [], [], [], 0, rfl, by decide, Or.inl rfl, Or.inl rfl,
          ⟨by decide, by decide, Or.inl ⟨rfl, rfl⟩, Or.inl (by decide)⟩, Or.inl ⟨rfl, rfl⟩,
          ⟨fun h => absurd rfl h, fun _ => ⟨by decide, fun _ => by decide,
            not_beginsExponent_of_deref (by decide)⟩⟩, by decide!⟩,
        by decide!⟩))).trans ?_
    decide!
  · refine ((parseAltitude_spec (fun _ => 7) specFactor "inf".toList).2.2.1
      (Double.infinite false) []
      (Or.inr (Or.inr (Or.inl ⟨false,
        ⟨[], [], "inf".toList, rfl, by decide, Or.inl rfl,
          Or.inr ⟨by decide, fun h => ?_⟩, by decide⟩, rfl⟩)))).trans ?_
    · obtain ⟨w, tail, h1, h2⟩ := h
      have hw : w = [] := (List.append_eq_nil.mp h1.symm).1
      rw [hw] at h2
      exact absurd h2 (by decide)
    · rfl

/-- Counterexample to C8 as stated. In the token `1500ft` the suffix after the
number is `ft`, which is neither `F` nor `f`, yet the value is converted from
feet (457.2 with the factor 0.3048) and not left at 1500. The token `inf` has
no leading signed decimal number, yet it is not rejected. In `0x1F` the decimal
digits are the `0` alone, yet the result is the hexadecimal 31. And `0.1`
gives the `double` nearest to one tenth, which is not one tenth. -/
theorem parseAltitude_ft_counterexample :
    (LeadingDecimal "1500ft".toList 1500 "ft".toList ∧
      "ft".toList ≠ "F".toList ∧ "ft".toList ≠ "f".toList ∧
      parseAltitude (fun _ => 0) specFactor "1500ft".toList = some (4572 / 10) ∧
      parseAltitude (fun _ => 0) specFactor "1500ft".toList ≠ some 1500) ∧
    (¬ HasDecimalPrefix "inf".toList ∧
      parseAltitude (fun _ => 0) specFactor "inf".toList ≠ none) ∧
    parseAltitude (fun _ => 0) specFactor "0x1F".toList = some 31 ∧
    (LeadingDecimal "0.1".toList (1 / 10) [] ∧
      parseAltitude (fun _ => 0) specFactor "0.1".toList ≠ some (1 / 10)) := by
  refine ⟨⟨?_, by decide, by decide, by decide!, by decide!⟩, ⟨?_, by decide!⟩, by decide!,
    ?_, by decide!⟩
  · exact ⟨[], [], "1500".toList, [], [], [], 0, rfl, by decide, Or.inl rfl,
      ⟨by decide, by decide, Or.inl ⟨rfl, rfl⟩, Or.inl (by decide)⟩, Or.inl ⟨rfl, rfl⟩,
      ⟨fun h => absurd rfl h, fun _ => ⟨by decide, fun _ => by decide,
        not_beginsExponent_of_deref (by decide)⟩⟩, fun h => absurd h.1 (by decide), by decide!⟩
  · rw [hasDecimalPrefix_iff]
    decide
  · exact ⟨[], [], "0".toList, ".".toList, "1".toList, [], 0, rfl, by decide, Or.inl rfl,
      ⟨by decide, by decide, Or.inr rfl, Or.inl (by decide)⟩, Or.inl ⟨rfl, rfl⟩,
      ⟨fun h => absurd rfl h, fun _ => ⟨by decide, fun h => absurd h (by decide),
        not_beginsExponent_of_deref (by decide)⟩⟩, fun h => absurd h.2.1 (by decide), by decide!⟩

/-- C9 (as amended): `parseDistance` fails exactly when the token, after
optional white space and an optional sign, begins neither with a decimal number
(a digit, or a point and a digit) nor with `inf` or `nan` in any case. Every
other token begins with a number that `strtod` reads: a decimal or a
hexadecimal floating constant, an infinity or a NaN, the longest one. When
that number is the `double` `d` and the remaining suffix is `s`, the result is
`d` converted from statute miles if `s` is `ml` in any case, `d` converted
from nautical miles if `s` is `nm` in any case, and `d` unchanged for every
other `s`. For a decimal constant of value `v` the number `d` is `v` rounded
to `double`, so when `v` is a `double` the result is `v`, converted or not. -/
theorem parseDistance_spec (nonFinite : Double → fixed) (factor : Units_t → fixed) (src : CStr) :
    (parseDistance nonFinite factor src = none ↔
      ¬ (HasDecimalPrefix src ∨ HasSpecialPrefix src)) ∧
    ((HasDecimalPrefix src ∨ HasSpecialPrefix src) → ∃ d suffix, LeadingNumber src d suffix) ∧
    (∀ d suffix, LeadingNumber src d suffix →
      parseDistance nonFinite factor src =
        some (if suffix ∈ ["ml".toList, "mL".toList, "Ml".toList, "ML".toList]
          then fixedOfDouble nonFinite d * factor Units_t.unStatuteMiles
          else if suffix ∈ ["nm".toList, "nM".toList, "Nm".toList, "NM".toList]
          then fixedOfDouble nonFinite d * factor Units_t.unNauticalMiles
          else fixedOfDouble nonFinite d)) ∧
    (∀ v suffix, LeadingDecimal src v suffix → roundToDouble v = Double.finite v →
      parseDistance nonFinite factor src =
        some (if suffix ∈ ["ml".toList, "mL".toList, "Ml".toList, "ML".toList]
          then v * factor Units_t.unStatuteMiles
          else if suffix ∈ ["nm".toList, "nM".toList, "Nm".toList, "NM".toList]
          then v * factor Units_t.unNauticalMiles
          else v)) := by
  refine ⟨?_, leading_exists src, fun d suffix h => parseDistance_of_leading nonFinite factor h,
    ?_⟩
  · rw [parseDistance_eq_none_iff, ← strtod_consumed_iff, ne_eq, not_not]
  · intro v suffix hl hr
    rw [parseDistance_of_leading nonFinite factor (Or.inl ⟨v, hl, rfl⟩), hr]
    rfl

/-- Witness of C9: `2NM` is two nautical miles, `1.5ml` is one and a half
statute miles, and `250m` and `5nmi` are taken as meters. -/
theorem parseDistance_spec_witness :
    parseDistance (fun _ => 0) specFactor "2NM".toList = some 3704 ∧
    parseDistance (fun _ => 0) specFactor "1.5ml".toList = some (2414016 / 1000) ∧
    parseDistance (fun _ => 0) specFactor "250m".toList = some 250 ∧
    parseDistance (fun _ => 0) specFactor "5nmi".toList = some 5 := by
  refine ⟨?_, ?_, ?_, ?_⟩
  · refine ((parseDistance_spec (fun _ => 0) specFactor "2NM".toList).2.2.2 2 "NM".toList
      ⟨[], [], "2".toList, [], [], [], 0, rfl, by decide, Or.inl rfl,
        ⟨by decide, by decide, Or.inl ⟨rfl, rfl⟩, Or.inl (by decide)⟩, Or.inl ⟨rfl, rfl⟩,
        ⟨fun h => absurd rfl h, fun _ => ⟨by decide, fun _ => by decide,
          not_beginsExponent_of_deref (by decide)⟩⟩, fun h => absurd h.1 (by decide),
        by decide!⟩
      (by decide!)).trans ?_
    decide!
  · refine ((parseDistance_spec (fun _ => 0) specFactor "1.5ml".toList).2.2.2 (15 / 10)
      "ml".toList
      ⟨[], [], "1".toList, ".".toList, "5".toList, [], 0, rfl, by decide, Or.inl rfl,
        ⟨by decide, by decide, Or.inr rfl, Or.inl (by decide)⟩, Or.inl ⟨rfl, rfl⟩,
        ⟨fun h => absurd rfl h, fun _ => ⟨by decide, fun h => absurd h (by decide),
          not_beginsExponent_of_deref (by decide)⟩⟩, fun h => absurd h.1 (by decide),
        by decide!⟩
      (by decide!)).trans ?_
    decide!
  · refine ((parseDistance_spec (fun _ => 0) specFactor "250m".toList).2.2.2 250 "m".toList
      ⟨[], [], "250".toList, [], [], [], 0, rfl, by decide, Or.inl rfl,
        ⟨by decide, by decide, Or.inl ⟨rfl, rfl⟩, Or.inl (by decide)⟩, Or.inl ⟨rfl, rfl⟩,
        ⟨fun h => absurd rfl h, fun _ => ⟨by decide, fun _ => by decide,
          not_beginsExponent_of_deref (by decide)⟩⟩, fun h => absurd h.1 (by decide),
        by decide!⟩
      (by decide!)).trans ?_
    decide!
  · refine ((parseDistance_spec (fun _ => 0) specFactor "5nmi".toList).2.2.2 5 "nmi".toList
      ⟨[], [], "5".toList, [], [], [], 0, rfl, by decide, Or.inl rfl,
        ⟨by decide, by decide, Or.inl ⟨rfl, rfl⟩, Or.inl (by decide)⟩, Or.inl ⟨rfl, rfl⟩,
        ⟨fun h => absurd rfl h, fun _ => ⟨by decide, fun _ => by decide,
          not_beginsExponent_of_deref (by decide)⟩⟩, fun h => absurd h.1 (by decide),
        by decide!⟩
      (by decide!)).trans ?_
    decide!

/-- Counterexample to C9 as stated. The token `inf` has no leading signed
decimal number, yet it is not rejected. In `0x10nm` the decimal digits are the
`0` alone and `x10nm` follows them, yet the result is the hexadecimal 16,
converted from nautical miles (29632 with the factor 1852), and not 0. And
`0.1` gives the `double` nearest to one tenth, which is not one tenth. -/
theorem parseDistance_counterexample :
    (¬ HasDecimalPrefix "inf".toList ∧
      parseDistance (fun _ => 0) specFactor "inf".toList ≠ none) ∧
    (parseDistance (fun _ => 0) specFactor "0x10nm".toList = some 29632 ∧
      parseDistance (fun _ => 0) specFactor "0x10nm".toList ≠ some 0) ∧
    (LeadingDecimal "0.1".toList (1 / 10) [] ∧
      parseDistance (fun _ => 0) specFactor "0.1".toList ≠ some (1 / 10)) := by
  refine ⟨⟨?_, by decide!⟩, ⟨by decide!, by decide!⟩, ?_, by decide!⟩
  · rw [hasDecimalPrefix_iff]
    decide
  · exact ⟨[], [], "0".toList, ".".toList, "1".toList, [], 0, rfl, by decide, Or.inl rfl,
      ⟨by decide, by decide, Or.inr rfl, Or.inl (by decide)⟩, Or.inl ⟨rfl, rfl⟩,
      ⟨fun h => absurd rfl h, fun _ => ⟨by decide, fun h => absurd h (by decide),
        not_beginsExponent_of_deref (by decide)⟩⟩, fun h => absurd h.2.1 (by decide),
      by decide!⟩

/-! ### The runway direction (C10) -/

theorem headerLoop_column (get : ParserState → Nat) (kw : CStr)
    (hstep : ∀ st i v, get (headerStep st i v) = if v = kw then i else get st) :
    ∀ (toks : List CStr) (st : ParserState) (i : Nat),
      (kw ∉ toks → get (headerLoop st i toks) = get st) ∧
      (kw ∈ toks → ∃ j, j < toks.length ∧ toks.getD j [] = kw ∧
        (∀ k, j < k → k < toks.length → toks.getD k [] ≠ kw) ∧
        get (headerLoop st i toks) = i + j) := by
  intro toks
  induction toks with
  | nil =>
    intro st i
    exact ⟨fun _ => rfl, fun h => absurd h (List.not_mem_nil _)⟩
  | cons v rest ih =>
    intro st i
    obtain ⟨ih1, ih2⟩ := ih (headerStep st i v) (i + 1)
    by_cases hin : kw ∈ rest
    · refine ⟨fun h => absurd (List.mem_cons_of_mem _ hin) h, fun _ => ?_⟩
      obtain ⟨j, hj, hget, hlast, hval⟩ := ih2 hin
      refine ⟨j + 1, by simpa using hj, by simpa using hget, ?_, ?_⟩
      · intro k hk hlen
        obtain ⟨k', rfl⟩ : ∃ k', k = k' + 1 := ⟨k - 1, by omega⟩
        simpa using hlast k' (by omega) (by simpa using hlen)
      · show get (headerLoop (headerStep st i v) (i + 1) rest) = i + (j + 1)
        rw [hval]; omega
    · constructor
      · intro h
        have hv : ¬ v = kw := fun e => h (e ▸ List.mem_cons_self _ _)
        show get (headerLoop (headerStep st i v) (i + 1) rest) = get st
        rw [ih1 hin, hstep, if_neg hv]
      · intro h
        have hv : v = kw := by
          rcases List.mem_cons.mp h with e | e
          · exact e.symm
          · exact absurd e hin
        refine ⟨0, by simp, by simpa using hv, ?_, ?_⟩
        · intro k hk hlen
          obtain ⟨k', rfl⟩ : ∃ k', k = k' + 1 := ⟨k - 1, by omega⟩
          intro hkw
          apply hin
          have hlen' : k' < rest.length := by simpa using hlen
          have : rest.getD k' [] = kw := by simpa using hkw
          rw [← this, List.getD_eq_getElem _ _ hlen']
          exact List.getElem_mem _
        · show get (headerLoop (headerStep st i v) (i + 1) rest) = i + 0
          rw [ih1 hin, hstep, if_pos hv]; rfl

theorem headerStep_iName (st : ParserState) (i : Nat) (v : CStr) :
    (headerStep st i v).iName = if v = "name".toList then i else st.iName := by
  by_cases h : v = "name".toList
  · subst h; rfl
  · simp only [headerStep, apply_ite ParserState.iName, h, if_false, ite_self]

theorem headerStep_iCode (st : ParserState) (i : Nat) (v : CStr) :
    (headerStep st i v).iCode = if v = "code".toList then i else st.iCode := by
  by_cases h : v = "code".toList
  · subst h; rfl
  · simp only [headerStep, apply_ite ParserState.iCode, h, if_false, ite_self]

theorem headerStep_iCountry (st : ParserState) (i : Nat) (v : CStr) :
    (headerStep st i v).iCountry = if v = "country".toList then i else st.iCountry := by
  by_cases h : v = "country".toList
  · subst h; rfl
  · simp only [headerStep, apply_ite ParserState.iCountry, h, if_false, ite_self]

theorem headerStep_iLatitude (st : ParserState) (i : Nat) (v : CStr) :
    (headerStep st i v).iLatitude = if v = "lat".toList then i else st.iLatitude := by
  by_cases h : v = "lat".toList
  · subst h; rfl
  · simp only [headerStep, apply_ite ParserState.iLatitude, h, if_false, ite_self]

theorem headerStep_iLongitude (st : ParserState) (i : Nat) (v : CStr) :
    (headerStep st i v).iLongitude = if v = "lon".toList then i else st.iLongitude := by
  by_cases h : v = "lon".toList
  · subst h; rfl
  · simp only [headerStep, apply_ite ParserState.iLongitude, h, if_false, ite_self]

theorem headerStep_iElevation (st : ParserState) (i : Nat) (v : CStr) :
    (headerStep st i v).iElevation = if v = "elev".toList then i else st.iElevation := by
  by_cases h : v = "elev".toList
  · subst h; rfl
  · simp only [headerStep, apply_ite ParserState.iElevation, h, if_false, ite_self]

theorem headerStep_iStyle (st : ParserState) (i : Nat) (v : CStr) :
    (headerStep st i v).iStyle = if v = "style".toList then i else st.iStyle := by
  by_cases h : v = "style".toList
  · subst h; rfl
  · simp only [headerStep, apply_ite ParserState.iStyle, h, if_false, ite_self]

theorem headerStep_iRWDir (st : ParserState) (i : Nat) (v : CStr) :
    (headerStep st i v).iRWDir = if v = "rwdir".toList then i else st.iRWDir := by
  by_cases h : v = "rwdir".toList
  · subst h; rfl
  · simp only [headerStep, apply_ite ParserState.iRWDir, h, if_false, ite_self]

theorem headerStep_iRWLen (st : ParserState) (i : Nat) (v : CStr) :
    (headerStep st i v).iRWLen = if v = "rwlen".toList then i else st.iRWLen := by
  by_cases h : v = "rwlen".toList
  · subst h; rfl
  · simp only [headerStep, apply_ite ParserState.iRWLen, h, if_false, ite_self]

theorem headerStep_iFrequency (st : ParserState) (i : Nat) (v : CStr) :
    (headerStep st i v).iFrequency = if v = "freq".toList then i else st.iFrequency := by
  by_cases h : v = "freq".toList
  · subst h; rfl
  · simp only [headerStep, apply_ite ParserState.iFrequency, h, if_false, ite_self]

theorem headerStep_iDescription (st : ParserState) (i : Nat) (v : CStr) :
    (headerStep st i v).iDescription = if v = "desc".toList then i else st.iDescription := by
  by_cases h : v = "desc".toList
  · subst h; rfl
  · simp only [headerStep, apply_ite ParserState.iDescription, h, if_false, ite_self]

theorem header_absent_keeps (env : Env) (st : ParserState) (line : CStr)
    (way_points : Waypoints) (terrain : RasterTerrain)
    (hc : isCommentLine line = false) (hlen : line.length < 255)
    (habs : "desc".toList ∉ getParams env line) :
    (parseLine env st line 0 way_points terrain).2.1.iDescription = st.iDescription := by
  have h1 : ¬ (line = [] ∨ deref line = Char.ofNat 26 ∨
      tcsstr line "**".toList = some line ∨ tcsstr line "*".toList = some line) := by
    rw [isCommentLine_iff, hc]; simp
  have h2 : ¬ ctemp_size ≤ line.length := by unfold ctemp_size; omega
  unfold parseLine
  rw [if_neg h1, if_neg h2, if_pos rfl]
  exact (headerLoop_column ParserState.iDescription "desc".toList headerStep_iDescription
    (getParams env line) st 0).1 habs

/-! ### The range of `parseAngle` (C11) -/

theorem parseAngle_some (L : Int) (src : CStr) (lat : Bool) (v : fixed)
    (h : parseAngle L src lat = some v) :
    ∃ a m l : Int, 0 ≤ a ∧ 0 ≤ m ∧ m ≤ 59 ∧ 0 ≤ l ∧ l ≤ 999 ∧
      (v = (Min.min a (if lat then 90 else 180) : Int) + (m : fixed) / 60 + (l : fixed) / 60000 ∨
       v = -((Min.min a (if lat then 90 else 180) : Int) + (m : fixed) / 60 + (l : fixed) / 60000)) := by
  unfold parseAngle at h
  simp only [] at h
  generalize strtol L (List.drop 1 (List.drop (strtol L src).2 src)) = r1 at h
  generalize strtol L src = r at h
  obtain ⟨x, n⟩ := r
  obtain ⟨l, n1⟩ := r1
  simp only [] at h
  by_cases h1 : n = 0 ∨ deref (List.drop n src) ≠ '.' ∨ x < 0
  · rw [if_pos h1] at h; exact absurd h (by simp)
  rw [if_neg h1] at h
  by_cases h2 : 60 ≤ Int.tmod x 100
  · rw [if_pos h2] at h; exact absurd h (by simp)
  rw [if_neg h2] at h
  by_cases h3 : n1 ≠ 3 ∨ l < 0 ∨ 1000 ≤ l
  · rw [if_pos h3] at h; exact absurd h (by simp)
  rw [if_neg h3] at h
  have hx : 0 ≤ x := by
    by_contra hc; exact h1 (Or.inr (Or.inr (not_le.mp hc)))
  have hl0 : 0 ≤ l := by
    by_contra hc; exact h3 (Or.inr (Or.inl (not_le.mp hc)))
  have hl1 : l ≤ 999 := by
    by_contra hc; exact h3 (Or.inr (Or.inr (by omega)))
  have e1 : Int.tdiv x 100 = x / 100 := Int.tdiv_eq_ediv hx (by norm_num)
  have e2 : Int.tmod x 100 = x % 100 := Int.tmod_eq_emod hx (by norm_num)
  rw [e1, e2] at h
  rw [e2] at h2
  refine ⟨x / 100, x % 100, l, by omega, by omega, by omega, hl0, hl1, ?_⟩
  by_cases h4 : deref (List.drop n1 (List.drop 1 (List.drop n src))) = 'W' ∨
      deref (List.drop n1 (List.drop 1 (List.drop n src))) = 'w' ∨
      deref (List.drop n1 (List.drop 1 (List.drop n src))) = 'S' ∨
      deref (List.drop n1 (List.drop 1 (List.drop n src))) = 's'
  · rw [if_pos h4] at h; exact Or.inr (Option.some.inj h).symm
  · rw [if_neg h4] at h; exact Or.inl (Option.some.inj h).symm

theorem parseAngle_bounds (L : Int) (src : CStr) (lat : Bool) (v : fixed)
    (h : parseAngle L src lat = some v) :
    |v| ≤ (if lat then 90 else 180) + 59 / 60 + 999 / 60000 := by
  obtain ⟨a, m, l, ha, hm0, hm1, hl0, hl1, hv⟩ := parseAngle_some L src lat v h
  have c0 : (0 : fixed) ≤ ((Min.min a (if lat = true then 90 else 180) : Int) : fixed) := by
    have : 0 ≤ Min.min a (if lat = true then 90 else 180) := by
      apply le_min ha; split_ifs <;> norm_num
    exact_mod_cast this
  have c1 : ((Min.min a (if lat = true then 90 else 180) : Int) : fixed)
      ≤ (if lat = true then 90 else 180) := by
    have h1 : Min.min a (if lat = true then 90 else 180) ≤ (if lat = true then 90 else 180) :=
      min_le_right _ _
    have : (((if lat = true then 90 else 180 : Int)) : fixed) =
        (if lat = true then 90 else 180) := by
      split_ifs <;> norm_num
    rw [← this]; exact_mod_cast h1
  have c2 : (0 : fixed) ≤ (m : fixed) := by exact_mod_cast hm0
  have c3 : (m : fixed) ≤ 59 := by exact_mod_cast hm1
  have c4 : (0 : fixed) ≤ (l : fixed) := by exact_mod_cast hl0
  have c5 : (l : fixed) ≤ 999 := by exact_mod_cast hl1
  rcases hv with hv | hv
  · rw [hv, abs_of_nonneg (by positivity)]; linarith
  · rw [hv, abs_neg, abs_of_nonneg (by positivity)]; linarith

/-- C11 (failing input): the latitude token `9059.999N` is accepted, its
degrees are 90 (the clamp leaves them), and the minutes and thousandths are
added on top: the result is 90 + 59/60 + 999/60000, above 90. The same token
with `S` gives a latitude below -90. -/
theorem latitude_above_90 :
    parseAngle (2 ^ 31 - 1) "9059.999N".toList true = some (5459999 / 60000) ∧
    (90 : fixed) < 5459999 / 60000 ∧
    parseAngle (2 ^ 31 - 1) "9059.999S".toList true = some (-(5459999 / 60000)) ∧
    parseAngle (2 ^ 63 - 1) "9059.999N".toList true = some (5459999 / 60000) := by
  refine ⟨by decide!, by norm_num, by decide!, by decide!⟩
/-! ### The stored longitude (C12) -/

theorem normalize_Longitude_range (g : GeoPoint) :
    -180 < g.normalize.Longitude ∧ g.normalize.Longitude ≤ 180 := by
  unfold GeoPoint.normalize
  have h1 := Int.le_ceil ((g.Longitude - 180) / 360)
  have h2 := Int.ceil_lt_add_one ((g.Longitude - 180) / 360)
  constructor
  · show -180 < g.Longitude - 360 * (⌈(g.Longitude - 180) / 360⌉ : fixed)
    linarith
  · show g.Longitude - 360 * (⌈(g.Longitude - 180) / 360⌉ : fixed) ≤ 180
    linarith

theorem normalize_Longitude_fixed (g : GeoPoint) (h1 : -180 < g.Longitude)
    (h2 : g.Longitude ≤ 180) : g.normalize.Longitude = g.Longitude := by
  unfold GeoPoint.normalize
  have hc : ⌈(g.Longitude - 180) / 360⌉ = 0 := by
    rw [Int.ceil_eq_iff]
    constructor
    · push_cast; linarith
    · push_cast; linarith
  show g.Longitude - 360 * (⌈(g.Longitude - 180) / 360⌉ : fixed) = g.Longitude
  rw [hc]; simp

theorem recordStart_eq_some (env : Env) (st : ParserState) (params : List CStr) (w0 : Waypoint)
    (h : recordStart env st params = some w0) :
    ∃ latitude longitude,
      parseAngle env.LONG_MAX (param params st.iLatitude) true = some latitude ∧
      parseAngle env.LONG_MAX (param params st.iLongitude) false = some longitude ∧
      w0 = { env.newWaypoint
              (GeoPoint.normalize { Latitude := latitude, Longitude := longitude }) with
             FileNum := env.file_num, Name := param params st.iName } := by
  unfold recordStart at h
  by_cases h1 : params.length ≤ st.iName
  · simp [h1] at h
  by_cases h2 : params.length ≤ st.iLatitude
  · simp [h1, h2] at h
  by_cases h3 : params.length ≤ st.iLongitude
  · simp [h1, h2, h3] at h
  cases h4 : parseAngle env.LONG_MAX (param params st.iLatitude) true with
  | none => simp [h1, h2, h3, h4] at h
  | some latitude =>
    cases h5 : parseAngle env.LONG_MAX (param params st.iLongitude) false with
    | none => simp [h1, h2, h3, h4, h5] at h
    | some longitude =>
      by_cases h6 : param params st.iName = []
      · simp [h1, h2, h3, h4, h5, h6] at h
      · simp only [h1, h2, h3, h4, h5, h6, if_false] at h
        exact ⟨latitude, longitude, rfl, rfl, (Option.some.inj h).symm⟩

theorem elevationStep_Location (env : Env) (st : ParserState) (params : List CStr)
    (terrain : RasterTerrain) (w : Waypoint) :
    (elevationStep env st params terrain w).Location = w.Location := by
  unfold elevationStep check_altitude
  split
  · rfl
  · simp only [Bool.false_eq_true, if_false]
    split <;> rfl

theorem landableStep_Location (env : Env) (st : ParserState) (params : List CStr)
    (w : Waypoint) : (landableStep env st params w).Location = w.Location := by
  unfold landableStep
  split_ifs <;> rfl

theorem recordFinish_Location (env : Env) (st : ParserState) (params : List CStr)
    (terrain : RasterTerrain) (w : Waypoint) :
    (recordFinish env st params terrain w).Location = w.Location := by
  have h1 : ∀ x : Waypoint, (commentStep env st params x).Location = x.Location := by
    intro x
    unfold commentStep
    split_ifs <;> simp only [landableStep_Location]
  have h2 : ∀ x : Waypoint, (styleStep env st params x).Location = x.Location := by
    intro x
    unfold styleStep
    split_ifs <;> rfl
  rw [recordFinish, h1]
  show (styleStep env st params (elevationStep env st params terrain w)).Location = w.Location
  rw [h2, elevationStep_Location]

/-- C12: for an accepted record, built by a constructor that stores the
location it is given, the stored longitude lies in `(-180, 180]`; it is the
longitude that `parseAngle` returns for the lon token, which has magnitude
below 181, moved by a multiple of 360, and it is that longitude itself when
this lies in the interval already. -/
theorem stored_longitude (env : Env) (st : ParserState) (params : List CStr)
    (terrain : RasterTerrain) (w0 w : Waypoint)
    (hctor : ∀ location, (env.newWaypoint location).Location = location)
    (h0 : recordStart env st params = some w0)
    (h : parseRecord env st params terrain = some w) :
    -180 < w.Location.Longitude ∧ w.Location.Longitude ≤ 180 ∧
    ∃ longitude : fixed, ∃ k : Int,
      parseAngle env.LONG_MAX (param params st.iLongitude) false = some longitude ∧
      |longitude| < 181 ∧
      w.Location.Longitude = longitude - 360 * k ∧
      (-180 < longitude → longitude ≤ 180 → w.Location.Longitude = longitude) := by
  have hw := parseRecord_eq_some env st params terrain w0 w h0 h
  obtain ⟨latitude, longitude, hlat, hlon, hw0⟩ := recordStart_eq_some env st params w0 h0
  have hloc : w.Location =
      GeoPoint.normalize { Latitude := latitude, Longitude := longitude } := by
    rw [hw, recordFinish_Location, hw0]
    exact hctor _
  have hb := parseAngle_bounds env.LONG_MAX _ false longitude hlon
  rw [hloc]
  refine ⟨(normalize_Longitude_range _).1, (normalize_Longitude_range _).2,
    longitude, ⌈(longitude - 180) / 360⌉, hlon, ?_, rfl, ?_⟩
  · simp only [Bool.false_eq_true, if_false] at hb
    exact lt_of_le_of_lt hb (by norm_num)
  · intro h1 h2
    exact normalize_Longitude_fixed { Latitude := latitude, Longitude := longitude } h1 h2

/-- Witness of C12: the longitude token `18000.000W` parses to -180, outside
the interval, and the accepted record stores 180. -/
theorem stored_longitude_witness :
    parseAngle specEnv.LONG_MAX "18000.000W".toList false = some (-180) ∧
    (parseRecord specEnv ParserState.initial
        (getParams specEnv "Alpha,A1,US,5115.900N,18000.000W".toList) noTerrain).map
      (fun w => w.Location.Longitude) = some 180 := by
  have h := (Option.some_get (show (parseRecord specEnv ParserState.initial
      (getParams specEnv "Alpha,A1,US,5115.900N,18000.000W".toList)
      noTerrain).isSome = true from by decide!)).symm
  have h0 := (Option.some_get (show (recordStart specEnv ParserState.initial
      (getParams specEnv "Alpha,A1,US,5115.900N,18000.000W".toList)).isSome
      = true from by decide!)).symm
  obtain ⟨h1, h2, longitude, k, hlon, -, hk, -⟩ :=
    stored_longitude specEnv ParserState.initial _ noTerrain _ _ (fun _ => rfl) h0 h
  have hp : parseAngle specEnv.LONG_MAX "18000.000W".toList false = some (-180) := by decide!
  have hl : longitude = -180 := Option.some.inj (hlon.symm.trans hp)
  rw [hk, hl] at h1 h2
  have k1 : (k : fixed) < 0 := by linarith
  have k2 : (-1 : fixed) ≤ (k : fixed) := by linarith
  have k3 : k < 0 := by exact_mod_cast k1
  have k4 : -1 ≤ k := by exact_mod_cast k2
  have k5 : k = -1 := by omega
  refine ⟨hp, (congrArg (Option.map (fun w => w.Location.Longitude)) h).trans
    (congrArg some ?_)⟩
  exact hk.trans (by rw [hl, k5]; norm_num)

/-! ### Tokens that `parseAngle` rejects, and some it does not (C13) -/

theorem parseAngle_rejects (L : Int) (src : CStr) (lat : Bool) :
    ((strtol L src).2 = 0 → parseAngle L src lat = none) ∧
    ((strtol L src).1 < 0 → parseAngle L src lat = none) ∧
    (deref (src.drop (strtol L src).2) ≠ '.' → parseAngle L src lat = none) ∧
    (60 ≤ Int.tmod (strtol L src).1 100 → parseAngle L src lat = none) ∧
    ((strtol L ((src.drop (strtol L src).2).drop 1)).2 ≠ 3 → parseAngle L src lat = none) ∧
    ((strtol L ((src.drop (strtol L src).2).drop 1)).1 < 0 → parseAngle L src lat = none) := by
  refine ⟨?_, ?_, ?_, ?_, ?_, ?_⟩ <;> intro h <;> unfold parseAngle <;> simp only []
  · rw [if_pos (Or.inl h)]
  · rw [if_pos (Or.inr (Or.inr h))]
  · rw [if_pos (Or.inr (Or.inl h))]
  · split_ifs <;> rfl
  · split_ifs with h1 h2 h3 <;> first | rfl | exact absurd (Or.inl h) h3
  · split_ifs with h1 h2 h3 <;> first | rfl | exact absurd (Or.inr (Or.inl h)) h3

/-- C13 (failing input): in `5115. 12N` and `5115.+12N` the three characters
after the point are not all digits (a space or a sign and two digits), and
`parseAngle` accepts both as 51 degrees 15.012 minutes; it also accepts a
token that begins with white space and a sign, and one whose integer is
written `-0`. A negative fraction and a fourth digit are rejected. -/
theorem parseAngle_accepts_malformed :
    parseAngle (2 ^ 31 - 1) "5115. 12N".toList true = some (51 + 15 / 60 + 12 / 60000) ∧
    parseAngle (2 ^ 31 - 1) "5115.+12N".toList true = some (51 + 15 / 60 + 12 / 60000) ∧
    parseAngle (2 ^ 31 - 1) " +5115.900N".toList true = some (51265 / 1000) ∧
    parseAngle (2 ^ 31 - 1) "-0.900S".toList true = some (-(900 / 60000)) ∧
    parseAngle (2 ^ 31 - 1) "5115.-12N".toList true = none ∧
    parseAngle (2 ^ 31 - 1) "5115.9000N".toList true = none := by
  refine ⟨by decide!, by decide!, by decide!, by decide!, by decide!, by decide!⟩
/-! ### The end-to-end example (C14) -/

theorem saturate_of_small (L : Int) (hL : 2147483647 ≤ L) (v : Int)
    (h1 : -2147483647 ≤ saturate 2147483647 v) (h2 : saturate 2147483647 v < 2147483647) :
    saturate L v = saturate 2147483647 v := by
  unfold saturate at h1 h2 ⊢
  split_ifs at h1 h2 ⊢ <;> omega

theorem strtol_of_small (L : Int) (hL : 2147483647 ≤ L) (src : CStr)
    (h1 : -2147483647 ≤ (strtol 2147483647 src).1) (h2 : (strtol 2147483647 src).1 < 2147483647) :
    strtol L src = strtol 2147483647 src := by
  unfold strtol at h1 h2 ⊢
  simp only [] at h1 h2 ⊢
  by_cases hd : List.takeWhile isdigit (List.drop (signLength (List.dropWhile isspace src))
      (List.dropWhile isspace src)) = []
  · simp only [hd, if_true]
  · simp only [hd, if_false] at h1 h2 ⊢
    rw [saturate_of_small L hL _ h1 h2]

theorem parseAngle_of_small (L : Int) (hL : 2147483647 ≤ L) (src : CStr) (lat : Bool)
    (h1 : -2147483647 ≤ (strtol 2147483647 src).1) (h2 : (strtol 2147483647 src).1 < 2147483647)
    (h3 : -2147483647 ≤
      (strtol 2147483647 ((src.drop (strtol 2147483647 src).2).drop 1)).1)
    (h4 : (strtol 2147483647 ((src.drop (strtol 2147483647 src).2).drop 1)).1 < 2147483647) :
    parseAngle L src lat = parseAngle 2147483647 src lat := by
  unfold parseAngle
  simp only [strtol_of_small L hL src h1 h2, strtol_of_small L hL _ h3 h4]

theorem parseStyle_of_small (L : Int) (hL : 2147483647 ≤ L) (src : CStr) (dest : WaypointFlags)
    (h1 : -2147483647 ≤ (strtol 2147483647 src).1) (h2 : (strtol 2147483647 src).1 < 2147483647) :
    parseStyle L src dest = parseStyle 2147483647 src dest := by
  unfold parseStyle
  simp only [strtol_of_small L hL src h1 h2]

theorem runwayDirection_of_small (L : Int) (hL : 2147483647 ≤ L) (src : CStr)
    (h1 : -2147483647 ≤ (strtol 2147483647 src).1) (h2 : (strtol 2147483647 src).1 < 2147483647) :
    runwayDirection L src = runwayDirection 2147483647 src := by
  unfold runwayDirection
  simp only [strtol_of_small L hL src h1 h2]
theorem exampleRecord_start (env : Env) (hL : 2147483647 ≤ env.LONG_MAX) :
    recordStart env ParserState.initial exampleRecord =
      some { env.newWaypoint { Latitude := 51265 / 1000, Longitude := -(7265 / 1000) } with
             FileNum := env.file_num, Name := "Alpha".toList } := by
  have hlat : parseAngle env.LONG_MAX (param exampleRecord ParserState.initial.iLatitude) true
      = some (51265 / 1000) :=
    (parseAngle_of_small env.LONG_MAX hL _ true (by decide) (by decide) (by decide)
      (by decide)).trans (by decide!)
  have hlon : parseAngle env.LONG_MAX (param exampleRecord ParserState.initial.iLongitude) false
      = some (-(7265 / 1000)) :=
    (parseAngle_of_small env.LONG_MAX hL _ false (by decide) (by decide) (by decide)
      (by decide)).trans (by decide!)
  have hnorm : GeoPoint.normalize { Latitude := 51265 / 1000, Longitude := -(7265 / 1000) }
      = { Latitude := 51265 / 1000, Longitude := -(7265 / 1000) } := by decide!
  have hname : param exampleRecord ParserState.initial.iName = "Alpha".toList := rfl
  have h1 : ¬ exampleRecord.length ≤ ParserState.initial.iName := by decide
  have h2 : ¬ exampleRecord.length ≤ ParserState.initial.iLatitude := by decide
  have h3 : ¬ exampleRecord.length ≤ ParserState.initial.iLongitude := by decide
  have h4 : ¬ "Alpha".toList = [] := by decide
  unfold recordStart
  simp only [h1, h2, h3, if_false, hlat, hlon, hnorm, hname, h4]

theorem exampleRecord_finish (env : Env) (hL : 2147483647 ≤ env.LONG_MAX)
    (terrain : RasterTerrain) (w0 : Waypoint) (hc : w0.Comment = []) :
    recordFinish env ParserState.initial exampleRecord terrain w0 =
      { w0 with
        Altitude := 458,
        Flags := { TurnPoint := true, LandPoint := false, Airport := true },
        RunwayLength := 1200,
        RunwayDirection := 90,
        Comment := "118.500 090° 1200m Main field".toList } := by
  have halt : parseAltitude env.nonFinite env.factor (param exampleRecord ParserState.initial.iElevation)
      = some 458 := by
    have hs : strtod (param exampleRecord ParserState.initial.iElevation) = (Double.finite 458, 5) := by
      decide!
    have hu : ¬ (deref ((param exampleRecord ParserState.initial.iElevation).drop 5) = 'F' ∨
        deref ((param exampleRecord ParserState.initial.iElevation).drop 5) = 'f') := by decide
    unfold parseAltitude
    simp only [hs, hu, if_false, OfNat.ofNat_ne_zero, fixedOfDouble]
  have hsty : ∀ F, parseStyle env.LONG_MAX (param exampleRecord ParserState.initial.iStyle) F
      = (true, { TurnPoint := true, LandPoint := false, Airport := true }) := by
    intro F
    rw [parseStyle_of_small env.LONG_MAX hL _ F (by decide) (by decide)]
    have hs : strtol 2147483647 (param exampleRecord ParserState.initial.iStyle) = (5, 1) := by
      decide
    unfold parseStyle
    simp only [hs]
    simp
  have hlen : parseDistance env.nonFinite env.factor (param exampleRecord ParserState.initial.iRWLen)
      = some 1200 := by
    have hs : strtod (param exampleRecord ParserState.initial.iRWLen) = (Double.finite 1200, 4) := by decide!
    have h1 : tcsicmp_eq ((param exampleRecord ParserState.initial.iRWLen).drop 4) "ml".toList
        = false := by decide
    have h2 : tcsicmp_eq ((param exampleRecord ParserState.initial.iRWLen).drop 4) "nm".toList
        = false := by decide
    unfold parseDistance
    simp only [hs, h1, h2, if_false, OfNat.ofNat_ne_zero, Bool.false_eq_true, fixedOfDouble]
  have hdir : runwayDirection env.LONG_MAX (param exampleRecord ParserState.initial.iRWDir)
      = 90 := by
    rw [runwayDirection_of_small env.LONG_MAX hL _ (by decide) (by decide)]
    decide!
  have g1 : ParserState.initial.iElevation < exampleRecord.length := by decide
  have g2 : ParserState.initial.iStyle < exampleRecord.length := by decide
  have g3 : ParserState.initial.iRWLen < exampleRecord.length := by decide
  have g4 : ParserState.initial.iFrequency < exampleRecord.length := by decide
  have g5 : ParserState.initial.iRWDir < exampleRecord.length := by decide
  have g7 : ¬ param exampleRecord ParserState.initial.iRWDir = [] := by decide
  have hcom : appendStringWithSeperator
      (appendStringWithSeperator
        (appendStringWithSeperator
            (appendStringWithSeperator []
              (param exampleRecord ParserState.initial.iFrequency) defaultSeperator)
            (param exampleRecord ParserState.initial.iRWDir) defaultSeperator ++ degreeMark)
        (param exampleRecord ParserState.initial.iRWLen) defaultSeperator)
      (param exampleRecord ParserState.initial.iDescription) defaultSeperator
      = "118.500 090° 1200m Main field".toList := by decide
  have g6 : ParserState.initial.iDescription < exampleRecord.length := by decide
  have hre : reclassify { TurnPoint := true, LandPoint := false, Airport := true } 1200
      = { TurnPoint := true, LandPoint := false, Airport := true } := by decide!
  simp only [recordFinish, elevationStep, styleStep, runwayStep, commentStep, landableStep,
    runwayLength, check_altitude, Waypoint.is_landable, halt, hsty, hlen, hdir, g1, g2, g3, g4,
    g5, g6, g7, if_true, hre, hc, Bool.or_true, and_self, ne_eq, not_false_eq_true, hcom]
theorem not_comment_of_isCommentLine {line : CStr} (h : isCommentLine line = false) :
    ¬ (line = [] ∨ deref line = Char.ofNat 26 ∨
      tcsstr line "**".toList = some line ∨ tcsstr line "*".toList = some line) := by
  rw [isCommentLine_iff, h]; simp

theorem isCommentLine_false {line : CStr} (h : isCommentLine line = false) :
    line ≠ [] ∧ deref line ≠ Char.ofNat 26 ∧ deref line ≠ '*' := by
  unfold isCommentLine at h
  have := of_decide_eq_false h
  exact ⟨fun e => this (Or.inl e), fun e => this (Or.inr (Or.inl e)),
    fun e => this (Or.inr (Or.inr e))⟩

/-- C14: from the initial state, a header line whose tokens are name, code,
country, lat, lon, elev, style, rwdir, rwlen, freq, desc is processed as line
0 (it returns true and leaves the state as it was); then a record line whose
tokens are Alpha, A1, US, 5115.900N, 00715.900W, 458.0m, 5, 090, 1200m,
118.500, Main field is accepted and adds exactly one waypoint to the empty
collection, with name Alpha, latitude 51.265, longitude -7.265, altitude 458,
flags TurnPoint and Airport (not LandPoint), runway direction 90, runway
length 1200 and the comment `118.500 090° 1200m Main field`. -/
theorem end_to_end (env : Env) (terrain : RasterTerrain) (header record : CStr)
    (hL : 2147483647 ≤ env.LONG_MAX)
    (hloc : ∀ location, (env.newWaypoint location).Location = location)
    (hcom : ∀ location, (env.newWaypoint location).Comment = [])
    (hh1 : isCommentLine header = false) (hh2 : header.length < 255)
    (hh3 : getParams env header = exampleHeader)
    (hr1 : isCommentLine record = false) (hr2 : record.length < 255)
    (hr3 : ¬ taskMarker <+: record) (hr4 : getParams env record = exampleRecord) :
    parseLine env ParserState.initial header 0 [] terrain = (true, ParserState.initial, []) ∧
    ∃ w, parseLine env (parseLine env ParserState.initial header 0 [] terrain).2.1 record 1
          (parseLine env ParserState.initial header 0 [] terrain).2.2 terrain
        = (true, ParserState.initial, [w]) ∧
      w.Name = "Alpha".toList ∧
      w.Location.Latitude = 51265 / 1000 ∧
      w.Location.Longitude = -(7265 / 1000) ∧
      w.Altitude = 458 ∧
      w.Flags = { TurnPoint := true, LandPoint := false, Airport := true } ∧
      w.RunwayDirection = 90 ∧
      w.RunwayLength = 1200 ∧
      w.Comment = "118.500 090° 1200m Main field".toList := by
  have hheader : parseLine env ParserState.initial header 0 [] terrain
      = (true, ParserState.initial, []) := by
    have h2 : ¬ ctemp_size ≤ header.length := by unfold ctemp_size; omega
    have h3 : ({ headerLoop ParserState.initial 0 exampleHeader with
        ignore_following := false } : ParserState) = ParserState.initial := by decide
    unfold parseLine
    rw [if_neg (not_comment_of_isCommentLine hh1), if_neg h2, if_pos rfl, hh3, h3]
  refine ⟨hheader, ?_⟩
  obtain ⟨hne, heof, hstar⟩ := isCommentLine_false hr1
  rw [hheader]
  rw [parseLine_data env ParserState.initial record 1 [] terrain (by decide) hr2 hne heof hstar
    hr3 rfl, hr4]
  unfold parseRecord
  rw [exampleRecord_start env hL, Option.map_some',
    exampleRecord_finish env hL terrain _ (show ({ env.newWaypoint
      { Latitude := 51265 / 1000, Longitude := -(7265 / 1000) } with
      FileNum := env.file_num, Name := "Alpha".toList } : Waypoint).Comment = [] from hcom _)]
  refine ⟨_, rfl, rfl, ?_, ?_, rfl, rfl, rfl, rfl, rfl⟩
  · show (env.newWaypoint _).Location.Latitude = _
    rw [hloc]
  · show (env.newWaypoint _).Location.Longitude = _
    rw [hloc]

/-- Witness of C14: with the tokenizer and the constructor of the spec, the
header line and the record line of the spec's example give that waypoint. -/
theorem end_to_end_witness :
    (parseLine specEnv
        (parseLine specEnv ParserState.initial
          "name,code,country,lat,lon,elev,style,rwdir,rwlen,freq,desc".toList 0 []
          noTerrain).2.1
        "Alpha,A1,US,5115.900N,00715.900W,458.0m,5,090,1200m,118.500,\"Main field\"".toList 1
        (parseLine specEnv ParserState.initial
          "name,code,country,lat,lon,elev,style,rwdir,rwlen,freq,desc".toList 0 []
          noTerrain).2.2 noTerrain).2.2.map
      (fun w => (w.Name, w.Location.Latitude, w.Location.Longitude, w.Altitude, w.Flags,
        w.RunwayDirection, w.RunwayLength, w.Comment)) =
    [("Alpha".toList, 51265 / 1000, -(7265 / 1000), 458,
      { TurnPoint := true, LandPoint := false, Airport := true }, 90, 1200,
      "118.500 090° 1200m Main field".toList)] := by
  obtain ⟨-, w, hw, h1, h2, h3, h4, h5, h6, h7, h8⟩ := end_to_end specEnv noTerrain
    "name,code,country,lat,lon,elev,style,rwdir,rwlen,freq,desc".toList
    "Alpha,A1,US,5115.900N,00715.900W,458.0m,5,090,1200m,118.500,\"Main field\"".toList
    (by decide) (fun _ => rfl) (fun _ => rfl) (by decide) (by decide) (by decide)
    (by decide) (by decide) (by decide) (by decide)
  rw [hw]
  simp only [List.map_cons, List.map_nil, h1, h2, h3, h4, h5, h6, h7, h8]

/-! ### `parseLine` branch by branch (C15, C16, C18, C19, C20) -/

theorem parseLine_eq (env : Env) (st : ParserState) (line : CStr) (linenum : Nat)
    (way_points : Waypoints) (terrain : RasterTerrain) :
    parseLine env st line linenum way_points terrain =
      if isCommentLine line = true then (true, st, way_points)
      else if 255 ≤ line.length then (false, st, way_points)
      else if linenum = 0 then
        (true, { headerLoop st 0 (getParams env line) with ignore_following := false },
          way_points)
      else if taskMarker <+: line then (true, { st with ignore_following := true }, way_points)
      else if st.ignore_following = true then (true, st, way_points)
      else
        match parseRecord env st (getParams env line) terrain with
        | none => (false, st, way_points)
        | some new_waypoint => (true, st, add_waypoint way_points new_waypoint) := by
  by_cases hc : isCommentLine line = true
  · rw [if_pos hc]
    unfold parseLine
    rw [if_pos ((isCommentLine_iff line).mpr hc)]
  rw [if_neg hc]
  unfold parseLine
  rw [if_neg (fun h => hc ((isCommentLine_iff line).mp h))]
  by_cases hl : 255 ≤ line.length
  · rw [if_pos hl, if_pos (show ctemp_size ≤ line.length from hl)]
  rw [if_neg hl, if_neg (show ¬ ctemp_size ≤ line.length from hl)]
  by_cases hn : linenum = 0
  · rw [if_pos hn, if_pos hn]
  rw [if_neg hn, if_neg hn]
  by_cases hm : taskMarker <+: line
  · have hm' : tcsstr line taskMarker = some line := (tcsstr_eq_self_iff _ _).mpr hm
    simp only [hm, hm', if_true]
  · have hm' : ¬ tcsstr line taskMarker = some line :=
      fun h => hm ((tcsstr_eq_self_iff _ _).mp h)
    simp only [hm, hm', if_false]
theorem exampleLine_record :
    parseRecord specEnv ParserState.initial
        (getParams specEnv
          "Alpha,A1,US,5115.900N,00715.900W,458.0m,5,090,1200m,118.500,\"Main field\"".toList)
        noTerrain =
      some { Location := { Latitude := 51265 / 1000, Longitude := -(7265 / 1000) },
             FileNum := 0, Name := "Alpha".toList, Altitude := 458,
             Flags := { TurnPoint := true, LandPoint := false, Airport := true },
             RunwayLength := 1200, RunwayDirection := 90,
             Comment := "118.500 090° 1200m Main field".toList } := by
  have hp : getParams specEnv
      "Alpha,A1,US,5115.900N,00715.900W,458.0m,5,090,1200m,118.500,\"Main field\"".toList =
      exampleRecord := by decide
  rw [hp]
  unfold parseRecord
  rw [exampleRecord_start specEnv (by decide), Option.map_some',
    exampleRecord_finish specEnv (by decide) noTerrain _ rfl]
  rfl

theorem parseLine_record (env : Env) (st : ParserState) (line : CStr) (linenum : Nat)
    (way_points : Waypoints) (terrain : RasterTerrain)
    (hnum : 0 < linenum) (hc : isCommentLine line = false) (hlen : line.length < 255)
    (hm : ¬ taskMarker <+: line) (hi : st.ignore_following = false) :
    parseLine env st line linenum way_points terrain =
      match parseRecord env st (getParams env line) terrain with
      | none => (false, st, way_points)
      | some new_waypoint => (true, st, way_points ++ [new_waypoint]) := by
  rw [parseLine_eq, if_neg (by simp [hc]), if_neg (by omega), if_neg (by omega), if_neg hm,
    if_neg (by simp [hi])]
  rfl

/-- C15: every `parseLine` call ends in exactly one of three ways: accepted
(returns true and adds exactly one waypoint), skipped (returns true and adds
none) or rejected (returns false and adds none). Only a data record whose
fields parse is accepted, and the state is then unchanged; a comment or blank
line, a header row, a marker record and a record after the marker add no
waypoint, and return true when shorter than 255 characters; a rejected record
leaves the column map and `ignore_following` unchanged. A data record is
accepted, which appends its waypoint and nothing else to the collection,
exactly when its name, latitude and longitude columns exist, both angles parse
and the name is not empty; it is rejected otherwise. -/
theorem parseLine_outcomes (env : Env) (st : ParserState) (line : CStr) (linenum : Nat)
    (way_points : Waypoints) (terrain : RasterTerrain) :
    (((parseLine env st line linenum way_points terrain).1 = true ∧
        ∃ w, (parseLine env st line linenum way_points terrain).2.2 = way_points ++ [w]) ∨
      ((parseLine env st line linenum way_points terrain).1 = true ∧
        (parseLine env st line linenum way_points terrain).2.2 = way_points) ∨
      ((parseLine env st line linenum way_points terrain).1 = false ∧
        (parseLine env st line linenum way_points terrain).2.2 = way_points)) ∧
    (∀ w, (parseLine env st line linenum way_points terrain).2.2 = way_points ++ [w] →
      (parseLine env st line linenum way_points terrain).2.2 ≠ way_points ∧
      (parseLine env st line linenum way_points terrain).1 = true ∧
      (parseLine env st line linenum way_points terrain).2.1 = st ∧
      0 < linenum ∧ isCommentLine line = false ∧ line.length < 255 ∧
      ¬ taskMarker <+: line ∧ st.ignore_following = false ∧
      parseRecord env st (getParams env line) terrain = some w) ∧
    ((isCommentLine line = true ∨ linenum = 0 ∨ taskMarker <+: line ∨
        st.ignore_following = true) →
      (parseLine env st line linenum way_points terrain).2.2 = way_points) ∧
    ((parseLine env st line linenum way_points terrain).1 = false →
      (parseLine env st line linenum way_points terrain).2.1 = st ∧
      (parseLine env st line linenum way_points terrain).2.2 = way_points) ∧
    ((isCommentLine line = true ∨ (line.length < 255 ∧
        (linenum = 0 ∨ taskMarker <+: line ∨ st.ignore_following = true))) →
      (parseLine env st line linenum way_points terrain).1 = true) ∧
    (0 < linenum → isCommentLine line = false → line.length < 255 →
      ¬ taskMarker <+: line → st.ignore_following = false →
      (∀ w, parseRecord env st (getParams env line) terrain = some w →
        parseLine env st line linenum way_points terrain = (true, st, way_points ++ [w])) ∧
      (parseRecord env st (getParams env line) terrain = none →
        parseLine env st line linenum way_points terrain = (false, st, way_points)) ∧
      (parseRecord env st (getParams env line) terrain = none ↔
        ((getParams env line).length ≤ st.iName ∨
          (getParams env line).length ≤ st.iLatitude ∨
          (getParams env line).length ≤ st.iLongitude ∨
          parseAngle env.LONG_MAX (param (getParams env line) st.iLatitude) true = none ∨
          parseAngle env.LONG_MAX (param (getParams env line) st.iLongitude) false = none ∨
          param (getParams env line) st.iName = [])) ∧
      (¬ ((getParams env line).length ≤ st.iName ∨
          (getParams env line).length ≤ st.iLatitude ∨
          (getParams env line).length ≤ st.iLongitude ∨
          parseAngle env.LONG_MAX (param (getParams env line) st.iLatitude) true = none ∨
          parseAngle env.LONG_MAX (param (getParams env line) st.iLongitude) false = none ∨
          param (getParams env line) st.iName = []) →
        ∃ w, parseLine env st line linenum way_points terrain =
          (true, st, way_points ++ [w]))) := by
  have hold :
      (((parseLine env st line linenum way_points terrain).1 = true ∧
          ∃ w, (parseLine env st line linenum way_points terrain).2.2 = way_points ++ [w]) ∨
        ((parseLine env st line linenum way_points terrain).1 = true ∧
          (parseLine env st line linenum way_points terrain).2.2 = way_points) ∨
        ((parseLine env st line linenum way_points terrain).1 = false ∧
          (parseLine env st line linenum way_points terrain).2.2 = way_points)) ∧
      (∀ w, (parseLine env st line linenum way_points terrain).2.2 = way_points ++ [w] →
        (parseLine env st line linenum way_points terrain).2.2 ≠ way_points ∧
        (parseLine env st line linenum way_points terrain).1 = true ∧
        (parseLine env st line linenum way_points terrain).2.1 = st ∧
        0 < linenum ∧ isCommentLine line = false ∧ line.length < 255 ∧
        ¬ taskMarker <+: line ∧ st.ignore_following = false ∧
        parseRecord env st (getParams env line) terrain = some w) ∧
      ((isCommentLine line = true ∨ linenum = 0 ∨ taskMarker <+: line ∨
          st.ignore_following = true) →
        (parseLine env st line linenum way_points terrain).2.2 = way_points) ∧
      ((parseLine env st line linenum way_points terrain).1 = false →
        (parseLine env st line linenum way_points terrain).2.1 = st ∧
        (parseLine env st line linenum way_points terrain).2.2 = way_points) := by
    have hgrow : ∀ w : Waypoint, way_points ≠ way_points ++ [w] := by
      intro w h
      have := congrArg List.length h
      simp at this
    rw [parseLine_eq]
    by_cases hc : isCommentLine line = true
    · rw [if_pos hc]
      exact ⟨Or.inr (Or.inl ⟨rfl, rfl⟩), fun w h => absurd h (hgrow w), fun _ => rfl,
        fun h => absurd h (by simp)⟩
    rw [if_neg hc]
    by_cases hl : 255 ≤ line.length
    · rw [if_pos hl]
      exact ⟨Or.inr (Or.inr ⟨rfl, rfl⟩), fun w h => absurd h (hgrow w), fun _ => rfl,
        fun _ => ⟨rfl, rfl⟩⟩
    rw [if_neg hl]
    by_cases hn : linenum = 0
    · rw [if_pos hn]
      exact ⟨Or.inr (Or.inl ⟨rfl, rfl⟩), fun w h => absurd h (hgrow w), fun _ => rfl,
        fun h => absurd h (by simp)⟩
    rw [if_neg hn]
    by_cases hm : taskMarker <+: line
    · rw [if_pos hm]
      exact ⟨Or.inr (Or.inl ⟨rfl, rfl⟩), fun w h => absurd h (hgrow w), fun _ => rfl,
        fun h => absurd h (by simp)⟩
    rw [if_neg hm]
    by_cases hi : st.ignore_following = true
    · rw [if_pos hi]
      exact ⟨Or.inr (Or.inl ⟨rfl, rfl⟩), fun w h => absurd h (hgrow w), fun _ => rfl,
        fun h => absurd h (by simp)⟩
    rw [if_neg hi]
    have hcf : isCommentLine line = false := by simpa using hc
    have hif : st.ignore_following = false := by simpa using hi
    cases hp : parseRecord env st (getParams env line) terrain with
    | none =>
      refine ⟨Or.inr (Or.inr ⟨rfl, rfl⟩), fun w h => absurd h (hgrow w), fun _ => rfl,
        fun _ => ⟨rfl, rfl⟩⟩
    | some new_waypoint =>
      refine ⟨Or.inl ⟨rfl, new_waypoint, rfl⟩, ?_, ?_, fun h => absurd h (by simp)⟩
      · intro w h
        have hw : new_waypoint = w := by
          have : way_points ++ [new_waypoint] = way_points ++ [w] := h
          simpa using this
        subst hw
        exact ⟨fun e => hgrow _ e.symm, rfl, rfl, by omega, hcf, by omega, hm, hif, rfl⟩
      · rintro (h | h | h | h)
        · exact absurd h hc
        · exact absurd h hn
        · exact absurd h hm
        · exact absurd h hi
  refine ⟨hold.1, hold.2.1, hold.2.2.1, hold.2.2.2, ?_, ?_⟩
  · rw [parseLine_eq]
    rintro (hc | ⟨hl, h⟩)
    · rw [if_pos hc]
    · by_cases hc : isCommentLine line = true
      · rw [if_pos hc]
      · rw [if_neg hc, if_neg (by omega)]
        by_cases hn : linenum = 0
        · rw [if_pos hn]
        · rw [if_neg hn]
          by_cases hm : taskMarker <+: line
          · rw [if_pos hm]
          · rw [if_neg hm]
            rcases h with h | h | h
            · exact absurd h hn
            · exact absurd h hm
            · rw [if_pos h]
  · intro hnum hc hlen hm hi
    have hrec := parseLine_record env st line linenum way_points terrain hnum hc hlen hm hi
    have hiff := (parseRecord_eq_none_iff env st (getParams env line) terrain).trans
      (recordStart_eq_none_iff env st (getParams env line))
    refine ⟨?_, ?_, hiff, ?_⟩
    · intro w hw
      rw [hrec, hw]
    · intro hn
      rw [hrec, hn]
    · intro hnot
      cases hp : parseRecord env st (getParams env line) terrain with
      | none => exact absurd (hiff.mp hp) hnot
      | some w => exact ⟨w, by rw [hrec, hp]⟩

/-- Witness of C15: from the initial state, the record `Alpha,A1` is rejected
and leaves the state and the collection as they were, and the record of the
spec's example is accepted: it returns true, keeps the state and appends its
one waypoint to a collection that already holds one. -/
theorem parseLine_outcomes_witness :
    ((parseLine specEnv ParserState.initial "Alpha,A1".toList 1 [] noTerrain).2.1
        = ParserState.initial ∧
      (parseLine specEnv ParserState.initial "Alpha,A1".toList 1 [] noTerrain).2.2 = []) ∧
    parseLine specEnv ParserState.initial
        "Alpha,A1,US,5115.900N,00715.900W,458.0m,5,090,1200m,118.500,\"Main field\"".toList 1
        [specWaypoint { Latitude := 0, Longitude := 0 }] noTerrain =
      (true, ParserState.initial,
        [specWaypoint { Latitude := 0, Longitude := 0 },
          { Location := { Latitude := 51265 / 1000, Longitude := -(7265 / 1000) },
            FileNum := 0, Name := "Alpha".toList, Altitude := 458,
            Flags := { TurnPoint := true, LandPoint := false, Airport := true },
            RunwayLength := 1200, RunwayDirection := 90,
            Comment := "118.500 090° 1200m Main field".toList }]) :=
  ⟨(parseLine_outcomes specEnv ParserState.initial "Alpha,A1".toList 1 [] noTerrain).2.2.2.1
      (by decide),
    ((parseLine_outcomes specEnv ParserState.initial
      "Alpha,A1,US,5115.900N,00715.900W,458.0m,5,090,1200m,118.500,\"Main field\"".toList 1
      [specWaypoint { Latitude := 0, Longitude := 0 }] noTerrain).2.2.2.2.2
      (by decide) (by decide) (by decide) (by decide) rfl).1 _ exampleLine_record⟩

/-- C16 (as amended): a `parseLine` call with `linenum = 0` on a line shorter
than 255 characters that is not blank, does not begin with 0x1A and does not
begin with `*` returns true, adds no waypoint, and leaves `ignore_following`
false whatever it was before; the column map is the one the header loop
gives. -/
theorem header_succeeds (env : Env) (st : ParserState) (line : CStr) (way_points : Waypoints)
    (terrain : RasterTerrain) (hc : isCommentLine line = false) (hlen : line.length < 255) :
    parseLine env st line 0 way_points terrain =
      (true, { headerLoop st 0 (getParams env line) with ignore_following := false },
        way_points) ∧
    (parseLine env st line 0 way_points terrain).1 = true ∧
    (parseLine env st line 0 way_points terrain).2.2 = way_points ∧
    (parseLine env st line 0 way_points terrain).2.1.ignore_following = false := by
  have h : parseLine env st line 0 way_points terrain =
      (true, { headerLoop st 0 (getParams env line) with ignore_following := false },
        way_points) := by
    rw [parseLine_eq, if_neg (by simp [hc]), if_neg (by omega), if_pos rfl]
  rw [h]
  exact ⟨rfl, rfl, rfl, rfl⟩

/-- Witness of C16: after a section-end marker the header `name,lat,lon` of
the next file is processed and `ignore_following` is false again. -/
theorem header_succeeds_witness :
    (parseLine specEnv ParserState.initial taskMarker 9 [] noTerrain).2.1.ignore_following
      = true ∧
    (parseLine specEnv (parseLine specEnv ParserState.initial taskMarker 9 [] noTerrain).2.1
      "name,lat,lon".toList 0 [] noTerrain).2.1.ignore_following = false :=
  ⟨by decide,
    (header_succeeds specEnv (parseLine specEnv ParserState.initial taskMarker 9 []
      noTerrain).2.1 "name,lat,lon".toList [] noTerrain (by decide) (by decide)).2.2.2⟩

/-- Counterexample to C16 as stated: a header row of 255 characters (`name,lat,lon`
followed by 243 commas) at line 0 is not blank, not the end-of-file character
and not a comment, but `parseLine` returns false and `ignore_following`, true
before, stays true. -/
theorem long_header_counterexample :
    ("name,lat,lon".toList ++ List.replicate 243 ',').length = 255 ∧
    isCommentLine ("name,lat,lon".toList ++ List.replicate 243 ',') = false ∧
    (parseLine specEnv { ParserState.initial with ignore_following := true }
      ("name,lat,lon".toList ++ List.replicate 243 ',') 0 [] noTerrain).1 = false ∧
    (parseLine specEnv { ParserState.initial with ignore_following := true }
      ("name,lat,lon".toList ++ List.replicate 243 ',') 0 [] noTerrain).2.1.ignore_following
      = true := by
  refine ⟨by decide!, by decide!, by decide!, by decide!⟩

/-- C18: for a line that is empty, or begins with the end-of-file character
0x1A, or begins with `*`, `parseLine` returns true under every `linenum`,
state and line length, and changes neither the column map, nor
`ignore_following`, nor the collection. -/
theorem comment_line_skipped (env : Env) (st : ParserState) (line : CStr) (linenum : Nat)
    (way_points : Waypoints) (terrain : RasterTerrain)
    (h : line = [] ∨ deref line = Char.ofNat 26 ∨ deref line = '*') :
    parseLine env st line linenum way_points terrain = (true, st, way_points) := by
  have hc : isCommentLine line = true := by
    unfold isCommentLine
    exact decide_eq_true h
  rw [parseLine_eq, if_pos hc]

/-- Witness of C18: a comment of 300 characters at line 0, met while
`ignore_following` is true, is skipped, is not taken as the header and does
not reset `ignore_following`. -/
theorem comment_line_skipped_witness :
    parseLine specEnv { ParserState.initial with ignore_following := true }
        ('*' :: List.replicate 299 'x') 0 [] noTerrain =
      (true, { ParserState.initial with ignore_following := true }, []) :=
  comment_line_skipped specEnv { ParserState.initial with ignore_following := true }
    ('*' :: List.replicate 299 'x') 0 [] noTerrain (Or.inr (Or.inr rfl))

/-- C19 (as amended): for a data record processed while `ignore_following` is
false (`linenum > 0`, not a comment or blank, shorter than 255 characters),
`ignore_following` is true afterwards if and only if the line begins with the
section-end marker; such a line, with or without further characters, is
skipped, and every other line is parsed as an ordinary record. -/
theorem marker_sets_ignore (env : Env) (st : ParserState) (line : CStr) (linenum : Nat)
    (way_points : Waypoints) (terrain : RasterTerrain)
    (hnum : 0 < linenum) (hc : isCommentLine line = false) (hlen : line.length < 255)
    (hign : st.ignore_following = false) :
    ((parseLine env st line linenum way_points terrain).2.1.ignore_following = true ↔
      taskMarker <+: line) ∧
    (taskMarker <+: line →
      parseLine env st line linenum way_points terrain =
        (true, { st with ignore_following := true }, way_points)) ∧
    (¬ taskMarker <+: line →
      parseLine env st line linenum way_points terrain =
        match parseRecord env st (getParams env line) terrain with
        | none => (false, st, way_points)
        | some new_waypoint => (true, st, add_waypoint way_points new_waypoint)) := by
  have hi : ¬ st.ignore_following = true := by simp [hign]
  rw [parseLine_eq, if_neg (by simp [hc]), if_neg (by omega), if_neg (by omega)]
  by_cases hm : taskMarker <+: line
  · rw [if_pos hm]
    exact ⟨⟨fun _ => hm, fun _ => rfl⟩, fun _ => rfl, fun h => absurd hm h⟩
  · rw [if_neg hm, if_neg hi]
    refine ⟨⟨fun h => ?_, fun h => absurd h hm⟩, fun h => absurd h hm, fun _ => rfl⟩
    exfalso
    cases hp : parseRecord env st (getParams env line) terrain with
    | none => rw [hp] at h; exact hi h
    | some w => rw [hp] at h; exact hi h

/-- Witness of C19: the marker itself sets `ignore_following`, and the record
`Alpha,A1` does not. -/
theorem marker_sets_ignore_witness :
    (parseLine specEnv ParserState.initial taskMarker 3 [] noTerrain).2.1.ignore_following
      = true ∧
    ¬ (parseLine specEnv ParserState.initial "Alpha,A1".toList 3 []
      noTerrain).2.1.ignore_following = true :=
  ⟨(marker_sets_ignore specEnv ParserState.initial taskMarker 3 [] noTerrain (by decide)
      (by decide) (by decide) rfl).1.mpr (by decide),
    fun h => absurd ((marker_sets_ignore specEnv ParserState.initial "Alpha,A1".toList 3 []
      noTerrain (by decide) (by decide) (by decide) rfl).1.mp h) (by decide)⟩

/-- Counterexample to C19 as stated: the data record
`-----Related Tasks-----,5115.900N` differs from the marker literal, and after
it `ignore_following` is true; it is skipped (true is returned), where an
ordinary record with these tokens (no lat column) would be rejected. -/
theorem marker_with_suffix_counterexample :
    "-----Related Tasks-----,5115.900N".toList ≠ taskMarker ∧
    isCommentLine "-----Related Tasks-----,5115.900N".toList = false ∧
    (parseLine specEnv ParserState.initial "-----Related Tasks-----,5115.900N".toList 1 []
      noTerrain).2.1.ignore_following = true ∧
    (parseLine specEnv ParserState.initial "-----Related Tasks-----,5115.900N".toList 1 []
      noTerrain).1 = true ∧
    parseRecord specEnv ParserState.initial
      (getParams specEnv "-----Related Tasks-----,5115.900N".toList) noTerrain = none := by
  refine ⟨by decide, by decide, by decide, by decide, by decide!⟩

/-- C20: a `parseLine` call with `linenum > 0` leaves all eleven column
indices as they were, whatever the line, the state and the outcome, and never
turns `ignore_following` from true to false: the state afterwards is the
state before, or the state before with `ignore_following` set. -/
theorem data_call_keeps_columns (env : Env) (st : ParserState) (line : CStr) (linenum : Nat)
    (way_points : Waypoints) (terrain : RasterTerrain) (hnum : 0 < linenum) :
    ((parseLine env st line linenum way_points terrain).2.1 = st ∨
      (parseLine env st line linenum way_points terrain).2.1 =
        { st with ignore_following := true }) ∧
    (parseLine env st line linenum way_points terrain).2.1.iName = st.iName ∧
    (parseLine env st line linenum way_points terrain).2.1.iCode = st.iCode ∧
    (parseLine env st line linenum way_points terrain).2.1.iCountry = st.iCountry ∧
    (parseLine env st line linenum way_points terrain).2.1.iLatitude = st.iLatitude ∧
    (parseLine env st line linenum way_points terrain).2.1.iLongitude = st.iLongitude ∧
    (parseLine env st line linenum way_points terrain).2.1.iElevation = st.iElevation ∧
    (parseLine env st line linenum way_points terrain).2.1.iStyle = st.iStyle ∧
    (parseLine env st line linenum way_points terrain).2.1.iRWDir = st.iRWDir ∧
    (parseLine env st line linenum way_points terrain).2.1.iRWLen = st.iRWLen ∧
    (parseLine env st line linenum way_points terrain).2.1.iFrequency = st.iFrequency ∧
    (parseLine env st line linenum way_points terrain).2.1.iDescription = st.iDescription ∧
    (st.ignore_following = true →
      (parseLine env st line linenum way_points terrain).2.1.ignore_following = true) := by
  have h : (parseLine env st line linenum way_points terrain).2.1 = st ∨
      (parseLine env st line linenum way_points terrain).2.1 =
        { st with ignore_following := true } := by
    rw [parseLine_eq]
    split_ifs with h1 h2 h3 h4 h5
    · exact Or.inl rfl
    · exact Or.inl rfl
    · omega
    · exact Or.inr rfl
    · exact Or.inl rfl
    · cases parseRecord env st (getParams env line) terrain with
      | none => exact Or.inl rfl
      | some w => exact Or.inl rfl
  refine ⟨h, ?_⟩
  rcases h with h | h <;> rw [h]
  · exact ⟨rfl, rfl, rfl, rfl, rfl, rfl, rfl, rfl, rfl, rfl, rfl, fun e => e⟩
  · exact ⟨rfl, rfl, rfl, rfl, rfl, rfl, rfl, rfl, rfl, rfl, rfl, fun _ => rfl⟩

/-- Witness of C20: a well-formed record processed after the marker was seen
leaves `ignore_following` true. -/
theorem data_call_keeps_columns_witness :
    (parseLine specEnv { ParserState.initial with ignore_following := true }
      "Alpha,A1,US,5115.900N,00715.900W".toList 4 [] noTerrain).2.1.ignore_following = true :=
  (data_call_keeps_columns specEnv { ParserState.initial with ignore_following := true }
    "Alpha,A1,US,5115.900N,00715.900W".toList 4 [] noTerrain (by decide)).2.2.2.2.2.2.2.2.2.2.2.2
    rfl
/-! ### The TurnPoint flag (C17) -/

end WayPointFileSeeYou
